import Mathlib

/-!
# emurv: a shallow embedding of the RV32I teaching emulator

The Go package `sim` (files `isa.go`, `bus.go`, `uart.go`, `cpu.go`) is embedded as
pure Lean functions with explicit state passing.

* `uint32` values are natural numbers below `2^32`; every operation that can overflow
  reduces modulo `2^32` explicitly.
* `int32` values are integers in `[-2^31, 2^31)`; `toInt32` and `toUint32` are the two
  Go conversions `int32(x)` and `uint32(i)`.
* `uint8` values are elements of `Fin 256` inside memory and natural numbers below `256`
  at the interfaces.
* The diagnostic lines that `Step` prints (`[trap] ...`, `[warn] ...`, `[halt] ECALL`,
  and the trace line) are not part of the machine state and are not modelled; the
  output of the device is exactly what `UART.Tx` writes.
-/

namespace Sim

/-! ## Machine integers -/

/-- The Go conversion `int32(x)` of a `uint32` value `x`: two's-complement reading. -/
def toInt32 (x : Nat) : Int :=
  if x < 2147483648 then (x : Int) else (x : Int) - 4294967296

/-- The Go conversion `uint32(i)` of a signed value `i`: reduction modulo `2^32`. -/
def toUint32 (i : Int) : Nat := (i % 4294967296).toNat

/-- The Go conversion `int8(b)` of a `uint8` value `b`. -/
def toInt8 (b : Nat) : Int :=
  if b < 128 then (b : Int) else (b : Int) - 256

/-- Left shift of a `uint32` (`v << k` in Go): bits shifted past bit 31 are lost. -/
def shl32 (v k : Nat) : Nat := (v <<< k) % 4294967296

/-- Addition of two `uint32` values (`a + b` in Go). -/
def add32 (a b : Nat) : Nat := (a + b) % 4294967296

/-- Subtraction of two `uint32` values (`a - b` in Go). -/
def sub32 (a b : Nat) : Nat := (a + (4294967296 - b % 4294967296)) % 4294967296

/-! ## isa.go -/

/-- The function `signExtend(v uint32, bits uint) int32` of `isa.go`:
`shift := 32 - bits; return int32(v<<shift) >> shift`. -/
def signExtend (v : Nat) (bits : Nat) : Int :=
  let shift := 32 - bits
  (toInt32 (shl32 v shift)) >>> shift

/-- The function `immI`: `signExtend(inst>>20, 12)`. -/
def immI (inst : Nat) : Int := signExtend (inst >>> 20) 12

/-- The function `immS`: low five bits from `inst[11:7]`, high seven from `inst[31:25]`. -/
def immS (inst : Nat) : Int :=
  let low := (inst >>> 7) &&& 0x1F
  let hi := (inst >>> 25) &&& 0x7F
  signExtend ((shl32 hi 5) ||| low) 12

/-- The function `immB`: `[12|10:5|4:1|11] << 1`, sign-extended from 13 bits. -/
def immB (inst : Nat) : Int :=
  let imm := shl32 ((inst >>> 31) &&& 1) 12 |||
    shl32 ((inst >>> 25) &&& 0x3F) 5 |||
    shl32 ((inst >>> 8) &&& 0xF) 1 |||
    shl32 ((inst >>> 7) &&& 1) 11
  signExtend imm 13

/-- The function `immU`: `int32(inst & 0xFFFFF000)`. -/
def immU (inst : Nat) : Int := toInt32 (inst &&& 0xFFFFF000)

/-- The function `immJ`: `[20|10:1|11|19:12] << 1`, sign-extended from 21 bits. -/
def immJ (inst : Nat) : Int :=
  let imm := shl32 ((inst >>> 31) &&& 1) 20 |||
    shl32 ((inst >>> 21) &&& 0x3FF) 1 |||
    shl32 ((inst >>> 20) &&& 1) 11 |||
    shl32 ((inst >>> 12) &&& 0xFF) 12
  signExtend imm 21

/-! ## cpu_test.go: the instruction encoders used by the tests -/

/-- The test helper `encR`. -/
def encR (op rd f3 rs1 rs2 f7 : Nat) : Nat :=
  shl32 f7 25 ||| shl32 rs2 20 ||| shl32 rs1 15 ||| shl32 f3 12 ||| shl32 rd 7 ||| op

/-- The test helper `encI` (imm is 12-bit signed). -/
def encI (op rd f3 rs1 : Nat) (imm : Int) : Nat :=
  let u := toUint32 imm &&& 0xFFF
  shl32 u 20 ||| shl32 rs1 15 ||| shl32 f3 12 ||| shl32 rd 7 ||| op

/-- The test helper `encS` (imm is 12-bit signed). -/
def encS (op f3 rs1 rs2 : Nat) (imm : Int) : Nat :=
  let u := toUint32 imm &&& 0xFFF
  let immhi := (u >>> 5) &&& 0x7F
  let immlo := u &&& 0x1F
  shl32 immhi 25 ||| shl32 rs2 20 ||| shl32 rs1 15 ||| shl32 f3 12 ||| shl32 immlo 7 ||| op

/-- The test helper `encB` (imm is 13-bit signed, a multiple of 2). -/
def encB (op f3 rs1 rs2 : Nat) (imm : Int) : Nat :=
  let u := toUint32 imm
  let b12 := (u >>> 12) &&& 0x1
  let b10_5 := (u >>> 5) &&& 0x3F
  let b4_1 := (u >>> 1) &&& 0xF
  let b11 := (u >>> 11) &&& 0x1
  shl32 b12 31 ||| shl32 b10_5 25 ||| shl32 rs2 20 ||| shl32 rs1 15 |||
    shl32 f3 12 ||| shl32 b4_1 8 ||| shl32 b11 7 ||| op

/-- The test helper `encU` (imm20 is the upper 20 bits). -/
def encU (op rd imm20 : Nat) : Nat :=
  shl32 imm20 12 ||| shl32 rd 7 ||| op

/-- The canonical RISC-V J-type word for a signed offset `imm`: bit 31 is `imm[20]`,
bits 30:21 are `imm[10:1]`, bit 20 is `imm[11]`, bits 19:12 are `imm[19:12]`, and the
low twelve bits hold `rd` and the opcode. The repository has no J-type encoder; this is
the layout of the RISC-V manual that `immJ` is checked against. -/
def encJ (op rd : Nat) (imm : Int) : Nat :=
  let u := toUint32 imm
  let b20 := (u >>> 20) &&& 0x1
  let b10_1 := (u >>> 1) &&& 0x3FF
  let b11 := (u >>> 11) &&& 0x1
  let b19_12 := (u >>> 12) &&& 0xFF
  shl32 b20 31 ||| shl32 b10_1 21 ||| shl32 b11 20 ||| shl32 b19_12 12 ||| shl32 rd 7 ||| op

/-! ## Memory -/

/-- Modelled from the spec: the type `RAM` of the repository (used by `bus.go` and the
tests, its source file is not among the sources). Memory is "a fixed-size, zero-initialized
byte array representing physical RAM, with bounds-checked byte access", "addressed
0..size-1". It is represented by its size and its content as a map from addresses to
bytes; only addresses below `size` are ever accessed. -/
structure RAM where
  size : Nat
  data : Nat → Fin 256

/-- Modelled from the spec: the constructor `NewRAM(size)`: memory of the requested size,
zero-initialized. -/
def NewRAM (size : Nat) : RAM := { size := size, data := fun _ => 0 }

/-- Modelled from the spec: `RAM.Read8`, "`read_byte(addr) -> byte or OutOfRange`";
"out-of-range access is the sole memory failure condition". -/
def RAM.Read8 (r : RAM) (addr : Nat) : Nat × Bool :=
  if addr < r.size then ((r.data addr).val, true) else (0, false)

/-- Modelled from the spec: `RAM.Write8`, "`write_byte(addr, byte) -> ok or OutOfRange`". -/
def RAM.Write8 (r : RAM) (addr : Nat) (v : Nat) : RAM × Bool :=
  if addr < r.size then
    ({ r with data := Function.update r.data addr ⟨v % 256, Nat.mod_lt _ (by decide)⟩ }, true)
  else (r, false)

/-! ## uart.go -/

/-- The device. The Go type `UART` is an empty struct whose `Tx` writes to the standard
output; `out` is the sequence of bytes the device has written so far. -/
structure UART where
  out : List Nat

/-- The constructor `NewUART`: nothing has been written yet. -/
def NewUART : UART := { out := [] }

/-- The bytes that `fmt.Printf("%c", b)` writes for a `uint8` argument `b`: the verb `%c`
formats the character whose Unicode code point is `b`, and Go writes it in UTF-8, so
code points below `0x80` are one byte and code points `0x80..0xFF` are the two bytes
`110000xx 10xxxxxx`. -/
def printfC (b : Nat) : List Nat :=
  if b < 0x80 then [b] else [0xC0 ||| (b >>> 6), 0x80 ||| (b &&& 0x3F)]

/-- The method `UART.Tx`: `fmt.Printf("%c", b)`. -/
def UART.Tx (u : UART) (b : Nat) : UART := { out := u.out ++ printfC b }

/-! ## bus.go -/

def UARTBase : Nat := 0x10000000
def UARTSize : Nat := 0x100
def UARTTx : Nat := UARTBase + 0x00
def UARTStatus : Nat := UARTBase + 0x04

/-- The type `Bus`: the memory and the device it routes to. -/
structure Bus where
  ram : RAM
  uart : UART

/-- The constructor `NewBus`. -/
def NewBus (ram : RAM) (uart : UART) : Bus := { ram := ram, uart := uart }

/-- The method `Bus.Read8`: the device window answers itself, everything else is RAM. -/
def Bus.Read8 (b : Bus) (addr : Nat) : Nat × Bool :=
  if addr ≥ UARTBase ∧ addr < UARTBase + UARTSize then
    if addr = UARTStatus then (1, true) else (0, true)
  else b.ram.Read8 addr

/-- The method `Bus.Write8`; the bus after the call is returned with the result. -/
def Bus.Write8 (b : Bus) (addr : Nat) (v : Nat) : Bus × Bool :=
  if addr ≥ UARTBase ∧ addr < UARTBase + UARTSize then
    if addr = UARTTx then ({ b with uart := b.uart.Tx v }, true) else (b, true)
  else
    let r := b.ram.Write8 addr v
    ({ b with ram := r.1 }, r.2)

/-- The method `Bus.Read32`: four `Read8` calls at `addr .. addr+3` (`uint32` addition),
the first failure ends the call. -/
def Bus.Read32 (b : Bus) (addr : Nat) : Nat × Bool :=
  match b.Read8 addr with
  | (_, false) => (0, false)
  | (b0, true) =>
    match b.Read8 (add32 addr 1) with
    | (_, false) => (0, false)
    | (b1, true) =>
      match b.Read8 (add32 addr 2) with
      | (_, false) => (0, false)
      | (b2, true) =>
        match b.Read8 (add32 addr 3) with
        | (_, false) => (0, false)
        | (b3, true) => (b0 ||| shl32 b1 8 ||| shl32 b2 16 ||| shl32 b3 24, true)

/-- The method `Bus.Write32`: a word store to the transmit register sends the low byte;
any other store is the short-circuit conjunction of four `Write8` calls. -/
def Bus.Write32 (b : Bus) (addr : Nat) (v : Nat) : Bus × Bool :=
  if addr = UARTTx then ({ b with uart := b.uart.Tx (v &&& 0xFF) }, true)
  else
    match b.Write8 addr (v &&& 0xFF) with
    | (b0, false) => (b0, false)
    | (b0, true) =>
      match b0.Write8 (add32 addr 1) ((v >>> 8) &&& 0xFF) with
      | (b1, false) => (b1, false)
      | (b1, true) =>
        match b1.Write8 (add32 addr 2) ((v >>> 16) &&& 0xFF) with
        | (b2, false) => (b2, false)
        | (b2, true) => b2.Write8 (add32 addr 3) ((v >>> 24) &&& 0xFF)

/-! ## cpu.go -/

/-- The type `CPU`: 32 registers, the program counter, the bus and the trace flag. The
array `Reg [32]uint32` is a map from indices to values; every index the code uses is a
five-bit field, so only indices below 32 are ever accessed. -/
structure CPU where
  Reg : Nat → Nat
  PC : Nat
  Bus : Bus
  Trace : Bool

/-- The constructor `NewCPU`: `&CPU{Bus: bus}`, every other field is zero. -/
def NewCPU (bus : Bus) : CPU := { Reg := fun _ => 0, PC := 0, Bus := bus, Trace := false }

/-- The method `CPU.readReg`. -/
def CPU.readReg (c : CPU) (i : Nat) : Nat :=
  if i = 0 then 0 else c.Reg i

/-- The method `CPU.writeReg`. -/
def CPU.writeReg (c : CPU) (i : Nat) (v : Nat) : CPU :=
  if i ≠ 0 then { c with Reg := Function.update c.Reg i v } else c

/-- The method `CPU.fetch`. -/
def CPU.fetch (c : CPU) : Nat × Bool := c.Bus.Read32 c.PC

/-- The last three lines of `CPU.Step`: `c.PC = nextPC; c.Reg[0] = 0; return true`. -/
def CPU.finish (c : CPU) (nextPC : Nat) : CPU × Bool :=
  ({ c with PC := nextPC, Reg := Function.update c.Reg 0 0 }, true)

/-- The `case 0x63` block of `CPU.Step` (BRANCH): the six comparisons; an unknown funct3
only prints a warning. -/
def CPU.execBranch (c : CPU) (inst f3 rs1 rs2 nextPC : Nat) : CPU × Bool :=
  let a := c.readReg rs1
  let b := c.readReg rs2
  let imm := toUint32 (immB inst)
  if f3 = 0x0 then -- BEQ
    if a = b then c.finish (add32 c.PC imm) else c.finish nextPC
  else if f3 = 0x1 then -- BNE
    if a ≠ b then c.finish (add32 c.PC imm) else c.finish nextPC
  else if f3 = 0x4 then -- BLT
    if toInt32 a < toInt32 b then c.finish (add32 c.PC imm) else c.finish nextPC
  else if f3 = 0x5 then -- BGE
    if toInt32 a ≥ toInt32 b then c.finish (add32 c.PC imm) else c.finish nextPC
  else if f3 = 0x6 then -- BLTU
    if a < b then c.finish (add32 c.PC imm) else c.finish nextPC
  else if f3 = 0x7 then -- BGEU
    if a ≥ b then c.finish (add32 c.PC imm) else c.finish nextPC
  else c.finish nextPC

/-- The `case 0x03` block of `CPU.Step` (LOAD): LB, LBU, LW; a failed bus read returns
`false` at once. -/
def CPU.execLoad (c : CPU) (inst rd f3 rs1 nextPC : Nat) : CPU × Bool :=
  let base := c.readReg rs1
  let addr := add32 base (toUint32 (immI inst))
  if f3 = 0x0 then -- LB
    match c.Bus.Read8 addr with
    | (_, false) => (c, false)
    | (b, true) => (c.writeReg rd (toUint32 (toInt8 b))).finish nextPC
  else if f3 = 0x4 then -- LBU
    match c.Bus.Read8 addr with
    | (_, false) => (c, false)
    | (b, true) => (c.writeReg rd b).finish nextPC
  else if f3 = 0x2 then -- LW
    match c.Bus.Read32 addr with
    | (_, false) => (c, false)
    | (w, true) => (c.writeReg rd w).finish nextPC
  else c.finish nextPC

/-- The `case 0x23` block of `CPU.Step` (STORE): SB, SW; a failed bus write returns
`false` at once, with whatever the bus call has already done. -/
def CPU.execStore (c : CPU) (inst f3 rs1 rs2 nextPC : Nat) : CPU × Bool :=
  let base := c.readReg rs1
  let addr := add32 base (toUint32 (immS inst))
  if f3 = 0x0 then -- SB
    let v := c.readReg rs2 &&& 0xFF
    match c.Bus.Write8 addr v with
    | (bus, false) => ({ c with Bus := bus }, false)
    | (bus, true) => CPU.finish { c with Bus := bus } nextPC
  else if f3 = 0x2 then -- SW
    let v := c.readReg rs2
    match c.Bus.Write32 addr v with
    | (bus, false) => ({ c with Bus := bus }, false)
    | (bus, true) => CPU.finish { c with Bus := bus } nextPC
  else c.finish nextPC

/-- The `case 0x13` block of `CPU.Step` (OP-IMM). -/
def CPU.execOpImm (c : CPU) (inst rd f3 rs1 nextPC : Nat) : CPU × Bool :=
  let a := c.readReg rs1
  let imm := toUint32 (immI inst)
  if f3 = 0x0 then -- ADDI
    (c.writeReg rd (add32 a (toUint32 (toInt32 imm)))).finish nextPC
  else if f3 = 0x4 then -- XORI
    (c.writeReg rd (a ^^^ imm)).finish nextPC
  else if f3 = 0x6 then -- ORI
    (c.writeReg rd (a ||| imm)).finish nextPC
  else if f3 = 0x7 then -- ANDI
    (c.writeReg rd (a &&& imm)).finish nextPC
  else if f3 = 0x1 then -- SLLI
    let sh := imm &&& 0x1F
    (c.writeReg rd (shl32 a sh)).finish nextPC
  else if f3 = 0x5 then
    if (imm >>> 10) &&& 0x3F = 0x00 then -- SRLI
      (c.writeReg rd (a >>> (imm &&& 0x1F))).finish nextPC
    else if (imm >>> 10) &&& 0x3F = 0x10 then -- SRAI
      (c.writeReg rd (toUint32 (toInt32 a >>> (imm &&& 0x1F)))).finish nextPC
    else c.finish nextPC
  else c.finish nextPC

/-- The `case 0x33` block of `CPU.Step` (OP). -/
def CPU.execOp (c : CPU) (rd f3 rs1 rs2 f7 nextPC : Nat) : CPU × Bool :=
  let a := c.readReg rs1
  let b := c.readReg rs2
  if f3 = 0x0 then
    if f7 = 0x20 then -- SUB
      (c.writeReg rd (sub32 a b)).finish nextPC
    else -- ADD
      (c.writeReg rd (add32 a b)).finish nextPC
  else if f3 = 0x4 then -- XOR
    (c.writeReg rd (a ^^^ b)).finish nextPC
  else if f3 = 0x6 then -- OR
    (c.writeReg rd (a ||| b)).finish nextPC
  else if f3 = 0x7 then -- AND
    (c.writeReg rd (a &&& b)).finish nextPC
  else if f3 = 0x1 then -- SLL
    (c.writeReg rd (shl32 a (b &&& 0x1F))).finish nextPC
  else if f3 = 0x5 then -- SRL/SRA
    if f7 = 0x20 then
      (c.writeReg rd (toUint32 (toInt32 a >>> (b &&& 0x1F)))).finish nextPC
    else
      (c.writeReg rd (a >>> (b &&& 0x1F))).finish nextPC
  else if f3 = 0x2 then -- SLT
    if toInt32 a < toInt32 b then (c.writeReg rd 1).finish nextPC
    else (c.writeReg rd 0).finish nextPC
  else if f3 = 0x3 then -- SLTU
    if a < b then (c.writeReg rd 1).finish nextPC
    else (c.writeReg rd 0).finish nextPC
  else c.finish nextPC

/-- The body of `CPU.Step` after a successful fetch of `inst`: decode, then the `switch`
on the opcode. The five larger `case` blocks are the functions above. A `return false`
of the Go code yields the state at that point with `false`; every other path ends in
`finish`. An unsupported opcode only prints a warning. -/
def CPU.exec (c : CPU) (inst : Nat) : CPU × Bool :=
  let op := inst &&& 0x7F
  let rd := (inst >>> 7) &&& 0x1F
  let f3 := (inst >>> 12) &&& 0x7
  let rs1 := (inst >>> 15) &&& 0x1F
  let rs2 := (inst >>> 20) &&& 0x1F
  let f7 := (inst >>> 25) &&& 0x7F
  let nextPC := add32 c.PC 4
  if op = 0x37 then -- LUI
    (c.writeReg rd (toUint32 (immU inst))).finish nextPC
  else if op = 0x17 then -- AUIPC
    (c.writeReg rd (toUint32 (toInt32 c.PC + immU inst))).finish nextPC
  else if op = 0x6F then -- JAL
    let imm := toUint32 (immJ inst)
    (c.writeReg rd (add32 c.PC 4)).finish (add32 c.PC imm)
  else if op = 0x67 then -- JALR
    let imm := toUint32 (immI inst)
    let tgt := (add32 (c.readReg rs1) imm) &&& 0xFFFFFFFE
    (c.writeReg rd (add32 c.PC 4)).finish tgt
  else if op = 0x63 then c.execBranch inst f3 rs1 rs2 nextPC
  else if op = 0x03 then c.execLoad inst rd f3 rs1 nextPC
  else if op = 0x23 then c.execStore inst f3 rs1 rs2 nextPC
  else if op = 0x13 then c.execOpImm inst rd f3 rs1 nextPC
  else if op = 0x33 then c.execOp rd f3 rs1 rs2 f7 nextPC
  else if op = 0x73 then -- SYSTEM: ECALL is a clean halt
    (c, false)
  else c.finish nextPC

/-- The method `CPU.Step`: fetch, and on success execute; `false` means that the machine
cannot continue. -/
def CPU.Step (c : CPU) : CPU × Bool :=
  match c.fetch with
  | (_, false) => (c, false)
  | (inst, true) => c.exec inst

/-- The test helper `runUntilHalt(cpu, max)`: at most `max` steps, stopping at the first
step that returns `false`. -/
def runUntilHalt (cpu : CPU) : Nat → CPU
  | 0 => cpu
  | max + 1 =>
    match cpu.Step with
    | (c, false) => c
    | (c, true) => runUntilHalt c max

/-- The machine after `n` calls of `Step`, whatever each call returned. -/
def stepN (c : CPU) : Nat → CPU
  | 0 => c
  | n + 1 => stepN c.Step.1 n

/-- The type invariant of a machine state: registers and program counter are `uint32`. -/
def CPU.WF (c : CPU) : Prop := (∀ i, c.Reg i < 4294967296) ∧ c.PC < 4294967296

/-- The little-endian bytes of a list of 32-bit words (the test helper `writeWords` lays
a program out in this way). -/
def wordBytes : List Nat → List Nat
  | [] => []
  | w :: ws => (w &&& 0xFF) :: ((w >>> 8) &&& 0xFF) :: ((w >>> 16) &&& 0xFF)
      :: ((w >>> 24) &&& 0xFF) :: wordBytes ws

/-- Modelled from the spec: `RAM.WriteBytes(base, bytes)` as used by the test helper
`writeWords`, "`load_bytes(base, bytes) -> ok or OutOfRange` copies a buffer starting at
`base`, failing if any byte would land outside the buffer" and then touching nothing. -/
def RAM.WriteBytes (r : RAM) (base : Nat) (bytes : List Nat) : RAM × Bool :=
  if base + bytes.length ≤ r.size then
    ({ r with data := fun a =>
        if base ≤ a ∧ a < base + bytes.length then
          ⟨bytes.getD (a - base) 0 % 256, Nat.mod_lt _ (by decide)⟩
        else r.data a }, true)
  else (r, false)

/-- A fresh machine as the tests build it: memory of `size` bytes holding the words
`prog` from address 0, a new device, a new bus and a new CPU. -/
def freshMachine (size : Nat) (prog : List Nat) : CPU :=
  NewCPU (NewBus (RAM.WriteBytes (NewRAM size) 0 (wordBytes prog)).1 NewUART)

/-! ## Machines and sequences used in the statements -/

/-- The two ways in which the body of `Step` ends: a `return false` that leaves registers
and program counter alone, or the common exit `finish`. -/
def ExecShape (c : CPU) (r : CPU × Bool) : Prop :=
  (∃ bus, r = ({ c with Bus := bus }, false)) ∨ (∃ c' pc, r = CPU.finish c' pc)

/-- The machine of `TestLBSignExtension`: 1 MiB of memory with the byte `0xFF` at address
`0x100` and the program `ADDI x3,x0,0x100; LB x4,0(x3); ECALL` at address 0. -/
def lbTestMachine : CPU :=
  NewCPU (NewBus (RAM.WriteBytes ((NewRAM 1048576).Write8 0x100 0xFF).1 0
    (wordBytes [encI 0x13 3 0 0 0x100, encI 0x03 4 0 3 0, 0x00000073])).1 NewUART)

/-- The machine of `TestLBSignExtension` with `LBU` in place of `LB`. -/
def lbuTestMachine : CPU :=
  NewCPU (NewBus (RAM.WriteBytes ((NewRAM 1048576).Write8 0x100 0xFF).1 0
    (wordBytes [encI 0x13 3 0 0 0x100, encI 0x03 4 4 3 0, 0x00000073])).1 NewUART)

/-- The machine of `TestBEQBranchSkips`: 1 MiB of memory holding
`ADDI x5,x0,1; BEQ x5,x5,+8; ADDI x6,x0,99; ADDI x6,x0,7; ECALL` at address 0. -/
def beqTestMachine : CPU :=
  freshMachine 1048576 [encI 0x13 5 0 0 1, encB 0x63 0 5 5 8, encI 0x13 6 0 0 99,
    encI 0x13 6 0 0 7, 0x00000073]

/-- A machine with the default memory size (16 MiB, all zero) whose program counter is
the first address of the device window; the `-pc` option of the command sets such a
program counter. -/
def deviceFetchMachine : CPU :=
  { NewCPU (NewBus (NewRAM 16777216) NewUART) with PC := 0x10000000 }

/-- One store to the transmit register through the bus: a byte store
`Write8(0x10000000, v)` or a word store `Write32(0x10000000, w)`. -/
inductive TxStore where
  | byte (v : Nat)
  | word (w : Nat)

/-- The bus call that a store to the transmit register makes. -/
def TxStore.run (b : Bus) : TxStore → Bus × Bool
  | .byte v => b.Write8 UARTTx v
  | .word w => b.Write32 UARTTx w

/-- The low 8 bits of the stored value. -/
def TxStore.low8 : TxStore → Nat
  | .byte v => v % 256
  | .word w => w % 256

/-- A sequence of stores to the transmit register, in call order: the bus afterwards and
whether every call reported success. -/
def runStores (b : Bus) : List TxStore → Bus × Bool
  | [] => (b, true)
  | s :: ss => ((runStores (s.run b).1 ss).1, (s.run b).2 && (runStores (s.run b).1 ss).2)

/-- The program of `TestUARTAndEcallHalt` with the character `c`:
`LUI x1,0x10000; ADDI x2,x0,c; SB x2,0(x1); ECALL`. -/
def printProgram (c : Nat) : List Nat :=
  [encU 0x37 1 0x10000, encI 0x13 2 0x0 0 (c : Int), encS 0x23 0x0 1 2 0, 0x00000073]

/-- A fresh machine with the default memory size (16 MiB) holding `printProgram c`. -/
def printMachine (c : Nat) : CPU := freshMachine 16777216 (printProgram c)

/-- A fresh machine with the default memory size holding `ADDI x1,x0,-8; SRAI x2,x1,1`. -/
def sraiMachine : CPU :=
  freshMachine 16777216 [encI 0x13 1 0x0 0 (-8), encI 0x13 2 0x5 1 0x401]

/-- A fresh machine with the default memory size holding
`ADDI x1,x0,5; ADDI x2,x0,7` and the word `0x022081B3` (opcode 0x33, funct3 0,
funct7 0x01: `MUL x3,x1,x2` of the M extension, not an RV32I instruction). -/
def mulTestMachine : CPU :=
  freshMachine 16777216 [encI 0x13 1 0x0 0 5, encI 0x13 2 0x0 0 7, encR 0x33 3 0x0 1 2 0x01]

/-- A fresh machine with the default memory size holding the word `SLTI x1,x0,5`
(opcode 0x13, funct3 2), which the emulator does not implement. -/
def sltiTestMachine : CPU := freshMachine 16777216 [encI 0x13 1 0x2 0 5]

/-- A fresh machine with the default memory size holding `ADDI x1,x0,-8` and the word
`0x4210D113` (opcode 0x13, funct3 5, funct7 0x21, shift amount 1, `rd = x2`, `rs1 = x1`),
which is neither SRLI nor SRAI. -/
def shiftFunct7Machine : CPU :=
  freshMachine 16777216 [encI 0x13 1 0x0 0 (-8), 0x4210D113]

/-- A fresh machine with the default memory size holding
`ADDI x1,x0,5; ADDI x2,x0,7; SUB x1,x1,x2` (the destination is also a source). -/
def subTestMachine : CPU :=
  freshMachine 16777216 [encI 0x13 1 0x0 0 5, encI 0x13 2 0x0 0 7, encR 0x33 1 0x0 1 2 0x20]

/-- A fresh machine with the default memory size holding
`ADDI x1,x0,0x103; JALR x1,7(x1)` (the link register is also the base register). -/
def jalrTestMachine : CPU :=
  freshMachine 16777216 [encI 0x13 1 0x0 0 0x103, encI 0x67 1 0x0 1 7]

/-- A fresh machine with the default memory size holding `JAL x5,-4`. -/
def jalTestMachine : CPU := freshMachine 16777216 [encJ 0x6F 5 (-4)]

/-- A fresh machine with the default memory size holding `JAL x0,+2`. -/
def jalOddMachine : CPU := freshMachine 16777216 [encJ 0x6F 0 2]

/-- Where a step that returns true can leave the program counter: at `PC + 4` or at the
target `t` of the jump or branch. -/
def PCShape (c : CPU) (t : Nat) (r : CPU × Bool) : Prop :=
  r.2 = true → (r.1.PC = add32 c.PC 4 ∨ r.1.PC = t)

/-- The diagnostic lines that `CPU.Step` prints with `fmt.Println` and `fmt.Printf`, one
constructor for each print statement other than the trace line: `[trap] fetch OOB`,
`[trap] LB OOB`, `[trap] LBU OOB`, `[trap] LW OOB`, `[trap] SB OOB`, `[trap] SW OOB`,
`[halt] ECALL`, and the warnings with the numbers they print. -/
inductive Diag where
  | trapFetch
  | trapLB
  | trapLBU
  | trapLW
  | trapSB
  | trapSW
  | haltEcall
  | warnBranch (f3 : Nat)
  | warnLoad (f3 : Nat)
  | warnStore (f3 : Nat)
  | warnOpImmFunct5
  | warnOpImm (f3 : Nat)
  | warnOp (f3 f7 : Nat)
  | warnOpcode (op pc : Nat)
  deriving DecidableEq

/-- The diagnostics that begin with `[trap]`: the address faults. -/
def Diag.isTrap : Diag → Bool
  | .trapFetch | .trapLB | .trapLBU | .trapLW | .trapSB | .trapSW => true
  | _ => false

/-- What the `case 0x03` block of `CPU.Step` prints. -/
def CPU.diagLoad (c : CPU) (inst f3 rs1 : Nat) : Option Diag :=
  let base := c.readReg rs1
  let addr := add32 base (toUint32 (immI inst))
  if f3 = 0x0 then
    match c.Bus.Read8 addr with
    | (_, false) => some .trapLB
    | (_, true) => none
  else if f3 = 0x4 then
    match c.Bus.Read8 addr with
    | (_, false) => some .trapLBU
    | (_, true) => none
  else if f3 = 0x2 then
    match c.Bus.Read32 addr with
    | (_, false) => some .trapLW
    | (_, true) => none
  else some (.warnLoad f3)

/-- What the `case 0x23` block of `CPU.Step` prints. -/
def CPU.diagStore (c : CPU) (inst f3 rs1 rs2 : Nat) : Option Diag :=
  let base := c.readReg rs1
  let addr := add32 base (toUint32 (immS inst))
  if f3 = 0x0 then
    match c.Bus.Write8 addr (c.readReg rs2 &&& 0xFF) with
    | (_, false) => some .trapSB
    | (_, true) => none
  else if f3 = 0x2 then
    match c.Bus.Write32 addr (c.readReg rs2) with
    | (_, false) => some .trapSW
    | (_, true) => none
  else some (.warnStore f3)

/-- What the body of `CPU.Step` prints after a successful fetch of `inst` (the trace line
apart): nothing for an instruction that executes, a warning for a skipped one, a trap
line for a failed bus access, the halt line for opcode 0x73. -/
def CPU.diagExec (c : CPU) (inst : Nat) : Option Diag :=
  let op := inst &&& 0x7F
  let f3 := (inst >>> 12) &&& 0x7
  let rs1 := (inst >>> 15) &&& 0x1F
  let rs2 := (inst >>> 20) &&& 0x1F
  let f7 := (inst >>> 25) &&& 0x7F
  if op = 0x37 then none
  else if op = 0x17 then none
  else if op = 0x6F then none
  else if op = 0x67 then none
  else if op = 0x63 then
    if f3 = 0x0 ∨ f3 = 0x1 ∨ f3 = 0x4 ∨ f3 = 0x5 ∨ f3 = 0x6 ∨ f3 = 0x7 then none
    else some (.warnBranch f3)
  else if op = 0x03 then c.diagLoad inst f3 rs1
  else if op = 0x23 then c.diagStore inst f3 rs1 rs2
  else if op = 0x13 then
    let imm := toUint32 (immI inst)
    if f3 = 0x0 ∨ f3 = 0x4 ∨ f3 = 0x6 ∨ f3 = 0x7 ∨ f3 = 0x1 then none
    else if f3 = 0x5 then
      if (imm >>> 10) &&& 0x3F = 0x00 then none
      else if (imm >>> 10) &&& 0x3F = 0x10 then none
      else some .warnOpImmFunct5
    else some (.warnOpImm f3)
  else if op = 0x33 then
    if f3 = 0x0 ∨ f3 = 0x4 ∨ f3 = 0x6 ∨ f3 = 0x7 ∨ f3 = 0x1 ∨ f3 = 0x5 ∨ f3 = 0x2 ∨ f3 = 0x3
    then none
    else some (.warnOp f3 f7)
  else if op = 0x73 then some .haltEcall
  else some (.warnOpcode op c.PC)

/-- What one call of `CPU.Step` prints (the trace line apart). -/
def CPU.StepDiag (c : CPU) : Option Diag :=
  match c.fetch with
  | (_, false) => some .trapFetch
  | (inst, true) => c.diagExec inst

/-- A fresh machine with the default memory size holding only `ECALL`. -/
def ecallMachine : CPU := freshMachine 16777216 [0x00000073]

/-- A fresh machine with the default memory size holding `LB x1,-1(x0)`, a load from
address `0xFFFFFFFF`. -/
def loadFaultMachine : CPU := freshMachine 16777216 [encI 0x03 1 0x0 0 (-1)]

/-- A fresh machine with the default memory size holding `SW x0,-1(x0)`, a store to
address `0xFFFFFFFF`. -/
def storeFaultMachine : CPU := freshMachine 16777216 [encS 0x23 0x2 0 0 (-1)]

/-- A machine with the default memory size whose program counter is the memory size. -/
def fetchFaultMachine : CPU :=
  { NewCPU (NewBus (NewRAM 16777216) NewUART) with PC := 16777216 }

/-- The bus of the counterexample to the last sentence of C17: 256 MiB of memory, so that
the memory ends where the device window begins. -/
def bus256MiB : Bus := NewBus (NewRAM 0x10000000) NewUART

/-- Address `a` lies in the device register window `[0x10000000, 0x10000100)`. -/
def inWindow (a : Nat) : Prop := 0x10000000 ≤ a ∧ a < 0x10000100

instance (a : Nat) : Decidable (inWindow a) := by unfold inWindow; infer_instance

/-- A fresh machine with 8 bytes of memory holding `ADDI x1,x0,0x10; SW x1,5(x0)`: the
word store at address 4 writes to addresses 5, 6, 7 (the upper bytes of its own
instruction word) and fails at address 8. -/
def selfModMachine : CPU := freshMachine 8 [encI 0x13 1 0x0 0 0x10, encS 0x23 0x2 0 1 5]

/-- The diagnostic `r` of a step is neither a trap line nor the halt line. -/
def NoStop (r : Option Diag) : Prop :=
  ∀ d, r = some d → ¬ (d.isTrap = true ∨ d = Diag.haltEcall)

/-! ## Arithmetic reading of the bit operations -/

theorem lor_eq_add (k a b : Nat) (ha : 2 ^ k ∣ a) (hb : b < 2 ^ k) : a ||| b = a + b := by
  obtain ⟨c, rfl⟩ := ha
  exact (Nat.mul_add_lt_is_or hb c).symm

theorem lor_eq_add_mid (k m a b : Nat) (ha : a % 2 ^ m < 2 ^ k) (hb1 : 2 ^ k ∣ b)
    (hb2 : b < 2 ^ m) : a ||| b = a + b := by
  rcases Nat.eq_zero_or_pos b with hb0 | hbpos
  · subst hb0; simp
  · obtain ⟨c, rfl⟩ := hb1
    have hkm : k ≤ m := by
      by_contra hlt
      have h1 : 2 ^ m < 2 ^ k := Nat.pow_lt_pow_right (by norm_num) (by omega)
      have h2 : 2 ^ k ≤ 2 ^ k * c := Nat.le_mul_of_pos_right _ (by
        rcases Nat.eq_zero_or_pos c with h | h
        · subst h; simp at hbpos
        · exact h)
      omega
    obtain ⟨d, rfl⟩ : ∃ d, m = k + d := ⟨m - k, by omega⟩
    have hpow : 2 ^ (k + d) = 2 ^ k * 2 ^ d := Nat.pow_add 2 k d
    have hc : c < 2 ^ d := by
      rw [hpow] at hb2
      exact Nat.lt_of_mul_lt_mul_left hb2
    have hsum : 2 ^ k * c + a % 2 ^ (k + d) < 2 ^ (k + d) := by
      have : 2 ^ k * (c + 1) ≤ 2 ^ k * 2 ^ d := Nat.mul_le_mul_left _ hc
      rw [hpow] at ha ⊢
      rw [Nat.mul_add, Nat.mul_one] at this
      omega
    have hsplit : a = 2 ^ (k + d) * (a / 2 ^ (k + d)) + a % 2 ^ (k + d) :=
      (Nat.div_add_mod a _).symm
    have hlow : 2 ^ k * c ||| a % 2 ^ (k + d) = 2 ^ k * c + a % 2 ^ (k + d) :=
      lor_eq_add k _ _ ⟨c, rfl⟩ ha
    have e1 : a = 2 ^ (k + d) * (a / 2 ^ (k + d)) ||| a % 2 ^ (k + d) := by
      rw [lor_eq_add (k + d) _ _ ⟨_, rfl⟩ (Nat.mod_lt _ (by positivity))]
      exact hsplit
    calc a ||| 2 ^ k * c
        = (2 ^ (k + d) * (a / 2 ^ (k + d)) ||| a % 2 ^ (k + d)) ||| 2 ^ k * c := by rw [← e1]
      _ = 2 ^ (k + d) * (a / 2 ^ (k + d)) ||| (2 ^ k * c ||| a % 2 ^ (k + d)) := by
          rw [Nat.lor_assoc, Nat.lor_comm (a % 2 ^ (k + d))]
      _ = 2 ^ (k + d) * (a / 2 ^ (k + d)) + (2 ^ k * c + a % 2 ^ (k + d)) := by
          rw [hlow, lor_eq_add (k + d) _ _ ⟨_, rfl⟩ hsum]
      _ = a + 2 ^ k * c := by omega

theorem and_mask (x k : Nat) : x &&& (2 ^ k - 1) = x % 2 ^ k :=
  Nat.and_pow_two_sub_one_eq_mod x k

theorem and_1 (x : Nat) : x &&& 1 = x % 2 := and_mask x 1
theorem and_7 (x : Nat) : x &&& 7 = x % 8 := and_mask x 3
theorem and_F (x : Nat) : x &&& 15 = x % 16 := and_mask x 4
theorem and_1F (x : Nat) : x &&& 31 = x % 32 := and_mask x 5
theorem and_3F (x : Nat) : x &&& 63 = x % 64 := and_mask x 6
theorem and_7F (x : Nat) : x &&& 127 = x % 128 := and_mask x 7
theorem and_FF (x : Nat) : x &&& 255 = x % 256 := and_mask x 8
theorem and_3FF (x : Nat) : x &&& 1023 = x % 1024 := and_mask x 10
theorem and_FFF (x : Nat) : x &&& 4095 = x % 4096 := and_mask x 12

theorem and_FFFFF000 (x : Nat) : x &&& 0xFFFFF000 = x / 4096 % 1048576 * 4096 := by
  apply Nat.eq_of_testBit_eq
  intro i
  have h1 : (0xFFFFF000 : Nat) = (2 ^ 20 - 1) <<< 12 := by decide
  have h2 : x / 4096 % 1048576 * 4096 = 2 ^ 12 * ((x >>> 12) % 2 ^ 20) := by
    rw [Nat.shiftRight_eq_div_pow]; norm_num [Nat.mul_comm]
  rw [h2, Nat.testBit_and, h1, Nat.testBit_shiftLeft, Nat.testBit_two_pow_sub_one,
    Nat.testBit_mul_pow_two, Nat.testBit_mod_two_pow, Nat.testBit_shiftRight]
  by_cases hi : i ≥ 12
  · have : 12 + (i - 12) = i := by omega
    simp [hi, this, Bool.and_comm]
  · simp [hi]

theorem shr_eq (x k : Nat) : x >>> k = x / 2 ^ k := Nat.shiftRight_eq_div_pow x k

theorem shl32_eq (v k : Nat) : shl32 v k = v * 2 ^ k % 4294967296 := by
  simp [shl32, Nat.shiftLeft_eq]

theorem signExtend_eq (v bits : Nat) :
    signExtend v bits = toInt32 (v * 2 ^ (32 - bits) % 4294967296) / (2 : Int) ^ (32 - bits) := by
  simp [signExtend, shl32_eq, Int.shiftRight_eq_div_pow]

theorem ite_ind {α : Type} (P : α → Prop) (c : Prop) [Decidable c] (a b : α)
    (ha : c → P a) (hb : ¬c → P b) : P (if c then a else b) := by
  by_cases h : c
  · rw [if_pos h]; exact ha h
  · rw [if_neg h]; exact hb h

theorem execBranch_shape (c : CPU) (inst f3 rs1 rs2 nextPC : Nat) :
    ExecShape c (c.execBranch inst f3 rs1 rs2 nextPC) := by
  unfold CPU.execBranch
  dsimp only
  repeat' (with_reducible apply ite_ind <;> intro _)
  all_goals exact Or.inr ⟨_, _, rfl⟩

theorem execLoad_shape (c : CPU) (inst rd f3 rs1 nextPC : Nat) :
    ExecShape c (c.execLoad inst rd f3 rs1 nextPC) := by
  unfold CPU.execLoad
  dsimp only
  repeat' (with_reducible apply ite_ind <;> intro _)
  all_goals try split
  all_goals first
    | exact Or.inr ⟨_, _, rfl⟩
    | exact Or.inl ⟨c.Bus, rfl⟩

theorem execStore_shape (c : CPU) (inst f3 rs1 rs2 nextPC : Nat) :
    ExecShape c (c.execStore inst f3 rs1 rs2 nextPC) := by
  unfold CPU.execStore
  dsimp only
  repeat' (with_reducible apply ite_ind <;> intro _)
  all_goals try split
  all_goals first
    | exact Or.inr ⟨_, _, rfl⟩
    | exact Or.inl ⟨_, rfl⟩

theorem execOpImm_shape (c : CPU) (inst rd f3 rs1 nextPC : Nat) :
    ExecShape c (c.execOpImm inst rd f3 rs1 nextPC) := by
  unfold CPU.execOpImm
  dsimp only
  repeat' (with_reducible apply ite_ind <;> intro _)
  all_goals exact Or.inr ⟨_, _, rfl⟩

theorem execOp_shape (c : CPU) (rd f3 rs1 rs2 f7 nextPC : Nat) :
    ExecShape c (c.execOp rd f3 rs1 rs2 f7 nextPC) := by
  unfold CPU.execOp
  dsimp only
  repeat' (with_reducible apply ite_ind <;> intro _)
  all_goals exact Or.inr ⟨_, _, rfl⟩

theorem exec_shape (c : CPU) (inst : Nat) : ExecShape c (c.exec inst) := by
  unfold CPU.exec
  dsimp only
  repeat' (with_reducible apply ite_ind <;> intro _)
  · exact Or.inr ⟨_, _, rfl⟩
  · exact Or.inr ⟨_, _, rfl⟩
  · exact Or.inr ⟨_, _, rfl⟩
  · exact Or.inr ⟨_, _, rfl⟩
  · exact execBranch_shape ..
  · exact execLoad_shape ..
  · exact execStore_shape ..
  · exact execOpImm_shape ..
  · exact execOp_shape ..
  · exact Or.inl ⟨c.Bus, rfl⟩
  · exact Or.inr ⟨_, _, rfl⟩

theorem exec_reg0_of_true (c : CPU) (inst : Nat) (h : (c.exec inst).2 = true) :
    (c.exec inst).1.Reg 0 = 0 := by
  rcases exec_shape c inst with ⟨bus, hb⟩ | ⟨c', pc, hc⟩
  · rw [hb] at h; simp at h
  · rw [hc]; simp [CPU.finish]

theorem exec_reg0_of_inv (c : CPU) (inst : Nat) (h : c.Reg 0 = 0) :
    (c.exec inst).1.Reg 0 = 0 := by
  rcases exec_shape c inst with ⟨bus, hb⟩ | ⟨c', pc, hc⟩
  · rw [hb]; exact h
  · rw [hc]; simp [CPU.finish]

theorem Step_cases (c : CPU) :
    c.Step = (c, false) ∨ ∃ inst, c.fetch = (inst, true) ∧ c.Step = c.exec inst := by
  unfold CPU.Step
  split
  · exact Or.inl rfl
  · rename_i inst heq
    exact Or.inr ⟨inst, heq, rfl⟩

theorem Step_eq_exec (c : CPU) (inst : Nat) (h : c.fetch = (inst, true)) :
    c.Step = c.exec inst := by
  simp [CPU.Step, h]

theorem Step_reg0_of_inv (c : CPU) (h : c.Reg 0 = 0) : c.Step.1.Reg 0 = 0 := by
  rcases Step_cases c with hs | ⟨inst, _, hs⟩
  · rw [hs]; exact h
  · rw [hs]; exact exec_reg0_of_inv c inst h

theorem stepN_reg0 (n : Nat) : ∀ c : CPU, c.Reg 0 = 0 → (stepN c n).Reg 0 = 0 := by
  induction n with
  | zero => intro c h; exact h
  | succ n ih => intro c h; exact ih _ (Step_reg0_of_inv c h)

/-- C1: register 0 is hardwired to zero. -/
theorem C1_reg0_hardwired_zero :
    (∀ c : CPU, c.Reg 0 = 0 → c.Step.1.Reg 0 = 0) ∧
    (∀ (bus : Bus) (n : Nat), (stepN (NewCPU bus) n).Reg 0 = 0) ∧
    (∀ c : CPU, c.Step.2 = true → c.Step.1.Reg 0 = 0) := by
  refine ⟨Step_reg0_of_inv, fun bus n => stepN_reg0 n _ rfl, ?_⟩
  intro c h
  rcases Step_cases c with hs | ⟨inst, _, hs⟩
  · rw [hs] at h; simp at h
  · rw [hs] at h ⊢; exact exec_reg0_of_true c inst h

theorem shl32_of_lt (v k : Nat) (h : v * 2 ^ k < 4294967296) : shl32 v k = v * 2 ^ k := by
  rw [shl32_eq, Nat.mod_eq_of_lt h]

theorem signExtend_12 (v : Nat) (imm : Int) (hv : (v : Int) = imm % 4096)
    (hlo : -2048 ≤ imm) (hhi : imm ≤ 2047) : signExtend v 12 = imm := by
  simp only [signExtend_eq, toInt32]
  norm_num
  have hm : v * 1048576 % 4294967296 = v * 1048576 := by omega
  rw [hm]
  split <;> omega

theorem signExtend_13 (v : Nat) (imm : Int) (hv : (v : Int) = imm % 8192)
    (hlo : -4096 ≤ imm) (hhi : imm ≤ 4095) : signExtend v 13 = imm := by
  simp only [signExtend_eq, toInt32]
  norm_num
  have hm : v * 524288 % 4294967296 = v * 524288 := by omega
  rw [hm]
  split <;> omega

theorem signExtend_21 (v : Nat) (imm : Int) (hv : (v : Int) = imm % 2097152)
    (hlo : -1048576 ≤ imm) (hhi : imm ≤ 1048575) : signExtend v 21 = imm := by
  simp only [signExtend_eq, toInt32]
  norm_num
  have hm : v * 2048 % 4294967296 = v * 2048 := by omega
  rw [hm]
  split <;> omega

/-! ### The decoders as arithmetic on the fields of the word -/

theorem immI_eq (inst : Nat) : immI inst = signExtend (inst / 1048576) 12 := by
  simp [immI, shr_eq]

theorem immS_eq (inst : Nat) :
    immS inst = signExtend (inst / 33554432 % 128 * 32 + inst / 128 % 32) 12 := by
  simp only [immS, shr_eq, and_7F, and_1F]
  norm_num
  have h1 : inst / 33554432 % 128 < 128 := Nat.mod_lt _ (by norm_num)
  have h2 : inst / 128 % 32 < 32 := Nat.mod_lt _ (by norm_num)
  generalize inst / 33554432 % 128 = hi at h1 ⊢
  generalize inst / 128 % 32 = lo at h2 ⊢
  simp (disch := omega) only [shl32_of_lt]
  simp (disch := omega) only [lor_eq_add_mid 0 5]
  norm_num

theorem immB_eq (inst : Nat) :
    immB inst = signExtend (inst / 2147483648 % 2 * 4096 + inst / 128 % 2 * 2048
      + inst / 33554432 % 64 * 32 + inst / 256 % 16 * 2) 13 := by
  simp only [immB, shr_eq, and_1, and_3F, and_F]
  norm_num
  have h12 : inst / 2147483648 % 2 < 2 := Nat.mod_lt _ (by norm_num)
  have h10 : inst / 33554432 % 64 < 64 := Nat.mod_lt _ (by norm_num)
  have h4 : inst / 256 % 16 < 16 := Nat.mod_lt _ (by norm_num)
  have h11 : inst / 128 % 2 < 2 := Nat.mod_lt _ (by norm_num)
  generalize inst / 2147483648 % 2 = b12 at h12 ⊢
  generalize inst / 33554432 % 64 = b10 at h10 ⊢
  generalize inst / 256 % 16 = b4 at h4 ⊢
  generalize inst / 128 % 2 = b11 at h11 ⊢
  simp (disch := omega) only [shl32_of_lt]
  simp (disch := omega) only [lor_eq_add_mid 0 5, lor_eq_add_mid 0 12, lor_eq_add_mid 11 12]
  congr 1
  omega

theorem immJ_eq (inst : Nat) :
    immJ inst = signExtend (inst / 2147483648 % 2 * 1048576 + inst / 4096 % 256 * 4096
      + inst / 1048576 % 2 * 2048 + inst / 2097152 % 1024 * 2) 21 := by
  simp only [immJ, shr_eq, and_1, and_3FF, and_FF]
  norm_num
  have h20 : inst / 2147483648 % 2 < 2 := Nat.mod_lt _ (by norm_num)
  have h10 : inst / 2097152 % 1024 < 1024 := Nat.mod_lt _ (by norm_num)
  have h11 : inst / 1048576 % 2 < 2 := Nat.mod_lt _ (by norm_num)
  have h19 : inst / 4096 % 256 < 256 := Nat.mod_lt _ (by norm_num)
  generalize inst / 2147483648 % 2 = b20 at h20 ⊢
  generalize inst / 2097152 % 1024 = b10 at h10 ⊢
  generalize inst / 1048576 % 2 = b11 at h11 ⊢
  generalize inst / 4096 % 256 = b19 at h19 ⊢
  simp (disch := omega) only [shl32_of_lt]
  simp (disch := omega) only [lor_eq_add_mid 0 20, lor_eq_add_mid 11 12, lor_eq_add_mid 12 20]
  congr 1
  omega

theorem immU_eq (inst : Nat) : immU inst = toInt32 (inst / 4096 % 1048576 * 4096) := by
  simp only [immU, and_FFFFF000]

/-! ### The encoders as sums of their fields -/

theorem toUint32_cast (imm : Int) : ((toUint32 imm : Nat) : Int) = imm % 4294967296 := by
  unfold toUint32; omega

theorem encI_eq (op rd f3 rs1 : Nat) (imm : Int)
    (hop : op < 128) (hrd : rd < 32) (hf3 : f3 < 8) (hrs1 : rs1 < 32) :
    encI op rd f3 rs1 imm
      = (toUint32 imm % 4096) * 1048576 + rs1 * 32768 + f3 * 4096 + rd * 128 + op := by
  simp only [encI, and_FFF]
  have hu : toUint32 imm % 4096 < 4096 := Nat.mod_lt _ (by norm_num)
  generalize toUint32 imm % 4096 = u at hu ⊢
  simp (disch := omega) only [shl32_of_lt]
  simp (disch := omega) only [lor_eq_add_mid 0 7, lor_eq_add_mid 0 12, lor_eq_add_mid 0 15,
    lor_eq_add_mid 0 20]
  norm_num

theorem encS_eq (op f3 rs1 rs2 : Nat) (imm : Int)
    (hop : op < 128) (hf3 : f3 < 8) (hrs1 : rs1 < 32) (hrs2 : rs2 < 32) :
    encS op f3 rs1 rs2 imm
      = (toUint32 imm % 4096 / 32) * 33554432 + rs2 * 1048576 + rs1 * 32768 + f3 * 4096
        + (toUint32 imm % 32) * 128 + op := by
  simp only [encS, and_FFF, and_7F, and_1F, shr_eq]
  have e1 : toUint32 imm % 4096 / 2 ^ 5 % 128 = toUint32 imm % 4096 / 32 := by omega
  have e2 : toUint32 imm % 4096 % 32 = toUint32 imm % 32 := by omega
  rw [e1, e2]
  have h1 : toUint32 imm % 4096 / 32 < 128 := by omega
  have h2 : toUint32 imm % 32 < 32 := Nat.mod_lt _ (by norm_num)
  generalize toUint32 imm % 4096 / 32 = hi at h1 ⊢
  generalize toUint32 imm % 32 = lo at h2 ⊢
  simp (disch := omega) only [shl32_of_lt]
  simp (disch := omega) only [lor_eq_add_mid 0 7, lor_eq_add_mid 0 12, lor_eq_add_mid 0 15,
    lor_eq_add_mid 0 20, lor_eq_add_mid 0 25]
  norm_num

theorem encB_eq (op f3 rs1 rs2 : Nat) (imm : Int)
    (hop : op < 128) (hf3 : f3 < 8) (hrs1 : rs1 < 32) (hrs2 : rs2 < 32) :
    encB op f3 rs1 rs2 imm
      = (toUint32 imm / 4096 % 2) * 2147483648 + (toUint32 imm / 32 % 64) * 33554432
        + rs2 * 1048576 + rs1 * 32768 + f3 * 4096 + (toUint32 imm / 2 % 16) * 256
        + (toUint32 imm / 2048 % 2) * 128 + op := by
  simp only [encB, and_1, and_3F, and_F, shr_eq]
  norm_num
  have h12 : toUint32 imm / 4096 % 2 < 2 := Nat.mod_lt _ (by norm_num)
  have h10 : toUint32 imm / 32 % 64 < 64 := Nat.mod_lt _ (by norm_num)
  have h4 : toUint32 imm / 2 % 16 < 16 := Nat.mod_lt _ (by norm_num)
  have h11 : toUint32 imm / 2048 % 2 < 2 := Nat.mod_lt _ (by norm_num)
  generalize toUint32 imm / 4096 % 2 = b12 at h12 ⊢
  generalize toUint32 imm / 32 % 64 = b10 at h10 ⊢
  generalize toUint32 imm / 2 % 16 = b4 at h4 ⊢
  generalize toUint32 imm / 2048 % 2 = b11 at h11 ⊢
  simp (disch := omega) only [shl32_of_lt]
  simp (disch := omega) only [lor_eq_add_mid 0 7, lor_eq_add_mid 0 8, lor_eq_add_mid 0 12,
    lor_eq_add_mid 0 15, lor_eq_add_mid 0 20, lor_eq_add_mid 0 25, lor_eq_add_mid 0 31]
  norm_num

theorem encU_eq (op rd imm20 : Nat) (hop : op < 128) (hrd : rd < 32)
    (himm : imm20 < 1048576) : encU op rd imm20 = imm20 * 4096 + rd * 128 + op := by
  simp only [encU]
  simp (disch := omega) only [shl32_of_lt]
  simp (disch := omega) only [lor_eq_add_mid 0 7, lor_eq_add_mid 0 12]
  norm_num

theorem encJ_eq (op rd : Nat) (imm : Int) (hop : op < 128) (hrd : rd < 32) :
    encJ op rd imm
      = (toUint32 imm / 1048576 % 2) * 2147483648 + (toUint32 imm / 2 % 1024) * 2097152
        + (toUint32 imm / 2048 % 2) * 1048576 + (toUint32 imm / 4096 % 256) * 4096
        + rd * 128 + op := by
  simp only [encJ, and_1, and_3FF, and_FF, shr_eq]
  norm_num
  have h20 : toUint32 imm / 1048576 % 2 < 2 := Nat.mod_lt _ (by norm_num)
  have h10 : toUint32 imm / 2 % 1024 < 1024 := Nat.mod_lt _ (by norm_num)
  have h11 : toUint32 imm / 2048 % 2 < 2 := Nat.mod_lt _ (by norm_num)
  have h19 : toUint32 imm / 4096 % 256 < 256 := Nat.mod_lt _ (by norm_num)
  generalize toUint32 imm / 1048576 % 2 = b20 at h20 ⊢
  generalize toUint32 imm / 2 % 1024 = b10 at h10 ⊢
  generalize toUint32 imm / 2048 % 2 = b11 at h11 ⊢
  generalize toUint32 imm / 4096 % 256 = b19 at h19 ⊢
  simp (disch := omega) only [shl32_of_lt]
  simp (disch := omega) only [lor_eq_add_mid 0 7, lor_eq_add_mid 0 12, lor_eq_add_mid 0 20,
    lor_eq_add_mid 0 21, lor_eq_add_mid 0 31]
  norm_num

/-! ### Round trips -/

theorem immI_encI (op rd f3 rs1 : Nat) (imm : Int)
    (hop : op < 128) (hrd : rd < 32) (hf3 : f3 < 8) (hrs1 : rs1 < 32)
    (hlo : -2048 ≤ imm) (hhi : imm ≤ 2047) :
    immI (encI op rd f3 rs1 imm) = imm := by
  rw [immI_eq, encI_eq op rd f3 rs1 imm hop hrd hf3 hrs1]
  have hu := toUint32_cast imm
  generalize toUint32 imm = u at hu ⊢
  have hS : (u % 4096 * 1048576 + rs1 * 32768 + f3 * 4096 + rd * 128 + op) / 1048576
      = u % 4096 := by omega
  rw [hS]
  exact signExtend_12 _ _ (by omega) hlo hhi

theorem immS_encS (op f3 rs1 rs2 : Nat) (imm : Int)
    (hop : op < 128) (hf3 : f3 < 8) (hrs1 : rs1 < 32) (hrs2 : rs2 < 32)
    (hlo : -2048 ≤ imm) (hhi : imm ≤ 2047) :
    immS (encS op f3 rs1 rs2 imm) = imm := by
  rw [immS_eq, encS_eq op f3 rs1 rs2 imm hop hf3 hrs1 hrs2]
  have hu := toUint32_cast imm
  generalize toUint32 imm = u at hu ⊢
  have h1 : u % 4096 / 32 < 128 := by omega
  have h2 : u % 32 < 32 := Nat.mod_lt _ (by norm_num)
  have hsum : u % 4096 / 32 * 32 + u % 32 = u % 4096 := by omega
  generalize u % 4096 / 32 = hi at h1 hsum ⊢
  generalize u % 32 = lo at h2 hsum ⊢
  have d1 : (hi * 33554432 + rs2 * 1048576 + rs1 * 32768 + f3 * 4096 + lo * 128 + op)
      / 33554432 % 128 = hi := by
    clear hsum hu; omega
  have d2 : (hi * 33554432 + rs2 * 1048576 + rs1 * 32768 + f3 * 4096 + lo * 128 + op)
      / 128 % 32 = lo := by
    clear hsum hu d1; omega
  rw [d1, d2]
  exact signExtend_12 _ _ (by omega) hlo hhi

theorem immU_encU (op rd imm20 : Nat) (hop : op < 128) (hrd : rd < 32)
    (himm : imm20 < 1048576) :
    immU (encU op rd imm20)
      = if imm20 < 524288 then (imm20 : Int) * 4096 else (imm20 : Int) * 4096 - 4294967296 := by
  rw [immU_eq, encU_eq op rd imm20 hop hrd himm]
  have hS : (imm20 * 4096 + rd * 128 + op) / 4096 % 1048576 * 4096 = imm20 * 4096 := by
    omega
  rw [hS]
  unfold toInt32
  split <;> split <;> omega

theorem immB_encB (op f3 rs1 rs2 : Nat) (imm : Int)
    (hop : op < 128) (hf3 : f3 < 8) (hrs1 : rs1 < 32) (hrs2 : rs2 < 32)
    (hlo : -4096 ≤ imm) (hhi : imm ≤ 4094) (heven : imm % 2 = 0) :
    immB (encB op f3 rs1 rs2 imm) = imm := by
  rw [immB_eq, encB_eq op f3 rs1 rs2 imm hop hf3 hrs1 hrs2]
  have hu := toUint32_cast imm
  generalize toUint32 imm = u at hu ⊢
  have h12 : u / 4096 % 2 < 2 := Nat.mod_lt _ (by norm_num)
  have h10 : u / 32 % 64 < 64 := Nat.mod_lt _ (by norm_num)
  have h4 : u / 2 % 16 < 16 := Nat.mod_lt _ (by norm_num)
  have h11 : u / 2048 % 2 < 2 := Nat.mod_lt _ (by norm_num)
  have hsum : u / 4096 % 2 * 4096 + u / 2048 % 2 * 2048 + u / 32 % 64 * 32
      + u / 2 % 16 * 2 = u % 8192 - u % 2 := by omega
  generalize u / 4096 % 2 = b12 at h12 hsum ⊢
  generalize u / 32 % 64 = b10 at h10 hsum ⊢
  generalize u / 2 % 16 = b4 at h4 hsum ⊢
  generalize u / 2048 % 2 = b11 at h11 hsum ⊢
  have d12 : (b12 * 2147483648 + b10 * 33554432 + rs2 * 1048576 + rs1 * 32768 + f3 * 4096
      + b4 * 256 + b11 * 128 + op) / 2147483648 % 2 = b12 := by
    clear hsum hu; omega
  have d10 : (b12 * 2147483648 + b10 * 33554432 + rs2 * 1048576 + rs1 * 32768 + f3 * 4096
      + b4 * 256 + b11 * 128 + op) / 33554432 % 64 = b10 := by
    clear hsum hu d12; omega
  have d4 : (b12 * 2147483648 + b10 * 33554432 + rs2 * 1048576 + rs1 * 32768 + f3 * 4096
      + b4 * 256 + b11 * 128 + op) / 256 % 16 = b4 := by
    clear hsum hu d12 d10; omega
  have d11 : (b12 * 2147483648 + b10 * 33554432 + rs2 * 1048576 + rs1 * 32768 + f3 * 4096
      + b4 * 256 + b11 * 128 + op) / 128 % 2 = b11 := by
    clear hsum hu d12 d10 d4; omega
  rw [d12, d10, d4, d11]
  clear d12 d10 d4 d11
  exact signExtend_13 _ _ (by omega) hlo (by omega)

theorem immJ_encJ (op rd : Nat) (imm : Int) (hop : op < 128) (hrd : rd < 32)
    (hlo : -1048576 ≤ imm) (hhi : imm ≤ 1048574) (heven : imm % 2 = 0) :
    immJ (encJ op rd imm) = imm := by
  rw [immJ_eq, encJ_eq op rd imm hop hrd]
  have hu := toUint32_cast imm
  generalize toUint32 imm = u at hu ⊢
  have h20 : u / 1048576 % 2 < 2 := Nat.mod_lt _ (by norm_num)
  have h10 : u / 2 % 1024 < 1024 := Nat.mod_lt _ (by norm_num)
  have h11 : u / 2048 % 2 < 2 := Nat.mod_lt _ (by norm_num)
  have h19 : u / 4096 % 256 < 256 := Nat.mod_lt _ (by norm_num)
  have hsum : u / 1048576 % 2 * 1048576 + u / 4096 % 256 * 4096 + u / 2048 % 2 * 2048
      + u / 2 % 1024 * 2 = u % 2097152 - u % 2 := by omega
  generalize u / 1048576 % 2 = b20 at h20 hsum ⊢
  generalize u / 2 % 1024 = b10 at h10 hsum ⊢
  generalize u / 2048 % 2 = b11 at h11 hsum ⊢
  generalize u / 4096 % 256 = b19 at h19 hsum ⊢
  have d20 : (b20 * 2147483648 + b10 * 2097152 + b11 * 1048576 + b19 * 4096 + rd * 128 + op)
      / 2147483648 % 2 = b20 := by
    clear hsum hu; omega
  have d10 : (b20 * 2147483648 + b10 * 2097152 + b11 * 1048576 + b19 * 4096 + rd * 128 + op)
      / 2097152 % 1024 = b10 := by
    clear hsum hu d20; omega
  have d11 : (b20 * 2147483648 + b10 * 2097152 + b11 * 1048576 + b19 * 4096 + rd * 128 + op)
      / 1048576 % 2 = b11 := by
    clear hsum hu d20 d10; omega
  have d19 : (b20 * 2147483648 + b10 * 2097152 + b11 * 1048576 + b19 * 4096 + rd * 128 + op)
      / 4096 % 256 = b19 := by
    clear hsum hu d20 d10 d11; omega
  rw [d20, d10, d11, d19]
  clear d20 d10 d11 d19
  exact signExtend_21 _ _ (by omega) hlo (by omega)

/-- C1 (witness): `ADDI x0, x0, 5` names register 0 as its destination; the step returns
true and register 0 is zero afterwards. -/
theorem C1_reg0_hardwired_zero_witness :
    (freshMachine 16 [encI 0x13 0 0 0 5]).Step.2 = true ∧
    (freshMachine 16 [encI 0x13 0 0 0 5]).Step.1.Reg 0 = 0 :=
  ⟨by decide, C1_reg0_hardwired_zero.2.2 (freshMachine 16 [encI 0x13 0 0 0 5]) (by decide)⟩

/-- C2: round trip for the I, S and U immediate formats. For every signed `imm` with
`-2048 ≤ imm ≤ 2047` and in-range fields, `immI (encI ..) = imm` and `immS (encS ..) = imm`;
for every `imm20 < 2^20`, `immU (encU ..)` is `imm20 * 2^12` read as a signed 32-bit value.
The decoded value is the same for all values of the other fields. -/
theorem C2_roundtrip_I_S_U :
    (∀ (op rd f3 rs1 : Nat) (imm : Int), op < 128 → rd < 32 → f3 < 8 → rs1 < 32 →
      -2048 ≤ imm → imm ≤ 2047 → immI (encI op rd f3 rs1 imm) = imm) ∧
    (∀ (op f3 rs1 rs2 : Nat) (imm : Int), op < 128 → f3 < 8 → rs1 < 32 → rs2 < 32 →
      -2048 ≤ imm → imm ≤ 2047 → immS (encS op f3 rs1 rs2 imm) = imm) ∧
    (∀ (op rd imm20 : Nat), op < 128 → rd < 32 → imm20 < 1048576 →
      immU (encU op rd imm20)
        = if imm20 < 524288 then (imm20 : Int) * 4096
          else (imm20 : Int) * 4096 - 4294967296) :=
  ⟨immI_encI, immS_encS, immU_encU⟩

/-- C2 (witness): the most negative 12-bit immediate and the upper immediate `0x80000`. -/
theorem C2_roundtrip_I_S_U_witness :
    immI (encI 0x13 2 0 0 (-2048)) = -2048 ∧ immS (encS 0x23 0 1 2 (-2048)) = -2048 ∧
    immU (encU 0x37 1 0x80000) = -2147483648 :=
  ⟨C2_roundtrip_I_S_U.1 0x13 2 0 0 (-2048) (by decide) (by decide) (by decide) (by decide)
      (by decide) (by decide),
    C2_roundtrip_I_S_U.2.1 0x23 0 1 2 (-2048) (by decide) (by decide) (by decide) (by decide)
      (by decide) (by decide),
    C2_roundtrip_I_S_U.2.2 0x37 1 0x80000 (by decide) (by decide) (by decide)⟩

/-- C3: round trip for the B and J immediate formats. For every even `imm` with
`-4096 ≤ imm ≤ 4094` and in-range fields, `immB (encB ..) = imm`; for every even `imm` with
`-2^20 ≤ imm ≤ 2^20 - 2`, `immJ` of the canonical J-type word `encJ op rd imm` is `imm`. -/
theorem C3_roundtrip_B_J :
    (∀ (op f3 rs1 rs2 : Nat) (imm : Int), op < 128 → f3 < 8 → rs1 < 32 → rs2 < 32 →
      -4096 ≤ imm → imm ≤ 4094 → imm % 2 = 0 → immB (encB op f3 rs1 rs2 imm) = imm) ∧
    (∀ (op rd : Nat) (imm : Int), op < 128 → rd < 32 →
      -1048576 ≤ imm → imm ≤ 1048574 → imm % 2 = 0 → immJ (encJ op rd imm) = imm) :=
  ⟨immB_encB, immJ_encJ⟩

/-- C3 (witness): the most negative branch offset and the most negative jump offset. -/
theorem C3_roundtrip_B_J_witness :
    immB (encB 0x63 0 5 5 (-4096)) = -4096 ∧ immJ (encJ 0x6F 1 (-1048576)) = -1048576 :=
  ⟨C3_roundtrip_B_J.1 0x63 0 5 5 (-4096) (by decide) (by decide) (by decide) (by decide)
      (by decide) (by decide) (by decide),
    C3_roundtrip_B_J.2 0x6F 1 (-1048576) (by decide) (by decide) (by decide) (by decide)
      (by decide)⟩

theorem exec_branch (c : CPU) (inst : Nat) (hop : inst &&& 0x7F = 0x63) :
    c.exec inst = c.execBranch inst ((inst >>> 12) &&& 0x7) ((inst >>> 15) &&& 0x1F)
      ((inst >>> 20) &&& 0x1F) (add32 c.PC 4) := by
  simp [CPU.exec, hop]

theorem exec_load (c : CPU) (inst : Nat) (hop : inst &&& 0x7F = 0x03) :
    c.exec inst = c.execLoad inst ((inst >>> 7) &&& 0x1F) ((inst >>> 12) &&& 0x7)
      ((inst >>> 15) &&& 0x1F) (add32 c.PC 4) := by
  simp [CPU.exec, hop]

theorem exec_store (c : CPU) (inst : Nat) (hop : inst &&& 0x7F = 0x23) :
    c.exec inst = c.execStore inst ((inst >>> 12) &&& 0x7) ((inst >>> 15) &&& 0x1F)
      ((inst >>> 20) &&& 0x1F) (add32 c.PC 4) := by
  simp [CPU.exec, hop]

theorem exec_opimm (c : CPU) (inst : Nat) (hop : inst &&& 0x7F = 0x13) :
    c.exec inst = c.execOpImm inst ((inst >>> 7) &&& 0x1F) ((inst >>> 12) &&& 0x7)
      ((inst >>> 15) &&& 0x1F) (add32 c.PC 4) := by
  simp [CPU.exec, hop]

theorem exec_op (c : CPU) (inst : Nat) (hop : inst &&& 0x7F = 0x33) :
    c.exec inst = c.execOp ((inst >>> 7) &&& 0x1F) ((inst >>> 12) &&& 0x7)
      ((inst >>> 15) &&& 0x1F) ((inst >>> 20) &&& 0x1F) ((inst >>> 25) &&& 0x7F)
      (add32 c.PC 4) := by
  simp [CPU.exec, hop]

/-- What a register write followed by the common exit does to the state. -/
theorem writeReg_finish (c : CPU) (rd v pc : Nat) :
    ((c.writeReg rd v).finish pc).2 = true ∧
    ((c.writeReg rd v).finish pc).1.PC = pc ∧
    (rd ≠ 0 → ((c.writeReg rd v).finish pc).1.Reg rd = v) ∧
    (∀ j, j ≠ rd → ((c.writeReg rd v).finish pc).1.readReg j = c.readReg j) ∧
    (∀ j, j ≠ rd → j ≠ 0 → ((c.writeReg rd v).finish pc).1.Reg j = c.Reg j) ∧
    ((c.writeReg rd v).finish pc).1.Reg 0 = 0 ∧
    ((c.writeReg rd v).finish pc).1.Bus = c.Bus := by
  unfold CPU.writeReg CPU.finish CPU.readReg
  by_cases hrd : rd = 0
  · subst hrd
    refine ⟨rfl, rfl, fun h => absurd rfl h, ?_, ?_, ?_, rfl⟩
    · intro j hj; simp [hj]
    · intro j _ hj; simp [hj]
    · simp
  · refine ⟨rfl, ?_, ?_, ?_, ?_, ?_, ?_⟩
    · simp [hrd]
    · intro _; simp [hrd, Function.update_apply]
    · intro j hj
      by_cases hj0 : j = 0
      · simp [hj0]
      · simp [hrd, hj0, hj, Function.update_apply]
    · intro j hj hj0; simp [hrd, hj0, hj, Function.update_apply]
    · simp [hrd]
    · simp [hrd]

theorem add32_toUint32 (a : Nat) (i : Int) :
    add32 a (toUint32 i) = toUint32 ((a : Int) + i) := by
  unfold add32 toUint32
  omega

theorem toUint32_toInt8 (b : Nat) (hb : b < 256) :
    toUint32 (toInt8 b) = if b < 128 then b else b + 4294967040 := by
  unfold toUint32 toInt8
  split <;> omega

theorem Bus_Read8_lt (b : Bus) (addr v : Nat) (h : b.Read8 addr = (v, true)) : v < 256 := by
  unfold Bus.Read8 at h
  split at h
  · split at h <;> (cases h; decide)
  · unfold RAM.Read8 at h
    split at h
    · cases h; exact (b.ram.data addr).isLt
    · cases h

theorem execLoad_byte (c : CPU) (inst rd f3 rs1 nextPC b : Nat) (hf3 : f3 = 0 ∨ f3 = 4)
    (hb : c.Bus.Read8 (add32 (c.readReg rs1) (toUint32 (immI inst))) = (b, true)) :
    c.execLoad inst rd f3 rs1 nextPC
      = (c.writeReg rd (if f3 = 0 then (if b < 128 then b else b + 4294967040) else b)).finish
          nextPC := by
  have hlt := Bus_Read8_lt _ _ _ hb
  rcases hf3 with h | h
  · subst h
    simp only [CPU.execLoad, hb, if_true, toUint32_toInt8 b hlt]
  · subst h
    simp [CPU.execLoad, hb]

/-- C4: byte loads extend correctly. When the fetched instruction is a LOAD with funct3 0
(LB) or 4 (LBU) and the byte read at `(Reg[rs1] + immI) mod 2^32` succeeds with `b`, `Step`
returns true, the program counter advances by 4, register `rd` (if not register 0) holds
the sign extension (LB) or zero extension (LBU) of `b`, and no other register and nothing
on the bus changes. The program of `TestLBSignExtension` leaves `x4 = 0xFFFFFFFF`. -/
theorem C4_byte_loads_extend :
    (∀ (c : CPU) (inst rd f3 rs1 b : Nat),
      c.fetch = (inst, true) → inst &&& 0x7F = 0x03 →
      rd = (inst >>> 7) &&& 0x1F → f3 = (inst >>> 12) &&& 0x7 →
      rs1 = (inst >>> 15) &&& 0x1F → (f3 = 0 ∨ f3 = 4) →
      c.Bus.Read8 (toUint32 ((c.readReg rs1 : Int) + immI inst)) = (b, true) →
      c.Step.2 = true ∧
      c.Step.1.PC = (c.PC + 4) % 4294967296 ∧
      (rd ≠ 0 → c.Step.1.Reg rd
        = if f3 = 0 then (if b < 128 then b else b + 4294967040) else b) ∧
      (∀ j, j ≠ rd → c.Step.1.readReg j = c.readReg j) ∧
      (∀ j, j ≠ rd → j ≠ 0 → c.Step.1.Reg j = c.Reg j) ∧
      c.Step.1.Reg 0 = 0 ∧
      c.Step.1.Bus = c.Bus) ∧
    (runUntilHalt lbTestMachine 10).Reg 4 = 0xFFFFFFFF := by
  refine ⟨?_, by decide⟩
  intro c inst rd f3 rs1 b hf hop hrd hf3 hrs1 hcase hb
  rw [← add32_toUint32] at hb
  rw [Step_eq_exec c inst hf, exec_load c inst hop, ← hrd, ← hf3, ← hrs1,
    execLoad_byte c inst rd f3 rs1 _ b hcase hb]
  exact writeReg_finish c rd _ _

/-- C4 (witness): the second instruction of the two test machines, with the byte `0xFF`
at address `0x100`: `LB` leaves `0xFFFFFFFF` in `x4`, `LBU` leaves `0x000000FF`. -/
theorem C4_byte_loads_extend_witness :
    lbTestMachine.Step.1.Step.1.Reg 4 = 0xFFFFFFFF ∧
    lbuTestMachine.Step.1.Step.1.Reg 4 = 0x000000FF :=
  ⟨(C4_byte_loads_extend.1 lbTestMachine.Step.1 (encI 0x03 4 0 3 0) 4 0 3 0xFF
      (by decide) (by decide) (by decide) (by decide) (by decide) (by decide)
      (by decide)).2.2.1 (by decide),
   (C4_byte_loads_extend.1 lbuTestMachine.Step.1 (encI 0x03 4 4 3 0) 4 4 3 0xFF
      (by decide) (by decide) (by decide) (by decide) (by decide) (by decide)
      (by decide)).2.2.1 (by decide)⟩

/-- What the common exit alone does to the state. -/
theorem finish_spec (c : CPU) (pc : Nat) :
    (c.finish pc).2 = true ∧ (c.finish pc).1.PC = pc ∧
    (∀ j, (c.finish pc).1.readReg j = c.readReg j) ∧
    (∀ j, j ≠ 0 → (c.finish pc).1.Reg j = c.Reg j) ∧
    (c.finish pc).1.Reg 0 = 0 ∧ (c.finish pc).1.Bus = c.Bus := by
  unfold CPU.finish CPU.readReg
  refine ⟨rfl, rfl, ?_, ?_, ?_, rfl⟩
  · intro j
    by_cases hj : j = 0
    · simp [hj]
    · simp [hj, Function.update_apply]
  · intro j hj; simp [hj, Function.update_apply]
  · simp

theorem execBranch_eq (c : CPU) (inst f3 rs1 rs2 nextPC : Nat)
    (hf3 : f3 = 0 ∨ f3 = 1 ∨ f3 = 4 ∨ f3 = 5 ∨ f3 = 6 ∨ f3 = 7) :
    c.execBranch inst f3 rs1 rs2 nextPC
      = c.finish (if (f3 = 0 ∧ c.readReg rs1 = c.readReg rs2) ∨
          (f3 = 1 ∧ c.readReg rs1 ≠ c.readReg rs2) ∨
          (f3 = 4 ∧ toInt32 (c.readReg rs1) < toInt32 (c.readReg rs2)) ∨
          (f3 = 5 ∧ toInt32 (c.readReg rs1) ≥ toInt32 (c.readReg rs2)) ∨
          (f3 = 6 ∧ c.readReg rs1 < c.readReg rs2) ∨
          (f3 = 7 ∧ c.readReg rs1 ≥ c.readReg rs2)
        then add32 c.PC (toUint32 (immB inst)) else nextPC) := by
  rcases hf3 with h | h | h | h | h | h <;> subst h <;> simp only [CPU.execBranch] <;>
    norm_num <;> split <;> simp_all

/-- C5: conditional branches. When the fetched instruction has opcode 0x63 and funct3 is
one of 0 (BEQ), 1 (BNE), 4 (BLT), 5 (BGE), 6 (BLTU), 7 (BGEU), `Step` returns true, changes
no register and nothing on the bus, and sets the program counter to
`(PC + immB inst) mod 2^32` when the comparison of `Reg[rs1]` with `Reg[rs2]` holds and to
`PC + 4` otherwise. The program of `TestBEQBranchSkips` runs through the addresses
0, 4, 12, 16, so it skips exactly the instruction at 8, and halts with `x6 = 7`. -/
theorem C5_conditional_branches :
    (∀ (c : CPU) (inst f3 rs1 rs2 a b : Nat),
      c.fetch = (inst, true) → inst &&& 0x7F = 0x63 →
      f3 = (inst >>> 12) &&& 0x7 → rs1 = (inst >>> 15) &&& 0x1F →
      rs2 = (inst >>> 20) &&& 0x1F →
      (f3 = 0 ∨ f3 = 1 ∨ f3 = 4 ∨ f3 = 5 ∨ f3 = 6 ∨ f3 = 7) →
      a = c.readReg rs1 → b = c.readReg rs2 →
      c.Step.2 = true ∧
      (∀ j, c.Step.1.readReg j = c.readReg j) ∧
      (∀ j, j ≠ 0 → c.Step.1.Reg j = c.Reg j) ∧
      c.Step.1.Reg 0 = 0 ∧
      c.Step.1.Bus = c.Bus ∧
      c.Step.1.PC =
        if (f3 = 0 ∧ a = b) ∨ (f3 = 1 ∧ a ≠ b) ∨
          (f3 = 4 ∧ toInt32 a < toInt32 b) ∨ (f3 = 5 ∧ toInt32 a ≥ toInt32 b) ∨
          (f3 = 6 ∧ a < b) ∨ (f3 = 7 ∧ a ≥ b)
        then toUint32 ((c.PC : Int) + immB inst) else (c.PC + 4) % 4294967296) ∧
    ((stepN beqTestMachine 1).PC = 4 ∧ (stepN beqTestMachine 2).PC = 12 ∧
      (stepN beqTestMachine 3).PC = 16 ∧ (stepN beqTestMachine 3).Reg 6 = 7 ∧
      (stepN beqTestMachine 3).Step.2 = false ∧
      (runUntilHalt beqTestMachine 20).Reg 6 = 7 ∧ (runUntilHalt beqTestMachine 20).PC = 16) := by
  refine ⟨?_, by decide, by decide, by decide, by decide, by decide, by decide, by decide⟩
  intro c inst f3 rs1 rs2 a b hf hop hf3 hrs1 hrs2 hcase ha hb
  subst ha hb
  rw [Step_eq_exec c inst hf, exec_branch c inst hop, ← hf3, ← hrs1, ← hrs2,
    execBranch_eq c inst f3 rs1 rs2 _ hcase, ← add32_toUint32]
  obtain ⟨h1, h2, h3, h4, h5, h6⟩ := finish_spec c
    (if (f3 = 0 ∧ c.readReg rs1 = c.readReg rs2) ∨
          (f3 = 1 ∧ c.readReg rs1 ≠ c.readReg rs2) ∨
          (f3 = 4 ∧ toInt32 (c.readReg rs1) < toInt32 (c.readReg rs2)) ∨
          (f3 = 5 ∧ toInt32 (c.readReg rs1) ≥ toInt32 (c.readReg rs2)) ∨
          (f3 = 6 ∧ c.readReg rs1 < c.readReg rs2) ∨
          (f3 = 7 ∧ c.readReg rs1 ≥ c.readReg rs2)
        then add32 c.PC (toUint32 (immB inst)) else add32 c.PC 4)
  exact ⟨h1, h3, h4, h5, h6, h2⟩

/-- C5 (witness): the `BEQ x5,x5,+8` of the test program, at address 4 with `x5 = 1`:
the branch is taken to address 12. -/
theorem C5_conditional_branches_witness :
    beqTestMachine.Step.1.Step.1.PC = 12 :=
  (C5_conditional_branches.1 beqTestMachine.Step.1 (encB 0x63 0 5 5 8) 0 5 5 1 1
    (by decide) (by decide) (by decide) (by decide) (by decide) (by decide)
    (by decide) (by decide)).2.2.2.2.2

/-- C6: a system-call instruction always halts without advancing. When the word fetched
at the program counter has opcode 0x73, `Step` returns false and the machine state
(program counter, registers, memory and device output) is unchanged. -/
theorem C6_ecall_halts_in_place (c : CPU) (inst : Nat) (hf : c.fetch = (inst, true))
    (hop : inst &&& 0x7F = 0x73) : c.Step = (c, false) := by
  simp [CPU.Step, hf, CPU.exec, hop]

/-- C6 (witness): the last instruction of the branch test program, the `ECALL` at
address 16. -/
theorem C6_ecall_halts_in_place_witness :
    (stepN beqTestMachine 3).fetch = (0x00000073, true) ∧
    (stepN beqTestMachine 3).Step = (stepN beqTestMachine 3, false) :=
  ⟨by decide, C6_ecall_halts_in_place (stepN beqTestMachine 3) 0x00000073 (by decide)
    (by decide)⟩

/-- C7 (counterexample): with 16 MiB of memory the program counter `0x10000000` is beyond
the memory size, yet the fetch succeeds (the device window answers the four byte reads
with zero), `Step` returns true and moves on to `0x10000004`. -/
theorem C7_fetch_beyond_memory_counterexample :
    deviceFetchMachine.PC ≥ deviceFetchMachine.Bus.ram.size ∧
    deviceFetchMachine.fetch = (0, true) ∧
    deviceFetchMachine.Step.2 = true ∧
    deviceFetchMachine.Step.1.PC = 0x10000004 := by
  decide

theorem Bus_Read8_out_of_range (b : Bus) (addr : Nat) (h : addr ≥ b.ram.size)
    (hwin : ¬(0x10000000 ≤ addr ∧ addr < 0x10000100)) : b.Read8 addr = (0, false) := by
  have hw : ¬(addr ≥ UARTBase ∧ addr < UARTBase + UARTSize) := by
    simpa [UARTBase, UARTSize] using hwin
  have hr : ¬ addr < b.ram.size := by omega
  simp only [Bus.Read8, hw, if_false, RAM.Read8, hr]

/-- C7 (amended): an out-of-bounds fetch outside the device window is an address fault.
For every memory size and every machine state whose program counter is at or beyond the
memory size and outside the device window `[0x10000000, 0x10000100)`, `Step` returns
false and leaves the whole machine state unchanged. -/
theorem C7_fetch_beyond_memory_faults (c : CPU) (hpc : c.PC ≥ c.Bus.ram.size)
    (hwin : ¬(0x10000000 ≤ c.PC ∧ c.PC < 0x10000100)) : c.Step = (c, false) := by
  have h := Bus_Read8_out_of_range c.Bus c.PC hpc hwin
  simp [CPU.Step, CPU.fetch, Bus.Read32, h]

/-- C7 (witness): 16 MiB of memory and the program counter at the memory size. -/
theorem C7_fetch_beyond_memory_faults_witness :
    ({ NewCPU (NewBus (NewRAM 16777216) NewUART) with PC := 16777216 } : CPU).Step.2 = false :=
  congrArg Prod.snd
    (C7_fetch_beyond_memory_faults
      { NewCPU (NewBus (NewRAM 16777216) NewUART) with PC := 16777216 }
      (by decide) (by decide))

theorem TxStore_run (b : Bus) (s : TxStore) (hs : ∀ v, s = .byte v → v < 256) :
    s.run b = ({ b with uart := { out := b.uart.out ++ printfC s.low8 } }, true) := by
  cases s with
  | byte v =>
    have hv : v % 256 = v := Nat.mod_eq_of_lt (hs v rfl)
    simp [TxStore.run, TxStore.low8, Bus.Write8, UARTTx, UARTBase, UARTSize, UART.Tx, hv]
  | word w =>
    simp [TxStore.run, TxStore.low8, Bus.Write32, UART.Tx, and_FF]

/-- Every store to the transmit register succeeds, leaves memory alone, and appends what
`fmt.Printf("%c", ·)` writes for the low 8 bits of the stored value. -/
theorem runStores_spec (ss : List TxStore) :
    ∀ b : Bus, (∀ s ∈ ss, ∀ v, s = .byte v → v < 256) →
      (runStores b ss).2 = true ∧ (runStores b ss).1.ram = b.ram ∧
      (runStores b ss).1.uart.out = b.uart.out ++ (ss.map (fun s => printfC s.low8)).flatten := by
  induction ss with
  | nil => intro b _; simp [runStores]
  | cons s ss ih =>
    intro b h
    have hs := TxStore_run b s (h s (List.mem_cons_self _ _))
    have ih' := ih (s.run b).1 (fun t ht => h t (List.mem_cons_of_mem _ ht))
    rw [hs] at ih'
    simp only [runStores, hs, ih'.1, ih'.2.1, ih'.2.2]
    simp [List.append_assoc]

/-- For stored values whose low 8 bits are below `0x80` the device output grows by
exactly one byte per store, the low 8 bits, in call order. -/
theorem runStores_seven_bit (ss : List TxStore) (b : Bus)
    (h : ∀ s ∈ ss, ∀ v, s = .byte v → v < 256) (h7 : ∀ s ∈ ss, s.low8 < 128) :
    (runStores b ss).2 = true ∧ (runStores b ss).1.ram = b.ram ∧
    (runStores b ss).1.uart.out = b.uart.out ++ ss.map TxStore.low8 := by
  obtain ⟨h1, h2, h3⟩ := runStores_spec ss b h
  refine ⟨h1, h2, ?_⟩
  rw [h3]
  congr 1
  clear h h3 h1 h2
  induction ss with
  | nil => rfl
  | cons s ss ih =>
    have hs : printfC s.low8 = [s.low8] := by
      have := h7 s (List.mem_cons_self _ _)
      simp [printfC, this]
    simp [hs, ih (fun t ht => h7 t (List.mem_cons_of_mem _ ht))]

/-- C8 (failing input): one byte store of `0xFF` to the transmit register on a new bus.
The call succeeds and memory is unchanged, but the device output grows by the two bytes
`0xC3 0xBF` (the UTF-8 encoding of U+00FF), not by the single byte `0xFF`. -/
theorem C8_transmit_high_byte_two_bytes :
    (runStores (NewBus (NewRAM 16777216) NewUART) [TxStore.byte 0xFF]).2 = true ∧
    (runStores (NewBus (NewRAM 16777216) NewUART) [TxStore.byte 0xFF]).1.uart.out
      = [0xC3, 0xBF] ∧
    (runStores (NewBus (NewRAM 16777216) NewUART) [TxStore.byte 0xFF]).1.uart.out.length = 2 ∧
    (runStores (NewBus (NewRAM 16777216) NewUART) [TxStore.word 0x12345680]).1.uart.out
      = [0xC2, 0x80] := by
  decide

/-- C9 (failing input): the print-and-halt program with `c = 0xFF`. The first three steps
return true, the fourth returns false at the `ECALL` with the program counter 12,
`x1 = 0x10000000` and `x2 = 0xFF`, but the device output is the two bytes `0xC3 0xBF`, not
the single byte `0xFF`. -/
theorem C9_print_high_byte_two_bytes :
    (stepN (printMachine 0xFF) 0).Step.2 = true ∧ (stepN (printMachine 0xFF) 1).Step.2 = true ∧
    (stepN (printMachine 0xFF) 2).Step.2 = true ∧ (stepN (printMachine 0xFF) 3).Step.2 = false ∧
    (stepN (printMachine 0xFF) 4).PC = 12 ∧
    (stepN (printMachine 0xFF) 4).Reg 1 = 0x10000000 ∧
    (stepN (printMachine 0xFF) 4).Reg 2 = 0xFF ∧
    (stepN (printMachine 0xFF) 4).Bus.uart.out = [0xC3, 0xBF] ∧
    (runUntilHalt (printMachine 0xFF) 10).Bus.uart.out = [0xC3, 0xBF] := by
  decide

set_option maxRecDepth 1000000 in
set_option maxHeartbeats 4000000 in
/-- The end-to-end scenario holds for every seven-bit character, in particular for the
`'A'` of the test: three steps return true, the fourth halts at the `ECALL` at address 12,
and the device output is the single byte `c`. -/
theorem print_seven_bit :
    ∀ c, c < 128 →
      (stepN (printMachine c) 0).Step.2 = true ∧ (stepN (printMachine c) 1).Step.2 = true ∧
      (stepN (printMachine c) 2).Step.2 = true ∧ (stepN (printMachine c) 3).Step.2 = false ∧
      (stepN (printMachine c) 4).PC = 12 ∧
      (stepN (printMachine c) 4).Reg 1 = 0x10000000 ∧
      (stepN (printMachine c) 4).Reg 2 = c ∧
      (stepN (printMachine c) 4).Bus.uart.out = [c] := by
  decide

/-- The value that `CPU.Step` tests to tell SRLI from SRAI, `(imm>>10)&0x3F` with
`imm = uint32(immI(inst))`, is 1 for every SRAI encoding (bits 31:25 = 0100000): it is
neither `0x00` nor the `0x10` that the code compares with. -/
theorem srai_selector (inst : Nat) (hinst : inst < 4294967296)
    (hf7 : (inst >>> 25) &&& 0x7F = 0x20) :
    (toUint32 (immI inst) >>> 10) &&& 0x3F = 1 := by
  rw [shr_eq, and_7F] at hf7
  rw [immI_eq, shr_eq, and_3F]
  norm_num at hf7 ⊢
  have h1 : 1024 ≤ inst / 1048576 := by omega
  have h2 : inst / 1048576 < 2048 := by omega
  generalize inst / 1048576 = v at h1 h2
  have hs : signExtend v 12 = (v : Int) := signExtend_12 v v (by omega) (by omega) (by omega)
  rw [hs]
  unfold toUint32
  omega

/-- Every SRAI encoding is executed as an unknown encoding: the step ends in the common
exit with the program counter advanced by 4 and no register written. -/
theorem exec_srai (c : CPU) (inst : Nat) (hinst : inst < 4294967296)
    (hop : inst &&& 0x7F = 0x13) (hf3 : (inst >>> 12) &&& 0x7 = 0x5)
    (hf7 : (inst >>> 25) &&& 0x7F = 0x20) :
    c.exec inst = c.finish (add32 c.PC 4) := by
  rw [exec_opimm c inst hop, hf3]
  simp [CPU.execOpImm, srai_selector inst hinst hf7]

/-- C10 (failing input): `ADDI x1,x0,-8; SRAI x2,x1,1` on a fresh machine. The second
word is `0x4010D113` (opcode 0x13, funct3 5, bits 31:25 = 0100000, shamt 1). Its step
returns true and advances the program counter to 8, but `x2` stays 0 although
`x1 = 0xFFFFFFF8`; the arithmetic shift would give `0xFFFFFFFC`. -/
theorem C10_srai_writes_nothing :
    encI 0x13 2 0x5 1 0x401 = 0x4010D113 ∧
    (stepN sraiMachine 1).fetch = (0x4010D113, true) ∧
    (stepN sraiMachine 1).Reg 1 = 0xFFFFFFF8 ∧
    (stepN sraiMachine 1).Step.2 = true ∧
    (stepN sraiMachine 2).PC = 8 ∧
    (stepN sraiMachine 2).Reg 2 = 0 ∧
    toUint32 (toInt32 0xFFFFFFF8 >>> (1 : Nat)) = 0xFFFFFFFC := by
  decide

/-- C15: register accessors. For `1 ≤ i ≤ 31`, `readReg i` after `writeReg i v` is `v` and
every other register is unchanged; `writeReg 0 v` changes nothing, and `readReg 0` is 0 in
every state, whatever `Reg[0]` holds. -/
theorem C15_register_accessors :
    (∀ (c : CPU) (i v : Nat), 1 ≤ i → i ≤ 31 → v < 4294967296 →
      (c.writeReg i v).readReg i = v ∧
      (∀ j, j ≠ i → (c.writeReg i v).Reg j = c.Reg j) ∧
      (∀ j, j ≠ i → (c.writeReg i v).readReg j = c.readReg j) ∧
      (c.writeReg i v).PC = c.PC ∧ (c.writeReg i v).Bus = c.Bus) ∧
    (∀ (c : CPU) (v : Nat), c.writeReg 0 v = c ∧ (c.writeReg 0 v).readReg 0 = 0) ∧
    (∀ c : CPU, c.readReg 0 = 0) := by
  refine ⟨?_, ?_, ?_⟩
  · intro c i v h1 _ _
    have hi : i ≠ 0 := by omega
    refine ⟨?_, ?_, ?_, ?_, ?_⟩
    · simp [CPU.writeReg, CPU.readReg, hi]
    · intro j hj; simp [CPU.writeReg, hi, Function.update_apply, hj]
    · intro j hj; simp [CPU.writeReg, CPU.readReg, hi, Function.update_apply, hj]
    · simp [CPU.writeReg, hi]
    · simp [CPU.writeReg, hi]
  · intro c v; simp [CPU.writeReg, CPU.readReg]
  · intro c; simp [CPU.readReg]

/-- C15 (witness): writing `0xDEADBEEF` to `x31` of a new machine and reading it back. -/
theorem C15_register_accessors_witness :
    ((NewCPU (NewBus (NewRAM 16) NewUART)).writeReg 31 0xDEADBEEF).readReg 31 = 0xDEADBEEF :=
  (C15_register_accessors.1 (NewCPU (NewBus (NewRAM 16) NewUART)) 31 0xDEADBEEF
    (by decide) (by decide) (by decide)).1

/-- C16: device-window byte reads. For every address in `[0x10000000, 0x10000100)` and
every bus (memory of any size and content, any device output) `Bus.Read8` succeeds and
returns 1 at `0x10000004` and 0 elsewhere; the result is the same on every bus, and the
call returns no new bus (it cannot emit output). Outside the window it returns what
`RAM.Read8` returns, which fails exactly when the address is at or beyond the memory
size. -/
theorem C16_device_window_reads :
    (∀ (b : Bus) (a : Nat), 0x10000000 ≤ a → a < 0x10000100 →
      b.Read8 a = (if a = 0x10000004 then 1 else 0, true)) ∧
    (∀ (b b' : Bus) (a : Nat), 0x10000000 ≤ a → a < 0x10000100 → b.Read8 a = b'.Read8 a) ∧
    (∀ (b : Bus) (a : Nat), ¬(0x10000000 ≤ a ∧ a < 0x10000100) →
      b.Read8 a = b.ram.Read8 a ∧ ((b.Read8 a).2 = false ↔ a ≥ b.ram.size)) := by
  have key : ∀ (b : Bus) (a : Nat), 0x10000000 ≤ a → a < 0x10000100 →
      b.Read8 a = (if a = 0x10000004 then 1 else 0, true) := by
    intro b a h1 h2
    have hw : a ≥ UARTBase ∧ a < UARTBase + UARTSize := by
      simp only [UARTBase, UARTSize]; omega
    rw [Bus.Read8, if_pos hw]
    by_cases hs : a = 0x10000004
    · have hs' : a = UARTStatus := hs
      rw [if_pos hs', if_pos hs]
    · have hs' : ¬ a = UARTStatus := hs
      rw [if_neg hs', if_neg hs]
  refine ⟨key, ?_, ?_⟩
  · intro b b' a h1 h2
    rw [key b a h1 h2, key b' a h1 h2]
  · intro b a hw
    have hw' : ¬(a ≥ UARTBase ∧ a < UARTBase + UARTSize) := by
      simpa [UARTBase, UARTSize] using hw
    have e : b.Read8 a = b.ram.Read8 a := by simp only [Bus.Read8, hw', if_false]
    refine ⟨e, ?_⟩
    rw [e]
    unfold RAM.Read8
    split <;> simp <;> omega

/-- C16 (witness): the status register and the transmit register read 1 and 0 on a bus
with no memory at all; address 16 is outside a memory of 16 bytes. -/
theorem C16_device_window_reads_witness :
    (NewBus (NewRAM 0) NewUART).Read8 0x10000004 = (1, true) ∧
    (NewBus (NewRAM 0) NewUART).Read8 0x10000000 = (0, true) ∧
    ((NewBus (NewRAM 16) NewUART).Read8 16).2 = false :=
  ⟨C16_device_window_reads.1 (NewBus (NewRAM 0) NewUART) 0x10000004 (by decide) (by decide),
   C16_device_window_reads.1 (NewBus (NewRAM 0) NewUART) 0x10000000 (by decide) (by decide),
   ((C16_device_window_reads.2.2 (NewBus (NewRAM 16) NewUART) 16 (by decide)).2).2
     (by decide)⟩

theorem Bus_Read32_eq (b : Bus) (addr b0 b1 b2 b3 : Nat)
    (h0 : b.Read8 addr = (b0, true)) (h1 : b.Read8 (add32 addr 1) = (b1, true))
    (h2 : b.Read8 (add32 addr 2) = (b2, true)) (h3 : b.Read8 (add32 addr 3) = (b3, true)) :
    b.Read32 addr = (b0 + b1 * 256 + b2 * 65536 + b3 * 16777216, true) := by
  have l0 := Bus_Read8_lt _ _ _ h0
  have l1 := Bus_Read8_lt _ _ _ h1
  have l2 := Bus_Read8_lt _ _ _ h2
  have l3 := Bus_Read8_lt _ _ _ h3
  simp only [Bus.Read32, h0, h1, h2, h3]
  simp (disch := omega) only [shl32_of_lt]
  simp (disch := omega) only [lor_eq_add_mid 8 16, lor_eq_add_mid 16 24, lor_eq_add_mid 24 32]
  norm_num

theorem Bus_Read32_cases (b : Bus) (addr : Nat) :
    b.Read32 addr = (0, false) ∨
    ∃ b0 b1 b2 b3, b.Read8 addr = (b0, true) ∧ b.Read8 (add32 addr 1) = (b1, true) ∧
      b.Read8 (add32 addr 2) = (b2, true) ∧ b.Read8 (add32 addr 3) = (b3, true) := by
  unfold Bus.Read32
  split
  · exact Or.inl rfl
  · rename_i b0 h0
    split
    · exact Or.inl rfl
    · rename_i b1 h1
      split
      · exact Or.inl rfl
      · rename_i b2 h2
        split
        · exact Or.inl rfl
        · rename_i b3 h3
          exact Or.inr ⟨b0, b1, b2, b3, h0, h1, h2, h3⟩

theorem Bus_Read32_lt (b : Bus) (addr w : Nat) (h : b.Read32 addr = (w, true)) :
    w < 4294967296 := by
  rcases Bus_Read32_cases b addr with hf | ⟨b0, b1, b2, b3, h0, h1, h2, h3⟩
  · rw [hf] at h; cases h
  · rw [Bus_Read32_eq b addr b0 b1 b2 b3 h0 h1 h2 h3] at h
    have l0 := Bus_Read8_lt _ _ _ h0
    have l1 := Bus_Read8_lt _ _ _ h1
    have l2 := Bus_Read8_lt _ _ _ h2
    have l3 := Bus_Read8_lt _ _ _ h3
    cases h
    omega

theorem fetch_lt (c : CPU) (inst : Nat) (h : c.fetch = (inst, true)) : inst < 4294967296 :=
  Bus_Read32_lt c.Bus c.PC inst h

/-- C11 (counterexample): the word `0x022081B3` has opcode 0x33 and funct7 0x01, which is
no RV32I encoding, yet `Step` executes it as ADD: `x3` goes from 0 to 12. -/
theorem C11_unknown_funct7_counterexample :
    (stepN mulTestMachine 2).fetch = (0x022081B3, true) ∧
    0x022081B3 &&& 0x7F = 0x33 ∧ (0x022081B3 >>> 25) &&& 0x7F = 0x01 ∧
    (stepN mulTestMachine 2).Reg 3 = 0 ∧
    (stepN mulTestMachine 2).Step.2 = true ∧
    (stepN mulTestMachine 2).Step.1.Reg 3 = 12 := by
  decide

/-- With bit 31 of the word set, the value that `Step` tests for OP-IMM with funct3 5 is
62 or 63: neither the SRLI nor the SRAI branch is taken. -/
theorem shift_selector_bit31 (inst : Nat) (hinst : inst < 4294967296)
    (h31 : 2147483648 ≤ inst) :
    (toUint32 (immI inst) >>> 10) &&& 0x3F ≠ 0x00 ∧
    (toUint32 (immI inst) >>> 10) &&& 0x3F ≠ 0x10 := by
  rw [immI_eq, shr_eq, and_3F]
  have h1 : 2048 ≤ inst / 1048576 := by omega
  have h2 : inst / 1048576 < 4096 := by omega
  generalize inst / 1048576 = v at h1 h2
  have hs : signExtend v 12 = (v : Int) - 4096 :=
    signExtend_12 v ((v : Int) - 4096) (by omega) (by omega) (by omega)
  rw [hs]
  unfold toUint32
  norm_num
  omega

/-- With funct7 at least 0x20 (bit 30 or bit 31 of the word set), the value that `Step`
tests for OP-IMM with funct3 5 is 1, 62 or 63: neither the SRLI nor the SRAI branch is
taken. -/
theorem shift_selector_funct7 (inst : Nat) (hinst : inst < 4294967296)
    (h : 0x20 ≤ (inst >>> 25) &&& 0x7F) :
    (toUint32 (immI inst) >>> 10) &&& 0x3F ≠ 0x00 ∧
    (toUint32 (immI inst) >>> 10) &&& 0x3F ≠ 0x10 := by
  by_cases h31 : 2147483648 ≤ inst
  · exact shift_selector_bit31 inst hinst h31
  · rw [shr_eq, and_7F] at h
    norm_num at h
    rw [immI_eq, shr_eq, and_3F]
    have h1 : 1024 ≤ inst / 1048576 := by omega
    have h2 : inst / 1048576 < 2048 := by omega
    clear h h31
    generalize inst / 1048576 = v at h1 h2
    have hs : signExtend v 12 = (v : Int) := signExtend_12 v v (by omega) (by omega) (by omega)
    rw [hs]
    unfold toUint32
    norm_num
    omega

/-- With funct7 below 0x20 (bits 31 and 30 of the word clear), the value that `Step` tests
for OP-IMM with funct3 5 is 0: the SRLI branch is taken. -/
theorem shift_selector_low (inst : Nat) (hinst : inst < 4294967296)
    (h : (inst >>> 25) &&& 0x7F < 0x20) :
    (toUint32 (immI inst) >>> 10) &&& 0x3F = 0x00 := by
  rw [shr_eq, and_7F] at h
  norm_num at h
  rw [immI_eq, shr_eq, and_3F]
  have h2 : inst / 1048576 < 1024 := by omega
  clear h
  generalize inst / 1048576 = v at h2
  have hs : signExtend v 12 = (v : Int) := signExtend_12 v v (by omega) (by omega) (by omega)
  rw [hs]
  unfold toUint32
  norm_num
  omega

/-- The encodings that `Step` skips: an opcode outside the ten of the `switch`, a funct3
that the `switch` of the opcode has no case for, or OP-IMM with funct3 5 and funct7 at
least 0x20. -/
theorem exec_unknown (c : CPU) (inst : Nat) (hinst : inst < 4294967296)
    (h : (inst &&& 0x7F ≠ 0x37 ∧ inst &&& 0x7F ≠ 0x17 ∧ inst &&& 0x7F ≠ 0x6F ∧
          inst &&& 0x7F ≠ 0x67 ∧ inst &&& 0x7F ≠ 0x63 ∧ inst &&& 0x7F ≠ 0x03 ∧
          inst &&& 0x7F ≠ 0x23 ∧ inst &&& 0x7F ≠ 0x13 ∧ inst &&& 0x7F ≠ 0x33 ∧
          inst &&& 0x7F ≠ 0x73) ∨
        (inst &&& 0x7F = 0x63 ∧
          ((inst >>> 12) &&& 0x7 = 2 ∨ (inst >>> 12) &&& 0x7 = 3)) ∨
        (inst &&& 0x7F = 0x03 ∧ (inst >>> 12) &&& 0x7 ≠ 0 ∧ (inst >>> 12) &&& 0x7 ≠ 2 ∧
          (inst >>> 12) &&& 0x7 ≠ 4) ∨
        (inst &&& 0x7F = 0x23 ∧ (inst >>> 12) &&& 0x7 ≠ 0 ∧ (inst >>> 12) &&& 0x7 ≠ 2) ∨
        (inst &&& 0x7F = 0x13 ∧
          ((inst >>> 12) &&& 0x7 = 2 ∨ (inst >>> 12) &&& 0x7 = 3)) ∨
        (inst &&& 0x7F = 0x13 ∧ (inst >>> 12) &&& 0x7 = 5 ∧
          0x20 ≤ (inst >>> 25) &&& 0x7F)) :
    c.exec inst = c.finish (add32 c.PC 4) := by
  rcases h with ⟨h1, h2, h3, h4, h5, h6, h7, h8, h9, h10⟩ | ⟨hop, hf⟩ | ⟨hop, hf0, hf2, hf4⟩ |
    ⟨hop, hf0, hf2⟩ | ⟨hop, hf⟩ | ⟨hop, hf, h7⟩
  · simp [CPU.exec, h1, h2, h3, h4, h5, h6, h7, h8, h9, h10]
  · rw [exec_branch c inst hop]
    rcases hf with hf | hf <;> simp [CPU.execBranch, hf]
  · rw [exec_load c inst hop]
    simp [CPU.execLoad, hf0, hf2, hf4]
  · rw [exec_store c inst hop]
    simp [CPU.execStore, hf0, hf2]
  · rw [exec_opimm c inst hop]
    rcases hf with hf | hf <;> simp [CPU.execOpImm, hf]
  · rw [exec_opimm c inst hop]
    obtain ⟨s0, s1⟩ := shift_selector_funct7 inst hinst h7
    simp [CPU.execOpImm, hf, s0, s1]

/-- C11 (amended): the encodings that `Step` skips as no-ops. When the fetched word has an
opcode that is none of the ten of the `switch`, or opcode 0x63 with funct3 2 or 3, or
opcode 0x03 with funct3 other than 0, 2, 4, or opcode 0x23 with funct3 other than 0, 2,
or opcode 0x13 with funct3 2 or 3, or opcode 0x13 with funct3 5 and funct7 (bits 31:25)
from 0x21 to 0x7F, `Step` returns true, advances the program counter by 4 and leaves
every register and the whole bus (memory and device output) unchanged. -/
theorem C11_unknown_encodings_skipped (c : CPU) (inst op f3 f7 : Nat)
    (hf : c.fetch = (inst, true)) (hop : op = inst &&& 0x7F)
    (hf3 : f3 = (inst >>> 12) &&& 0x7) (hf7 : f7 = (inst >>> 25) &&& 0x7F)
    (h : (op ≠ 0x37 ∧ op ≠ 0x17 ∧ op ≠ 0x6F ∧ op ≠ 0x67 ∧ op ≠ 0x63 ∧ op ≠ 0x03 ∧
          op ≠ 0x23 ∧ op ≠ 0x13 ∧ op ≠ 0x33 ∧ op ≠ 0x73) ∨
        (op = 0x63 ∧ (f3 = 2 ∨ f3 = 3)) ∨
        (op = 0x03 ∧ f3 ≠ 0 ∧ f3 ≠ 2 ∧ f3 ≠ 4) ∨
        (op = 0x23 ∧ f3 ≠ 0 ∧ f3 ≠ 2) ∨
        (op = 0x13 ∧ (f3 = 2 ∨ f3 = 3)) ∨
        (op = 0x13 ∧ f3 = 5 ∧ 0x21 ≤ f7)) :
    c.Step.2 = true ∧
    c.Step.1.PC = (c.PC + 4) % 4294967296 ∧
    (∀ j, c.Step.1.readReg j = c.readReg j) ∧
    (∀ j, j ≠ 0 → c.Step.1.Reg j = c.Reg j) ∧
    c.Step.1.Reg 0 = 0 ∧
    c.Step.1.Bus = c.Bus ∧
    (c.Reg 0 = 0 → c.Step.1 = { c with PC := (c.PC + 4) % 4294967296 }) := by
  subst hop hf3 hf7
  have hu : c.exec inst = c.finish (add32 c.PC 4) := by
    apply exec_unknown c inst (fetch_lt c inst hf)
    revert h
    repeat' apply Or.imp_right
    exact fun h7 => ⟨h7.1, h7.2.1, le_trans (by decide) h7.2.2⟩
  rw [Step_eq_exec c inst hf, hu]
  obtain ⟨h1, h2, h3, h4, h5, h6⟩ := finish_spec c (add32 c.PC 4)
  refine ⟨h1, h2, h3, h4, h5, h6, ?_⟩
  intro h0
  have : Function.update c.Reg 0 0 = c.Reg := by
    have := Function.update_eq_self 0 c.Reg
    rwa [h0] at this
  simp [CPU.finish, this, add32]

/-- C11 (witness): `SLTI x1,x0,5` on a fresh machine is skipped: the step returns true,
the program counter becomes 4 and `x1` stays 0. The word `0x4210D113` (opcode 0x13,
funct3 5, funct7 0x21), fetched at address 4 with `x1 = 0xFFFFFFF8`, is skipped as well:
the step returns true, the program counter becomes 8, and `x2` stays 0. -/
theorem C11_unknown_encodings_skipped_witness :
    (sltiTestMachine.Step.2 = true ∧ sltiTestMachine.Step.1.PC = 4 ∧
      sltiTestMachine.Step.1.Reg 1 = sltiTestMachine.Reg 1) ∧
    ((stepN shiftFunct7Machine 1).fetch = (0x4210D113, true) ∧
      (stepN shiftFunct7Machine 1).Reg 1 = 0xFFFFFFF8 ∧
      (stepN shiftFunct7Machine 1).Reg 2 = 0 ∧
      (stepN shiftFunct7Machine 1).Step.2 = true ∧
      (stepN shiftFunct7Machine 1).Step.1.PC = 8 ∧
      (stepN shiftFunct7Machine 1).Step.1.Reg 2 = 0) := by
  have hs := C11_unknown_encodings_skipped sltiTestMachine (encI 0x13 1 0x2 0 5) 0x13 2 0
    (by decide) rfl rfl rfl (by decide)
  have hw := C11_unknown_encodings_skipped (stepN shiftFunct7Machine 1) 0x4210D113 0x13 5 0x21
    (by decide) rfl rfl rfl (by decide)
  exact ⟨⟨hs.1, hs.2.1, hs.2.2.2.1 1 (by decide)⟩,
    by decide, by decide, by decide, hw.1, hw.2.1.trans (by decide),
    (hw.2.2.2.1 2 (by decide)).trans (by decide)⟩

theorem and_FFFFFFFE (x : Nat) : x &&& 0xFFFFFFFE = x / 2 % 2147483648 * 2 := by
  apply Nat.eq_of_testBit_eq
  intro i
  have h1 : (0xFFFFFFFE : Nat) = (2 ^ 31 - 1) <<< 1 := by decide
  have h2 : x / 2 % 2147483648 * 2 = 2 ^ 1 * ((x >>> 1) % 2 ^ 31) := by
    rw [Nat.shiftRight_eq_div_pow]; norm_num [Nat.mul_comm]
  rw [h2, Nat.testBit_and, h1, Nat.testBit_shiftLeft, Nat.testBit_two_pow_sub_one,
    Nat.testBit_mul_pow_two, Nat.testBit_mod_two_pow, Nat.testBit_shiftRight]
  by_cases hi : i ≥ 1
  · have : 1 + (i - 1) = i := by omega
    simp [hi, this, Bool.and_comm]
  · simp [hi]

theorem sub32_eq (a b : Nat) : sub32 a b = toUint32 ((a : Int) - b) := by
  unfold sub32 toUint32
  omega

theorem execOp_eq (c : CPU) (rd f3 rs1 rs2 f7 nextPC : Nat)
    (henc : (f7 = 0 ∧ f3 < 8) ∨ (f7 = 0x20 ∧ (f3 = 0 ∨ f3 = 5))) :
    c.execOp rd f3 rs1 rs2 f7 nextPC
      = (c.writeReg rd
          (if f7 = 0x20 then
            (if f3 = 0 then toUint32 ((c.readReg rs1 : Int) - c.readReg rs2)
             else toUint32 (toInt32 (c.readReg rs1) / 2 ^ (c.readReg rs2 % 32)))
           else if f3 = 0 then (c.readReg rs1 + c.readReg rs2) % 4294967296
           else if f3 = 1 then (c.readReg rs1 * 2 ^ (c.readReg rs2 % 32)) % 4294967296
           else if f3 = 2 then
            (if toInt32 (c.readReg rs1) < toInt32 (c.readReg rs2) then 1 else 0)
           else if f3 = 3 then (if c.readReg rs1 < c.readReg rs2 then 1 else 0)
           else if f3 = 4 then c.readReg rs1 ^^^ c.readReg rs2
           else if f3 = 5 then c.readReg rs1 / 2 ^ (c.readReg rs2 % 32)
           else if f3 = 6 then c.readReg rs1 ||| c.readReg rs2
           else c.readReg rs1 &&& c.readReg rs2)).finish nextPC := by
  rcases henc with ⟨h7, h3⟩ | ⟨h7, h3 | h3⟩
  · subst h7
    have : f3 = 0 ∨ f3 = 1 ∨ f3 = 2 ∨ f3 = 3 ∨ f3 = 4 ∨ f3 = 5 ∨ f3 = 6 ∨ f3 = 7 := by omega
    rcases this with h | h | h | h | h | h | h | h <;> subst h <;>
      simp [CPU.execOp, add32, shl32_eq, and_1F, shr_eq]
    · split <;> rfl
    · split <;> rfl
  · subst h7 h3
    simp [CPU.execOp, sub32_eq]
  · subst h7 h3
    simp [CPU.execOp, and_1F, Int.shiftRight_eq_div_pow]

/-- C18: register-register operations. When the fetched instruction has opcode 0x33 and
is one of the ten canonical encodings (funct7 = 0x00 with any funct3, funct7 = 0x20 with
funct3 0 or 5), with `a = Reg[rs1]` and `b = Reg[rs2]` read before the write, `Step`
returns true, advances the program counter by 4, changes nothing on the bus, writes the
RV32I result to `rd` (if `rd` is not register 0) and changes no other register. -/
theorem C18_register_register_ops (c : CPU) (inst rd f3 rs1 rs2 f7 a b : Nat)
    (hf : c.fetch = (inst, true)) (hop : inst &&& 0x7F = 0x33)
    (hrd : rd = (inst >>> 7) &&& 0x1F) (hf3 : f3 = (inst >>> 12) &&& 0x7)
    (hrs1 : rs1 = (inst >>> 15) &&& 0x1F) (hrs2 : rs2 = (inst >>> 20) &&& 0x1F)
    (hf7 : f7 = (inst >>> 25) &&& 0x7F)
    (henc : f7 = 0x00 ∨ (f7 = 0x20 ∧ (f3 = 0 ∨ f3 = 5)))
    (ha : a = c.readReg rs1) (hb : b = c.readReg rs2) :
    c.Step.2 = true ∧
    c.Step.1.PC = (c.PC + 4) % 4294967296 ∧
    c.Step.1.Bus = c.Bus ∧
    (rd ≠ 0 → c.Step.1.Reg rd =
      if f7 = 0x20 then
        (if f3 = 0 then toUint32 ((a : Int) - b)          -- SUB
         else toUint32 (toInt32 a / 2 ^ (b % 32)))        -- SRA
      else if f3 = 0 then (a + b) % 4294967296            -- ADD
      else if f3 = 1 then (a * 2 ^ (b % 32)) % 4294967296 -- SLL
      else if f3 = 2 then (if toInt32 a < toInt32 b then 1 else 0) -- SLT
      else if f3 = 3 then (if a < b then 1 else 0)        -- SLTU
      else if f3 = 4 then a ^^^ b                         -- XOR
      else if f3 = 5 then a / 2 ^ (b % 32)                -- SRL
      else if f3 = 6 then a ||| b                         -- OR
      else a &&& b) ∧                                     -- AND
    (∀ j, j ≠ rd → c.Step.1.readReg j = c.readReg j) ∧
    (∀ j, j ≠ rd → j ≠ 0 → c.Step.1.Reg j = c.Reg j) ∧
    c.Step.1.Reg 0 = 0 := by
  have hf3lt : f3 < 8 := by rw [hf3, and_7]; exact Nat.mod_lt _ (by norm_num)
  have henc' : (f7 = 0 ∧ f3 < 8) ∨ (f7 = 0x20 ∧ (f3 = 0 ∨ f3 = 5)) := by
    rcases henc with h | h
    · exact Or.inl ⟨h, hf3lt⟩
    · exact Or.inr h
  subst ha hb
  rw [Step_eq_exec c inst hf, exec_op c inst hop, ← hrd, ← hf3, ← hrs1, ← hrs2, ← hf7,
    execOp_eq c rd f3 rs1 rs2 f7 _ henc']
  obtain ⟨h1, h2, h3, h4, h5, h6, h7⟩ := writeReg_finish c rd
    (if f7 = 0x20 then
            (if f3 = 0 then toUint32 ((c.readReg rs1 : Int) - c.readReg rs2)
             else toUint32 (toInt32 (c.readReg rs1) / 2 ^ (c.readReg rs2 % 32)))
           else if f3 = 0 then (c.readReg rs1 + c.readReg rs2) % 4294967296
           else if f3 = 1 then (c.readReg rs1 * 2 ^ (c.readReg rs2 % 32)) % 4294967296
           else if f3 = 2 then
            (if toInt32 (c.readReg rs1) < toInt32 (c.readReg rs2) then 1 else 0)
           else if f3 = 3 then (if c.readReg rs1 < c.readReg rs2 then 1 else 0)
           else if f3 = 4 then c.readReg rs1 ^^^ c.readReg rs2
           else if f3 = 5 then c.readReg rs1 / 2 ^ (c.readReg rs2 % 32)
           else if f3 = 6 then c.readReg rs1 ||| c.readReg rs2
           else c.readReg rs1 &&& c.readReg rs2) (add32 c.PC 4)
  exact ⟨h1, h2, h7, h3, h4, h5, h6⟩

/-- C18 (witness): `SUB x1,x1,x2` with `x1 = 5` and `x2 = 7` leaves `x1 = 0xFFFFFFFE`. -/
theorem C18_register_register_ops_witness :
    (stepN subTestMachine 2).Step.1.Reg 1 = 0xFFFFFFFE :=
  (C18_register_register_ops (stepN subTestMachine 2) (encR 0x33 1 0x0 1 2 0x20)
    1 0 1 2 0x20 5 7 (by decide) (by decide) (by decide) (by decide) (by decide)
    (by decide) (by decide) (by decide) (by decide) (by decide)).2.2.2.1 (by decide)

theorem exec_jal (c : CPU) (inst : Nat) (hop : inst &&& 0x7F = 0x6F) :
    c.exec inst = (c.writeReg ((inst >>> 7) &&& 0x1F) (add32 c.PC 4)).finish
      (add32 c.PC (toUint32 (immJ inst))) := by
  simp [CPU.exec, hop]

theorem exec_jalr (c : CPU) (inst : Nat) (hop : inst &&& 0x7F = 0x67) :
    c.exec inst = (c.writeReg ((inst >>> 7) &&& 0x1F) (add32 c.PC 4)).finish
      ((add32 (c.readReg ((inst >>> 15) &&& 0x1F)) (toUint32 (immI inst))) &&& 0xFFFFFFFE) := by
  simp [CPU.exec, hop]

theorem toUint32_lt (i : Int) : toUint32 i < 4294967296 := by
  unfold toUint32; omega

theorem clear_bit0 (t : Nat) (ht : t < 4294967296) : t &&& 0xFFFFFFFE = t - t % 2 := by
  rw [and_FFFFFFFE]; omega

/-- C19: jump-and-link. For JAL (opcode 0x6F) `Step` returns true, the new program counter
is `(PC + immJ inst) mod 2^32` and `rd` (if not register 0) holds the old `PC + 4`. For
JALR (opcode 0x67) `Step` returns true, the new program counter is
`(Reg[rs1] + immI inst) mod 2^32` with bit 0 cleared, computed from the value of `rs1`
before the instruction, and `rd` (if not register 0) holds the old `PC + 4`, also when
`rd = rs1`. No other register and nothing on the bus changes. -/
theorem C19_jump_and_link :
    (∀ (c : CPU) (inst rd : Nat), c.fetch = (inst, true) → inst &&& 0x7F = 0x6F →
      rd = (inst >>> 7) &&& 0x1F →
      c.Step.2 = true ∧
      c.Step.1.PC = toUint32 ((c.PC : Int) + immJ inst) ∧
      (rd ≠ 0 → c.Step.1.Reg rd = (c.PC + 4) % 4294967296) ∧
      (∀ j, j ≠ rd → c.Step.1.readReg j = c.readReg j) ∧
      (∀ j, j ≠ rd → j ≠ 0 → c.Step.1.Reg j = c.Reg j) ∧
      c.Step.1.Reg 0 = 0 ∧ c.Step.1.Bus = c.Bus) ∧
    (∀ (c : CPU) (inst rd rs1 t : Nat), c.fetch = (inst, true) → inst &&& 0x7F = 0x67 →
      rd = (inst >>> 7) &&& 0x1F → rs1 = (inst >>> 15) &&& 0x1F →
      t = toUint32 ((c.readReg rs1 : Int) + immI inst) →
      c.Step.2 = true ∧
      c.Step.1.PC = t - t % 2 ∧
      (rd ≠ 0 → c.Step.1.Reg rd = (c.PC + 4) % 4294967296) ∧
      (∀ j, j ≠ rd → c.Step.1.readReg j = c.readReg j) ∧
      (∀ j, j ≠ rd → j ≠ 0 → c.Step.1.Reg j = c.Reg j) ∧
      c.Step.1.Reg 0 = 0 ∧ c.Step.1.Bus = c.Bus) := by
  constructor
  · intro c inst rd hf hop hrd
    rw [Step_eq_exec c inst hf, exec_jal c inst hop, ← hrd, add32_toUint32]
    exact writeReg_finish c rd _ _
  · intro c inst rd rs1 t hf hop hrd hrs1 ht
    rw [Step_eq_exec c inst hf, exec_jalr c inst hop, ← hrd, ← hrs1, add32_toUint32, ← ht,
      clear_bit0 t (by rw [ht]; exact toUint32_lt _)]
    exact writeReg_finish c rd _ _

/-- C19 (witness): `JAL x5,-4` at address 0 jumps to `0xFFFFFFFC` and links 4;
`JALR x1,7(x1)` at address 4 with `x1 = 0x103` jumps to `0x10A` and links 8 into `x1`. -/
theorem C19_jump_and_link_witness :
    (jalTestMachine.Step.1.PC = 0xFFFFFFFC ∧ jalTestMachine.Step.1.Reg 5 = 4) ∧
    ((stepN jalrTestMachine 1).Step.1.PC = 0x10A ∧ (stepN jalrTestMachine 1).Step.1.Reg 1 = 8) :=
  ⟨⟨((C19_jump_and_link.1 jalTestMachine (encJ 0x6F 5 (-4)) 5 (by decide) (by decide)
        (by decide)).2.1).trans (by decide),
    (C19_jump_and_link.1 jalTestMachine (encJ 0x6F 5 (-4)) 5 (by decide) (by decide)
        (by decide)).2.2.1 (by decide)⟩,
   ⟨(C19_jump_and_link.2 (stepN jalrTestMachine 1) (encI 0x67 1 0x0 1 7) 1 1 0x10A
        (by decide) (by decide) (by decide) (by decide) (by decide)).2.1,
    (C19_jump_and_link.2 (stepN jalrTestMachine 1) (encI 0x67 1 0x0 1 7) 1 1 0x10A
        (by decide) (by decide) (by decide) (by decide) (by decide)).2.2.1 (by decide)⟩⟩

theorem finish_PC (c : CPU) (pc : Nat) : (c.finish pc).1.PC = pc := rfl

theorem writeReg_PC (c : CPU) (rd v : Nat) : (c.writeReg rd v).PC = c.PC := by
  unfold CPU.writeReg; split <;> rfl

theorem execBranch_pc (c : CPU) (inst f3 rs1 rs2 : Nat) :
    PCShape c (add32 c.PC (toUint32 (immB inst)))
      (c.execBranch inst f3 rs1 rs2 (add32 c.PC 4)) := by
  unfold CPU.execBranch
  dsimp only
  repeat' (with_reducible apply ite_ind <;> intro _)
  all_goals (unfold PCShape; simp [finish_PC])

theorem execLoad_pc (c : CPU) (inst rd f3 rs1 t : Nat) :
    PCShape c t (c.execLoad inst rd f3 rs1 (add32 c.PC 4)) := by
  unfold CPU.execLoad
  dsimp only
  repeat' (with_reducible apply ite_ind <;> intro _)
  all_goals try split
  all_goals (unfold PCShape; simp [finish_PC])

theorem execStore_pc (c : CPU) (inst f3 rs1 rs2 t : Nat) :
    PCShape c t (c.execStore inst f3 rs1 rs2 (add32 c.PC 4)) := by
  unfold CPU.execStore
  dsimp only
  repeat' (with_reducible apply ite_ind <;> intro _)
  all_goals try split
  all_goals (unfold PCShape; simp [finish_PC])

theorem execOpImm_pc (c : CPU) (inst rd f3 rs1 t : Nat) :
    PCShape c t (c.execOpImm inst rd f3 rs1 (add32 c.PC 4)) := by
  unfold CPU.execOpImm
  dsimp only
  repeat' (with_reducible apply ite_ind <;> intro _)
  all_goals (unfold PCShape; simp [finish_PC])

theorem execOp_pc (c : CPU) (rd f3 rs1 rs2 f7 t : Nat) :
    PCShape c t (c.execOp rd f3 rs1 rs2 f7 (add32 c.PC 4)) := by
  unfold CPU.execOp
  dsimp only
  repeat' (with_reducible apply ite_ind <;> intro _)
  all_goals (unfold PCShape; simp [finish_PC])

/-- The program counter after a step that returns true, by opcode. -/
theorem exec_pc (c : CPU) (inst : Nat) (h : (c.exec inst).2 = true) :
    (inst &&& 0x7F = 0x6F ∧ (c.exec inst).1.PC = add32 c.PC (toUint32 (immJ inst))) ∨
    (inst &&& 0x7F = 0x67 ∧ (c.exec inst).1.PC
      = (add32 (c.readReg ((inst >>> 15) &&& 0x1F)) (toUint32 (immI inst))) &&& 0xFFFFFFFE) ∨
    (inst &&& 0x7F = 0x63 ∧ ((c.exec inst).1.PC = add32 c.PC 4 ∨
      (c.exec inst).1.PC = add32 c.PC (toUint32 (immB inst)))) ∨
    (inst &&& 0x7F ≠ 0x6F ∧ inst &&& 0x7F ≠ 0x67 ∧ inst &&& 0x7F ≠ 0x63 ∧
      (c.exec inst).1.PC = add32 c.PC 4) := by
  by_cases h1 : inst &&& 0x7F = 0x6F
  · left; exact ⟨h1, by rw [exec_jal c inst h1]; rfl⟩
  by_cases h2 : inst &&& 0x7F = 0x67
  · right; left; exact ⟨h2, by rw [exec_jalr c inst h2]; rfl⟩
  by_cases h3 : inst &&& 0x7F = 0x63
  · right; right; left
    refine ⟨h3, ?_⟩
    rw [exec_branch c inst h3] at h ⊢
    exact execBranch_pc c inst _ _ _ h
  right; right; right
  refine ⟨h1, h2, h3, ?_⟩
  have key : PCShape c (add32 c.PC 4) (c.exec inst) := by
    unfold CPU.exec
    dsimp only
    repeat' (with_reducible apply ite_ind <;> intro _)
    · unfold PCShape; simp [finish_PC]
    · unfold PCShape; simp [finish_PC]
    · contradiction
    · contradiction
    · contradiction
    · exact execLoad_pc _ _ _ _ _ _
    · exact execStore_pc _ _ _ _ _ _
    · exact execOpImm_pc _ _ _ _ _ _
    · exact execOp_pc _ _ _ _ _ _ _
    · unfold PCShape; simp
    · unfold PCShape; simp [finish_PC]
  rcases key h with h | h <;> exact h

theorem immJ_even (inst : Nat) : immJ inst % 2 = 0 := by
  rw [immJ_eq]
  have h20 : inst / 2147483648 % 2 < 2 := Nat.mod_lt _ (by norm_num)
  have h10 : inst / 2097152 % 1024 < 1024 := Nat.mod_lt _ (by norm_num)
  have h11 : inst / 1048576 % 2 < 2 := Nat.mod_lt _ (by norm_num)
  have h19 : inst / 4096 % 256 < 256 := Nat.mod_lt _ (by norm_num)
  generalize inst / 2147483648 % 2 = b20 at h20 ⊢
  generalize inst / 2097152 % 1024 = b10 at h10 ⊢
  generalize inst / 1048576 % 2 = b11 at h11 ⊢
  generalize inst / 4096 % 256 = b19 at h19 ⊢
  have hv : b20 * 1048576 + b19 * 4096 + b11 * 2048 + b10 * 2 < 2097152 := by omega
  have he : (b20 * 1048576 + b19 * 4096 + b11 * 2048 + b10 * 2) % 2 = 0 := by omega
  generalize b20 * 1048576 + b19 * 4096 + b11 * 2048 + b10 * 2 = v at hv he
  by_cases hs : v < 1048576
  · rw [signExtend_21 v v (by omega) (by omega) (by omega)]; omega
  · rw [signExtend_21 v ((v : Int) - 2097152) (by omega) (by omega) (by omega)]; omega

theorem immB_even (inst : Nat) : immB inst % 2 = 0 := by
  rw [immB_eq]
  have h12 : inst / 2147483648 % 2 < 2 := Nat.mod_lt _ (by norm_num)
  have h10 : inst / 33554432 % 64 < 64 := Nat.mod_lt _ (by norm_num)
  have h4 : inst / 256 % 16 < 16 := Nat.mod_lt _ (by norm_num)
  have h11 : inst / 128 % 2 < 2 := Nat.mod_lt _ (by norm_num)
  generalize inst / 2147483648 % 2 = b12 at h12 ⊢
  generalize inst / 33554432 % 64 = b10 at h10 ⊢
  generalize inst / 256 % 16 = b4 at h4 ⊢
  generalize inst / 128 % 2 = b11 at h11 ⊢
  have hv : b12 * 4096 + b11 * 2048 + b10 * 32 + b4 * 2 < 8192 := by omega
  have he : (b12 * 4096 + b11 * 2048 + b10 * 32 + b4 * 2) % 2 = 0 := by omega
  generalize b12 * 4096 + b11 * 2048 + b10 * 32 + b4 * 2 = v at hv he
  by_cases hs : v < 4096
  · rw [signExtend_13 v v (by omega) (by omega) (by omega)]; omega
  · rw [signExtend_13 v ((v : Int) - 8192) (by omega) (by omega) (by omega)]; omega

theorem add32_toUint32_mod2 (pc : Nat) (i : Int) (hpc : pc % 2 = 0) (hi : i % 2 = 0) :
    add32 pc (toUint32 i) % 2 = 0 := by
  unfold add32 toUint32; omega

theorem add32_toUint32_mod4 (pc : Nat) (i : Int) (hpc : pc % 4 = 0) (hi : i % 4 = 0) :
    add32 pc (toUint32 i) % 4 = 0 := by
  unfold add32 toUint32; omega

theorem add32_four_mod2 (pc : Nat) (hpc : pc % 2 = 0) : add32 pc 4 % 2 = 0 := by
  unfold add32; omega

theorem add32_four_mod4 (pc : Nat) (hpc : pc % 4 = 0) : add32 pc 4 % 4 = 0 := by
  unfold add32; omega

theorem exec_pc_even (c : CPU) (inst : Nat) (hpc : c.PC % 2 = 0)
    (h : (c.exec inst).2 = true) : (c.exec inst).1.PC % 2 = 0 := by
  rcases exec_pc c inst h with ⟨_, e⟩ | ⟨_, e⟩ | ⟨_, e | e⟩ | ⟨_, _, _, e⟩
  · rw [e]; exact add32_toUint32_mod2 _ _ hpc (immJ_even inst)
  · rw [e, and_FFFFFFFE]; omega
  · rw [e]; exact add32_four_mod2 _ hpc
  · rw [e]; exact add32_toUint32_mod2 _ _ hpc (immB_even inst)
  · rw [e]; exact add32_four_mod2 _ hpc

theorem Step_pc_even (c : CPU) (hpc : c.PC % 2 = 0) (h : c.Step.2 = true) :
    c.Step.1.PC % 2 = 0 := by
  rcases Step_cases c with hs | ⟨inst, _, hs⟩
  · rw [hs] at h; cases h
  · rw [hs] at h ⊢; exact exec_pc_even c inst hpc h

theorem stepN_succ (n : Nat) : ∀ c : CPU, stepN c (n + 1) = (stepN c n).Step.1 := by
  induction n with
  | zero => intro c; rfl
  | succ n ih => intro c; exact ih c.Step.1

/-- C13 (counterexample): `JAL x0,+2` at address 0. The program counter 0 is a multiple
of 4, `Step` returns true, and the new program counter is 2. -/
theorem C13_pc_alignment_counterexample :
    jalOddMachine.PC % 4 = 0 ∧ jalOddMachine.Step.2 = true ∧ jalOddMachine.Step.1.PC = 2 ∧
    jalOddMachine.Step.1.PC % 4 ≠ 0 := by
  decide

/-- C13 (amended): the program counter stays even while running, and word-aligned except
across jumps and taken branches to targets that are not multiples of 4. If the program
counter is even and `Step` returns true, the new program counter is even, hence it is
even in every running state reached from an even (in particular a 4-aligned) entry
address. If the program counter is a multiple of 4 and `Step` returns true, the new
program counter is a multiple of 4 provided that the offset of a JAL or of a branch is a
multiple of 4 and that the target of a JALR is a multiple of 4. -/
theorem C13_pc_alignment :
    (∀ c : CPU, c.PC % 2 = 0 → c.Step.2 = true → c.Step.1.PC % 2 = 0) ∧
    (∀ (c : CPU) (n : Nat), c.PC % 2 = 0 → (∀ k, k < n → (stepN c k).Step.2 = true) →
      (stepN c n).PC % 2 = 0) ∧
    (∀ (c : CPU) (inst rs1 t : Nat), c.PC % 4 = 0 → c.fetch = (inst, true) →
      c.Step.2 = true → rs1 = (inst >>> 15) &&& 0x1F →
      t = toUint32 ((c.readReg rs1 : Int) + immI inst) →
      (inst &&& 0x7F = 0x6F → immJ inst % 4 = 0) →
      (inst &&& 0x7F = 0x63 → immB inst % 4 = 0) →
      (inst &&& 0x7F = 0x67 → (t - t % 2) % 4 = 0) →
      c.Step.1.PC % 4 = 0) := by
  refine ⟨Step_pc_even, ?_, ?_⟩
  · intro c n hpc
    induction n with
    | zero => intro _; exact hpc
    | succ n ih =>
      intro hk
      rw [stepN_succ]
      exact Step_pc_even _ (ih (fun k hkn => hk k (by omega))) (hk n (by omega))
  · intro c inst rs1 t hpc hf hs hrs1 ht hj hb hr
    rw [Step_eq_exec c inst hf] at hs ⊢
    rcases exec_pc c inst hs with ⟨ho, e⟩ | ⟨ho, e⟩ | ⟨ho, e | e⟩ | ⟨_, _, _, e⟩
    · rw [e]; exact add32_toUint32_mod4 _ _ hpc (hj ho)
    · rw [e, ← hrs1, add32_toUint32, ← ht, clear_bit0 t (by rw [ht]; exact toUint32_lt _)]
      exact hr ho
    · rw [e]; exact add32_four_mod4 _ hpc
    · rw [e]; exact add32_toUint32_mod4 _ _ hpc (hb ho)
    · rw [e]; exact add32_four_mod4 _ hpc

/-- C13 (witness): the taken `BEQ x5,x5,+8` of the branch test program, at address 4:
its offset 8 is a multiple of 4 and the new program counter 12 is word-aligned. -/
theorem C13_pc_alignment_witness :
    (stepN beqTestMachine 1).Step.1.PC % 4 = 0 :=
  C13_pc_alignment.2.2 (stepN beqTestMachine 1) (encB 0x63 0 5 5 8) 5 6
    (by decide) (by decide) (by decide) (by decide) (by decide)
    (fun h => absurd h (by decide)) (fun _ => by decide) (fun h => absurd h (by decide))

/-- C14 (counterexample): `Step` reports the same result, `false`, for a system call, a
fetch fault, a load fault and a store fault. -/
theorem C14_halt_same_result_counterexample :
    ecallMachine.fetch = (0x00000073, true) ∧
    ecallMachine.Step.2 = false ∧
    fetchFaultMachine.fetch.2 = false ∧
    ecallMachine.Step.2 = fetchFaultMachine.Step.2 ∧
    ecallMachine.Step.2 = loadFaultMachine.Step.2 ∧
    ecallMachine.Step.2 = storeFaultMachine.Step.2 := by
  decide

theorem diagLoad_of_false (c : CPU) (inst rd f3 rs1 n : Nat)
    (h : (c.execLoad inst rd f3 rs1 n).2 = false) :
    ∃ d, c.diagLoad inst f3 rs1 = some d ∧ d.isTrap = true := by
  unfold CPU.execLoad at h
  unfold CPU.diagLoad
  dsimp only at h ⊢
  by_cases h0 : f3 = 0
  · rw [if_pos h0] at h ⊢
    rcases hr : c.Bus.Read8 (add32 (c.readReg rs1) (toUint32 (immI inst))) with ⟨b, ok⟩
    rw [hr] at h
    cases ok
    · exact ⟨_, rfl, rfl⟩
    · simp [CPU.finish] at h
  rw [if_neg h0] at h ⊢
  by_cases h4 : f3 = 4
  · rw [if_pos h4] at h ⊢
    rcases hr : c.Bus.Read8 (add32 (c.readReg rs1) (toUint32 (immI inst))) with ⟨b, ok⟩
    rw [hr] at h
    cases ok
    · exact ⟨_, rfl, rfl⟩
    · simp [CPU.finish] at h
  rw [if_neg h4] at h ⊢
  by_cases h2 : f3 = 2
  · rw [if_pos h2] at h ⊢
    rcases hr : c.Bus.Read32 (add32 (c.readReg rs1) (toUint32 (immI inst))) with ⟨b, ok⟩
    rw [hr] at h
    cases ok
    · exact ⟨_, rfl, rfl⟩
    · simp [CPU.finish] at h
  rw [if_neg h2] at h
  simp [CPU.finish] at h

theorem diagStore_of_false (c : CPU) (inst f3 rs1 rs2 n : Nat)
    (h : (c.execStore inst f3 rs1 rs2 n).2 = false) :
    ∃ d, c.diagStore inst f3 rs1 rs2 = some d ∧ d.isTrap = true := by
  unfold CPU.execStore at h
  unfold CPU.diagStore
  dsimp only at h ⊢
  by_cases h0 : f3 = 0
  · rw [if_pos h0] at h ⊢
    rcases hr : c.Bus.Write8 (add32 (c.readReg rs1) (toUint32 (immS inst)))
      (c.readReg rs2 &&& 0xFF) with ⟨b, ok⟩
    rw [hr] at h
    cases ok
    · exact ⟨_, rfl, rfl⟩
    · simp [CPU.finish] at h
  rw [if_neg h0] at h ⊢
  by_cases h2 : f3 = 2
  · rw [if_pos h2] at h ⊢
    rcases hr : c.Bus.Write32 (add32 (c.readReg rs1) (toUint32 (immS inst)))
      (c.readReg rs2) with ⟨b, ok⟩
    rw [hr] at h
    cases ok
    · exact ⟨_, rfl, rfl⟩
    · simp [CPU.finish] at h
  rw [if_neg h2] at h
  simp [CPU.finish] at h

theorem finish_snd (c : CPU) (pc : Nat) : (c.finish pc).2 = true := rfl

theorem execBranch_true (c : CPU) (inst f3 rs1 rs2 n : Nat) :
    (c.execBranch inst f3 rs1 rs2 n).2 = true := by
  unfold CPU.execBranch
  dsimp only
  show (fun r : CPU × Bool => r.2 = true) _
  repeat' (with_reducible apply ite_ind (fun r : CPU × Bool => r.2 = true) <;> intro _)
  all_goals rfl

theorem execOpImm_true (c : CPU) (inst rd f3 rs1 n : Nat) :
    (c.execOpImm inst rd f3 rs1 n).2 = true := by
  unfold CPU.execOpImm
  dsimp only
  show (fun r : CPU × Bool => r.2 = true) _
  repeat' (with_reducible apply ite_ind (fun r : CPU × Bool => r.2 = true) <;> intro _)
  all_goals rfl

theorem execOp_true (c : CPU) (rd f3 rs1 rs2 f7 n : Nat) :
    (c.execOp rd f3 rs1 rs2 f7 n).2 = true := by
  unfold CPU.execOp
  dsimp only
  show (fun r : CPU × Bool => r.2 = true) _
  repeat' (with_reducible apply ite_ind (fun r : CPU × Bool => r.2 = true) <;> intro _)
  all_goals rfl

/-- A step that returns false after a successful fetch printed the halt line exactly when
the opcode is 0x73, and a trap line otherwise. -/
theorem diagExec_of_false (c : CPU) (inst : Nat) (h : (c.exec inst).2 = false) :
    (inst &&& 0x7F = 0x73 ∧ c.diagExec inst = some .haltEcall) ∨
    (inst &&& 0x7F ≠ 0x73 ∧ ∃ d, c.diagExec inst = some d ∧ d.isTrap = true) := by
  by_cases h1 : inst &&& 0x7F = 0x37
  · simp [CPU.exec, h1, CPU.finish] at h
  by_cases h2 : inst &&& 0x7F = 0x17
  · simp [CPU.exec, h2, CPU.finish] at h
  by_cases h3 : inst &&& 0x7F = 0x6F
  · simp [CPU.exec, h3, CPU.finish] at h
  by_cases h4 : inst &&& 0x7F = 0x67
  · simp [CPU.exec, h4, CPU.finish] at h
  by_cases h5 : inst &&& 0x7F = 0x63
  · rw [exec_branch c inst h5, execBranch_true] at h; cases h
  by_cases h6 : inst &&& 0x7F = 0x03
  · rw [exec_load c inst h6] at h
    right
    refine ⟨by rw [h6]; decide, ?_⟩
    have e : c.diagExec inst = c.diagLoad inst ((inst >>> 12) &&& 0x7)
        ((inst >>> 15) &&& 0x1F) := by simp [CPU.diagExec, h6]
    rw [e]
    exact diagLoad_of_false c inst _ _ _ _ h
  by_cases h7 : inst &&& 0x7F = 0x23
  · rw [exec_store c inst h7] at h
    right
    refine ⟨by rw [h7]; decide, ?_⟩
    have e : c.diagExec inst = c.diagStore inst ((inst >>> 12) &&& 0x7)
        ((inst >>> 15) &&& 0x1F) ((inst >>> 20) &&& 0x1F) := by simp [CPU.diagExec, h7]
    rw [e]
    exact diagStore_of_false c inst _ _ _ _ h
  by_cases h8 : inst &&& 0x7F = 0x13
  · rw [exec_opimm c inst h8, execOpImm_true] at h; cases h
  by_cases h9 : inst &&& 0x7F = 0x33
  · rw [exec_op c inst h9, execOp_true] at h; cases h
  by_cases h10 : inst &&& 0x7F = 0x73
  · left
    exact ⟨h10, by simp [CPU.diagExec, h10]⟩
  · simp [CPU.exec, h1, h2, h3, h4, h5, h6, h7, h8, h9, h10, CPU.finish] at h

theorem execLoad_false_of_trap (c : CPU) (inst rd f3 rs1 n : Nat) (d : Diag)
    (hd : c.diagLoad inst f3 rs1 = some d) (ht : d.isTrap = true ∨ d = Diag.haltEcall) :
    (c.execLoad inst rd f3 rs1 n).2 = false := by
  unfold CPU.diagLoad at hd
  unfold CPU.execLoad
  dsimp only at hd ⊢
  by_cases h0 : f3 = 0
  · rw [if_pos h0] at hd ⊢
    rcases hr : c.Bus.Read8 (add32 (c.readReg rs1) (toUint32 (immI inst))) with ⟨b, ok⟩
    rw [hr] at hd
    cases ok
    · rfl
    · cases hd
  rw [if_neg h0] at hd ⊢
  by_cases h4 : f3 = 4
  · rw [if_pos h4] at hd ⊢
    rcases hr : c.Bus.Read8 (add32 (c.readReg rs1) (toUint32 (immI inst))) with ⟨b, ok⟩
    rw [hr] at hd
    cases ok
    · rfl
    · cases hd
  rw [if_neg h4] at hd ⊢
  by_cases h2 : f3 = 2
  · rw [if_pos h2] at hd ⊢
    rcases hr : c.Bus.Read32 (add32 (c.readReg rs1) (toUint32 (immI inst))) with ⟨b, ok⟩
    rw [hr] at hd
    cases ok
    · rfl
    · cases hd
  rw [if_neg h2] at hd
  cases hd
  rcases ht with ht | ht <;> cases ht

theorem execStore_false_of_trap (c : CPU) (inst f3 rs1 rs2 n : Nat) (d : Diag)
    (hd : c.diagStore inst f3 rs1 rs2 = some d) (ht : d.isTrap = true ∨ d = Diag.haltEcall) :
    (c.execStore inst f3 rs1 rs2 n).2 = false := by
  unfold CPU.diagStore at hd
  unfold CPU.execStore
  dsimp only at hd ⊢
  by_cases h0 : f3 = 0
  · rw [if_pos h0] at hd ⊢
    rcases hr : c.Bus.Write8 (add32 (c.readReg rs1) (toUint32 (immS inst)))
      (c.readReg rs2 &&& 0xFF) with ⟨b, ok⟩
    rw [hr] at hd
    cases ok
    · rfl
    · cases hd
  rw [if_neg h0] at hd ⊢
  by_cases h2 : f3 = 2
  · rw [if_pos h2] at hd ⊢
    rcases hr : c.Bus.Write32 (add32 (c.readReg rs1) (toUint32 (immS inst)))
      (c.readReg rs2) with ⟨b, ok⟩
    rw [hr] at hd
    cases ok
    · rfl
    · cases hd
  rw [if_neg h2] at hd
  cases hd
  rcases ht with ht | ht <;> cases ht

theorem NoStop_none : NoStop none := fun d h => by cases h

theorem NoStop_some (x : Diag) (h1 : x.isTrap = false) (h2 : x ≠ Diag.haltEcall) :
    NoStop (some x) := by
  intro d h
  cases h
  intro hh
  rcases hh with hh | hh
  · rw [h1] at hh; cases hh
  · exact h2 hh

/-- A step that prints a trap line or the halt line after a successful fetch returns
false. -/
theorem exec_false_of_diag (c : CPU) (inst : Nat) (d : Diag)
    (hd : c.diagExec inst = some d) (ht : d.isTrap = true ∨ d = Diag.haltEcall) :
    (c.exec inst).2 = false := by
  by_cases h6 : inst &&& 0x7F = 0x03
  · have e : c.diagExec inst = c.diagLoad inst ((inst >>> 12) &&& 0x7)
        ((inst >>> 15) &&& 0x1F) := by simp [CPU.diagExec, h6]
    rw [e] at hd
    rw [exec_load c inst h6]
    exact execLoad_false_of_trap c inst _ _ _ _ d hd ht
  by_cases h7 : inst &&& 0x7F = 0x23
  · have e : c.diagExec inst = c.diagStore inst ((inst >>> 12) &&& 0x7)
        ((inst >>> 15) &&& 0x1F) ((inst >>> 20) &&& 0x1F) := by simp [CPU.diagExec, h7]
    rw [e] at hd
    rw [exec_store c inst h7]
    exact execStore_false_of_trap c inst _ _ _ _ d hd ht
  by_cases h10 : inst &&& 0x7F = 0x73
  · simp [CPU.exec, h10]
  exfalso
  have key : NoStop (c.diagExec inst) := by
    unfold CPU.diagExec
    dsimp only
    repeat' (with_reducible apply ite_ind NoStop <;> intro _)
    all_goals first
      | exact NoStop_none
      | exact absurd (by assumption) h6
      | exact absurd (by assumption) h7
      | exact absurd (by assumption) h10
      | exact NoStop_some _ rfl (by intro h; cases h)
  exact key d hd ht

/-- A step that returns false printed the halt line, with opcode 0x73 fetched, or a trap
line, with no opcode 0x73 fetched. -/
theorem Step_false_diag (c : CPU) (h : c.Step.2 = false) :
    (c.StepDiag = some Diag.haltEcall ∧
      ∃ inst, c.fetch = (inst, true) ∧ inst &&& 0x7F = 0x73) ∨
    (∃ d, c.StepDiag = some d ∧ d.isTrap = true ∧
      ¬ ∃ inst, c.fetch = (inst, true) ∧ inst &&& 0x7F = 0x73) := by
  rcases hr : c.fetch with ⟨w, ok⟩
  cases ok
  · right
    refine ⟨Diag.trapFetch, by simp [CPU.StepDiag, hr], rfl, ?_⟩
    rintro ⟨inst, hi, _⟩
    cases hi
  · rw [Step_eq_exec c w hr] at h
    have e : c.StepDiag = c.diagExec w := by simp [CPU.StepDiag, hr]
    rw [e]
    rcases diagExec_of_false c w h with ⟨ho, hd⟩ | ⟨ho, d, hd, ht⟩
    · exact Or.inl ⟨hd, w, rfl, ho⟩
    · right
      refine ⟨d, hd, ht, ?_⟩
      rintro ⟨inst, hi, hop⟩
      cases hi
      exact ho hop

/-- A step that prints a trap line or the halt line returns false. -/
theorem Step_false_of_diag (c : CPU) (d : Diag) (hd : c.StepDiag = some d)
    (ht : d.isTrap = true ∨ d = Diag.haltEcall) : c.Step.2 = false := by
  rcases hr : c.fetch with ⟨w, ok⟩
  cases ok
  · simp [CPU.Step, hr]
  · rw [Step_eq_exec c w hr]
    have e : c.StepDiag = c.diagExec w := by simp [CPU.StepDiag, hr]
    rw [e] at hd
    exact exec_false_of_diag c w d hd ht

/-- C14 (amended): a clean halt and a fault report the same result and differ only in
the diagnostic line. `Step` returns `false` for a system call, printing `[halt] ECALL`,
and for a failed fetch, printing `[trap] fetch OOB`. In general `Step` returns `false`
exactly when it prints the halt line or one of the `[trap] ... OOB` lines (fetch, load
and store faults); when it returns `false`, either opcode 0x73 was fetched and the line
is `[halt] ECALL`, or no opcode 0x73 was fetched and the line is a trap line. -/
theorem C14_halt_and_fault_same_result :
    (∀ (c : CPU) (inst : Nat), c.fetch = (inst, true) → inst &&& 0x7F = 0x73 →
      c.Step.2 = false ∧ c.StepDiag = some Diag.haltEcall) ∧
    (∀ c : CPU, c.fetch.2 = false →
      c.Step.2 = false ∧ c.StepDiag = some Diag.trapFetch) ∧
    (∀ c : CPU, c.Step.2 = false ↔
      ∃ d, c.StepDiag = some d ∧ (d.isTrap = true ∨ d = Diag.haltEcall)) ∧
    (∀ c : CPU, c.Step.2 = false →
      (c.StepDiag = some Diag.haltEcall ∧
        ∃ inst, c.fetch = (inst, true) ∧ inst &&& 0x7F = 0x73) ∨
      (∃ d, c.StepDiag = some d ∧ d.isTrap = true ∧
        ¬ ∃ inst, c.fetch = (inst, true) ∧ inst &&& 0x7F = 0x73)) := by
  refine ⟨?_, ?_, ?_, Step_false_diag⟩
  · intro c inst hf hop
    constructor
    · simp [CPU.Step, hf, CPU.exec, hop]
    · simp [CPU.StepDiag, hf, CPU.diagExec, hop]
  · intro c hf
    rcases hr : c.fetch with ⟨w, ok⟩
    rw [hr] at hf
    cases ok
    · simp [CPU.Step, CPU.StepDiag, hr]
    · cases hf
  · intro c
    constructor
    · intro h
      rcases Step_false_diag c h with ⟨hd, _⟩ | ⟨d, hd, ht, _⟩
      · exact ⟨_, hd, Or.inr rfl⟩
      · exact ⟨d, hd, Or.inl ht⟩
    · rintro ⟨d, hd, ht⟩
      exact Step_false_of_diag c d hd ht

/-- C14 (witness): the `ECALL` machine and the fetch-fault machine both make `Step`
return false; the first prints `[halt] ECALL`, the second `[trap] fetch OOB`. -/
theorem C14_halt_and_fault_same_result_witness :
    (ecallMachine.Step.2 = false ∧ ecallMachine.StepDiag = some Diag.haltEcall) ∧
    (fetchFaultMachine.Step.2 = false ∧ fetchFaultMachine.StepDiag = some Diag.trapFetch) :=
  ⟨C14_halt_and_fault_same_result.1 ecallMachine 0x00000073 (by decide) (by decide),
   C14_halt_and_fault_same_result.2.1 fetchFaultMachine (by decide)⟩

theorem window_iff (a : Nat) : (a ≥ UARTBase ∧ a < UARTBase + UARTSize) ↔ inWindow a := by
  simp [UARTBase, UARTSize, inWindow]

theorem Write8_ram (b : Bus) (a v : Nat) (hw : ¬ inWindow a) (hs : a < b.ram.size) :
    b.Write8 a v = ({ b with ram := { b.ram with
      data := Function.update b.ram.data a ⟨v % 256, Nat.mod_lt _ (by decide)⟩ } }, true) := by
  have hw' := (not_congr (window_iff a)).2 hw
  simp only [Bus.Write8, hw', if_false, RAM.Write8, hs, if_true]

theorem Write8_fail (b : Bus) (a v : Nat) (hw : ¬ inWindow a) (hs : b.ram.size ≤ a) :
    b.Write8 a v = (b, false) := by
  have hw' := (not_congr (window_iff a)).2 hw
  have hs' : ¬ a < b.ram.size := by omega
  simp only [Bus.Write8, hw', if_false, RAM.Write8, hs']

theorem Write8_window (b : Bus) (a v : Nat) (hw : inWindow a) (hne : a ≠ 0x10000000) :
    b.Write8 a v = (b, true) := by
  have hw' := (window_iff a).2 hw
  have hne' : ¬ a = UARTTx := by simpa [UARTTx, UARTBase] using hne
  simp only [Bus.Write8, hw', and_self, if_true, hne', if_false]

theorem Write8_tx (b : Bus) (v : Nat) :
    b.Write8 0x10000000 v = ({ b with uart := b.uart.Tx v }, true) := by
  simp [Bus.Write8, UARTBase, UARTSize, UARTTx]

theorem Write8_cases (b : Bus) (a v : Nat) :
    (¬ inWindow a ∧ a < b.ram.size ∧ b.Write8 a v = ({ b with ram := { b.ram with
      data := Function.update b.ram.data a ⟨v % 256, Nat.mod_lt _ (by decide)⟩ } }, true)) ∨
    (¬ inWindow a ∧ b.ram.size ≤ a ∧ b.Write8 a v = (b, false)) ∨
    (inWindow a ∧ a ≠ 0x10000000 ∧ b.Write8 a v = (b, true)) ∨
    (a = 0x10000000 ∧ b.Write8 a v = ({ b with uart := b.uart.Tx v }, true)) := by
  by_cases hw : inWindow a
  · by_cases hne : a = 0x10000000
    · right; right; right; subst hne; exact ⟨rfl, Write8_tx b v⟩
    · right; right; left; exact ⟨hw, hne, Write8_window b a v hw hne⟩
  · by_cases hs : a < b.ram.size
    · left; exact ⟨hw, hs, Write8_ram b a v hw hs⟩
    · right; left; exact ⟨hw, by omega, Write8_fail b a v hw (by omega)⟩

theorem Write8_size (b : Bus) (a v : Nat) : (b.Write8 a v).1.ram.size = b.ram.size := by
  rcases Write8_cases b a v with ⟨_, _, e⟩ | ⟨_, _, e⟩ | ⟨_, _, e⟩ | ⟨_, e⟩ <;> rw [e]

theorem Write8_ok_iff (b : Bus) (a v : Nat) :
    (b.Write8 a v).2 = true ↔ (inWindow a ∨ a < b.ram.size) := by
  rcases Write8_cases b a v with ⟨hw, hs, e⟩ | ⟨hw, hs, e⟩ | ⟨hw, _, e⟩ | ⟨ha, e⟩
  · rw [e]; simp [hs]
  · rw [e]; simp [hw]; omega
  · rw [e]; simp [hw]
  · rw [e]; subst ha; simp [inWindow]

theorem Write8_of_fail (b : Bus) (a v : Nat) (h : (b.Write8 a v).2 = false) :
    (b.Write8 a v).1 = b := by
  rcases Write8_cases b a v with ⟨_, _, e⟩ | ⟨_, _, e⟩ | ⟨_, _, e⟩ | ⟨_, e⟩ <;> rw [e] at h ⊢ <;>
    first | rfl | cases h

/-- `Bus.Write32` away from the transmit register, as the four byte stores in sequence. -/
theorem Write32_seq (b : Bus) (addr v : Nat) (hne : addr ≠ 0x10000000) :
    b.Write32 addr v =
      if (b.Write8 addr (v &&& 0xFF)).2 = false then ((b.Write8 addr (v &&& 0xFF)).1, false)
      else if ((b.Write8 addr (v &&& 0xFF)).1.Write8 (add32 addr 1)
          ((v >>> 8) &&& 0xFF)).2 = false then
        (((b.Write8 addr (v &&& 0xFF)).1.Write8 (add32 addr 1) ((v >>> 8) &&& 0xFF)).1, false)
      else if (((b.Write8 addr (v &&& 0xFF)).1.Write8 (add32 addr 1)
          ((v >>> 8) &&& 0xFF)).1.Write8 (add32 addr 2) ((v >>> 16) &&& 0xFF)).2 = false then
        ((((b.Write8 addr (v &&& 0xFF)).1.Write8 (add32 addr 1)
          ((v >>> 8) &&& 0xFF)).1.Write8 (add32 addr 2) ((v >>> 16) &&& 0xFF)).1, false)
      else (((b.Write8 addr (v &&& 0xFF)).1.Write8 (add32 addr 1)
          ((v >>> 8) &&& 0xFF)).1.Write8 (add32 addr 2) ((v >>> 16) &&& 0xFF)).1.Write8
            (add32 addr 3) ((v >>> 24) &&& 0xFF) := by
  have hne' : ¬ addr = UARTTx := by simpa [UARTTx, UARTBase] using hne
  rw [Bus.Write32, if_neg hne']
  rcases h0 : b.Write8 addr (v &&& 0xFF) with ⟨b0, ok0⟩
  cases ok0
  · simp
  · simp only [Bool.true_eq_false, if_false]
    rcases h1 : b0.Write8 (add32 addr 1) ((v >>> 8) &&& 0xFF) with ⟨b1, ok1⟩
    cases ok1
    · simp
    · simp only [Bool.true_eq_false, if_false]
      rcases h2 : b1.Write8 (add32 addr 2) ((v >>> 16) &&& 0xFF) with ⟨b2, ok2⟩
      cases ok2
      · simp
      · simp

/-- C17 (counterexample): with 256 MiB of memory, `n = 0x10000000`, the word store
`Write32(n-2, 0x41424344)` succeeds: its third and fourth byte stores go to the device
window, and the third one transmits `0x42`. -/
theorem C17_write32_end_of_memory_counterexample :
    bus256MiB.ram.size = 0x10000000 ∧ 2 ≤ bus256MiB.ram.size ∧
    (bus256MiB.Write32 (bus256MiB.ram.size - 2) 0x41424344).2 = true ∧
    (bus256MiB.Write32 (bus256MiB.ram.size - 2) 0x41424344).1.uart.out = [0x42] := by
  decide

theorem Read8_Write8_other (b : Bus) (a a' v : Nat) (h : a' ≠ a) :
    (b.Write8 a v).1.Read8 a' = b.Read8 a' := by
  rcases Write8_cases b a v with ⟨_, _, e⟩ | ⟨_, _, e⟩ | ⟨_, _, e⟩ | ⟨_, e⟩ <;> rw [e]
  · simp only [Bus.Read8, RAM.Read8, Function.update_apply, h, if_false]
  · rfl

theorem Read8_Write8_same (b : Bus) (a v : Nat) (hw : ¬ inWindow a)
    (hok : (b.Write8 a v).2 = true) (hv : v < 256) :
    (b.Write8 a v).1.Read8 a = (v, true) := by
  have hs : a < b.ram.size := by
    rcases (Write8_ok_iff b a v).1 hok with h | h
    · exact absurd h hw
    · exact h
  have hw' := (not_congr (window_iff a)).2 hw
  rw [Write8_ram b a v hw hs]
  simp only [Bus.Read8, hw', if_false, RAM.Read8, hs, if_true, Function.update_same,
    Nat.mod_eq_of_lt hv]

theorem Write8_uart_of_ne (b : Bus) (a v : Nat) (h : a ≠ 0x10000000) :
    (b.Write8 a v).1.uart = b.uart := by
  rcases Write8_cases b a v with ⟨_, _, e⟩ | ⟨_, _, e⟩ | ⟨_, _, e⟩ | ⟨ha, e⟩
  · rw [e]
  · rw [e]
  · rw [e]
  · exact absurd ha h

theorem Write8_data_other (b : Bus) (a a' v : Nat) (h : a' ≠ a) :
    (b.Write8 a v).1.ram.data a' = b.ram.data a' := by
  rcases Write8_cases b a v with ⟨_, _, e⟩ | ⟨_, _, e⟩ | ⟨_, _, e⟩ | ⟨_, e⟩ <;> rw [e]
  simp only [Function.update_apply, h, if_false]

theorem byte_lt (x : Nat) : x &&& 0xFF < 256 := by
  rw [and_FF]; exact Nat.mod_lt _ (by norm_num)

theorem add32_ne (addr i j : Nat) (hi : i < 4) (hj : j < 4) (hij : i ≠ j) :
    add32 addr i ≠ add32 addr j := by
  unfold add32; omega

theorem add32_ne_self (addr j : Nat) (hj0 : 0 < j) (hj : j < 4) : addr ≠ add32 addr j := by
  unfold add32; omega

/-- `Bus.Write32` away from the transmit register in terms of its four byte stores. -/
theorem Write32_bytewise : ∀ (b : Bus) (addr v : Nat) (r0 r1 r2 r3 : Bus × Bool), addr ≠ 0x10000000 →
    r0 = b.Write8 addr (v &&& 0xFF) →
    r1 = r0.1.Write8 (add32 addr 1) ((v >>> 8) &&& 0xFF) →
    r2 = r1.1.Write8 (add32 addr 2) ((v >>> 16) &&& 0xFF) →
    r3 = r2.1.Write8 (add32 addr 3) ((v >>> 24) &&& 0xFF) →
    ((b.Write32 addr v).2 = true ↔
      (r0.2 = true ∧ r1.2 = true ∧ r2.2 = true ∧ r3.2 = true)) ∧
    (r1.2 = (b.Write8 (add32 addr 1) ((v >>> 8) &&& 0xFF)).2 ∧
      r2.2 = (b.Write8 (add32 addr 2) ((v >>> 16) &&& 0xFF)).2 ∧
      r3.2 = (b.Write8 (add32 addr 3) ((v >>> 24) &&& 0xFF)).2) ∧
    (r0.2 = false → b.Write32 addr v = (b, false)) ∧
    (r0.2 = true → r1.2 = false → b.Write32 addr v = (r0.1, false)) ∧
    (r0.2 = true → r1.2 = true → r2.2 = false → b.Write32 addr v = (r1.1, false)) ∧
    (r0.2 = true → r1.2 = true → r2.2 = true → r3.2 = false →
      b.Write32 addr v = (r2.1, false)) ∧
    (r0.2 = true → r1.2 = true → r2.2 = true → r3.2 = true →
      b.Write32 addr v = (r3.1, true)) ∧
    (r0.2 = true → ¬ inWindow addr →
      (b.Write32 addr v).1.Read8 addr = (v &&& 0xFF, true)) ∧
    (r0.2 = true → r1.2 = true → ¬ inWindow (add32 addr 1) →
      (b.Write32 addr v).1.Read8 (add32 addr 1) = ((v >>> 8) &&& 0xFF, true)) ∧
    (r0.2 = true → r1.2 = true → r2.2 = true → ¬ inWindow (add32 addr 2) →
      (b.Write32 addr v).1.Read8 (add32 addr 2) = ((v >>> 16) &&& 0xFF, true)) := by
  intro b addr v r0 r1 r2 r3 hne h0 h1 h2 h3
  have hseq := Write32_seq b addr v hne
  rw [← h0, ← h1, ← h2, ← h3] at hseq
  -- the success of a byte store depends on the address and the memory size only
  have s1 : r1.2 = (b.Write8 (add32 addr 1) ((v >>> 8) &&& 0xFF)).2 := by
    have hz : r0.1.ram.size = b.ram.size := by rw [h0]; exact Write8_size _ _ _
    rw [Bool.eq_iff_iff, h1, Write8_ok_iff, Write8_ok_iff, hz]
  have s2 : r2.2 = (b.Write8 (add32 addr 2) ((v >>> 16) &&& 0xFF)).2 := by
    have hz : r1.1.ram.size = b.ram.size := by
      rw [h1, Write8_size, h0, Write8_size]
    rw [Bool.eq_iff_iff, h2, Write8_ok_iff, Write8_ok_iff, hz]
  have s3 : r3.2 = (b.Write8 (add32 addr 3) ((v >>> 24) &&& 0xFF)).2 := by
    have hz : r2.1.ram.size = b.ram.size := by
      rw [h2, Write8_size, h1, Write8_size, h0, Write8_size]
    rw [Bool.eq_iff_iff, h3, Write8_ok_iff, Write8_ok_iff, hz]
  have f0 : r0.2 = false → r0.1 = b := by
    intro h; rw [h0] at h ⊢; exact Write8_of_fail _ _ _ h
  have f1 : r1.2 = false → r1.1 = r0.1 := by
    intro h; rw [h1] at h ⊢; exact Write8_of_fail _ _ _ h
  have f2 : r2.2 = false → r2.1 = r1.1 := by
    intro h; rw [h2] at h ⊢; exact Write8_of_fail _ _ _ h
  have f3 : r3.2 = false → r3.1 = r2.1 := by
    intro h; rw [h3] at h ⊢; exact Write8_of_fail _ _ _ h
  -- reading back a byte through the later stores
  have k0 : r0.2 = true → ¬ inWindow addr → r0.1.Read8 addr = (v &&& 0xFF, true) := by
    intro hok hw; rw [h0] at hok ⊢; exact Read8_Write8_same b addr _ hw hok (byte_lt v)
  have k1 : r1.2 = true → ¬ inWindow (add32 addr 1) →
      r1.1.Read8 (add32 addr 1) = ((v >>> 8) &&& 0xFF, true) := by
    intro hok hw; rw [h1] at hok ⊢; exact Read8_Write8_same _ _ _ hw hok (byte_lt _)
  have k2 : r2.2 = true → ¬ inWindow (add32 addr 2) →
      r2.1.Read8 (add32 addr 2) = ((v >>> 16) &&& 0xFF, true) := by
    intro hok hw; rw [h2] at hok ⊢; exact Read8_Write8_same _ _ _ hw hok (byte_lt _)
  have o10 : r1.1.Read8 addr = r0.1.Read8 addr := by
    rw [h1]; exact Read8_Write8_other _ _ _ _ (add32_ne_self addr 1 (by decide) (by decide))
  have o20 : r2.1.Read8 addr = r1.1.Read8 addr := by
    rw [h2]; exact Read8_Write8_other _ _ _ _ (add32_ne_self addr 2 (by decide) (by decide))
  have o30 : r3.1.Read8 addr = r2.1.Read8 addr := by
    rw [h3]; exact Read8_Write8_other _ _ _ _ (add32_ne_self addr 3 (by decide) (by decide))
  have o21 : r2.1.Read8 (add32 addr 1) = r1.1.Read8 (add32 addr 1) := by
    rw [h2]
    exact Read8_Write8_other _ _ _ _ (add32_ne addr 1 2 (by decide) (by decide) (by decide))
  have o31 : r3.1.Read8 (add32 addr 1) = r2.1.Read8 (add32 addr 1) := by
    rw [h3]
    exact Read8_Write8_other _ _ _ _ (add32_ne addr 1 3 (by decide) (by decide) (by decide))
  have o32 : r3.1.Read8 (add32 addr 2) = r2.1.Read8 (add32 addr 2) := by
    rw [h3]
    exact Read8_Write8_other _ _ _ _ (add32_ne addr 2 3 (by decide) (by decide) (by decide))
  rw [hseq]
  clear hseq h0 h1 h2 h3
  rcases r0 with ⟨b0, ok0⟩
  rcases r1 with ⟨b1, ok1⟩
  rcases r2 with ⟨b2, ok2⟩
  rcases r3 with ⟨b3, ok3⟩
  simp only at *
  refine ⟨?_, ⟨s1, s2, s3⟩, ?_⟩
  · cases ok0 <;> cases ok1 <;> cases ok2 <;> cases ok3 <;> simp
  · cases ok0 <;> cases ok1 <;> cases ok2 <;> cases ok3 <;> simp_all

/-- C17 (amended): word stores are byte-wise and short-circuit. For `addr ≠ 0x10000000`,
with `r0 .. r3` the four byte stores performed one after the other, `Write32` succeeds
exactly when all four succeed; the success of each store is the same on the original bus;
when the first failing store has index `k` the result is failure with the bus left by
stores `0 .. k-1`, and the bytes those stores wrote to memory read back. So a failing
`Write32` is not atomic: with memory size `n`, `2 ≤ n < 2^32`, whose addresses `n-2`,
`n-1`, `n` lie outside the device window, `Write32(n-2, v)` fails, leaves bytes `n-2` and
`n-1` equal to the two low bytes of `v`, and emits nothing. -/
theorem C17_write32_bytewise_short_circuit :
    (∀ (b : Bus) (addr v : Nat) (r0 r1 r2 r3 : Bus × Bool), addr ≠ 0x10000000 →
      r0 = b.Write8 addr (v &&& 0xFF) →
      r1 = r0.1.Write8 (add32 addr 1) ((v >>> 8) &&& 0xFF) →
      r2 = r1.1.Write8 (add32 addr 2) ((v >>> 16) &&& 0xFF) →
      r3 = r2.1.Write8 (add32 addr 3) ((v >>> 24) &&& 0xFF) →
      ((b.Write32 addr v).2 = true ↔
        (r0.2 = true ∧ r1.2 = true ∧ r2.2 = true ∧ r3.2 = true)) ∧
      (r1.2 = (b.Write8 (add32 addr 1) ((v >>> 8) &&& 0xFF)).2 ∧
        r2.2 = (b.Write8 (add32 addr 2) ((v >>> 16) &&& 0xFF)).2 ∧
        r3.2 = (b.Write8 (add32 addr 3) ((v >>> 24) &&& 0xFF)).2) ∧
      (r0.2 = false → b.Write32 addr v = (b, false)) ∧
      (r0.2 = true → r1.2 = false → b.Write32 addr v = (r0.1, false)) ∧
      (r0.2 = true → r1.2 = true → r2.2 = false → b.Write32 addr v = (r1.1, false)) ∧
      (r0.2 = true → r1.2 = true → r2.2 = true → r3.2 = false →
        b.Write32 addr v = (r2.1, false)) ∧
      (r0.2 = true → r1.2 = true → r2.2 = true → r3.2 = true →
        b.Write32 addr v = (r3.1, true)) ∧
      (r0.2 = true → ¬ inWindow addr →
        (b.Write32 addr v).1.Read8 addr = (v &&& 0xFF, true)) ∧
      (r0.2 = true → r1.2 = true → ¬ inWindow (add32 addr 1) →
        (b.Write32 addr v).1.Read8 (add32 addr 1) = ((v >>> 8) &&& 0xFF, true)) ∧
      (r0.2 = true → r1.2 = true → r2.2 = true → ¬ inWindow (add32 addr 2) →
        (b.Write32 addr v).1.Read8 (add32 addr 2) = ((v >>> 16) &&& 0xFF, true))) ∧
    (∀ (b : Bus) (v n : Nat), n = b.ram.size → 2 ≤ n → n < 4294967296 →
      ¬ inWindow (n - 2) → ¬ inWindow (n - 1) → ¬ inWindow n →
      (b.Write32 (n - 2) v).2 = false ∧
      (b.Write32 (n - 2) v).1.Read8 (n - 2) = (v &&& 0xFF, true) ∧
      (b.Write32 (n - 2) v).1.Read8 (n - 1) = ((v >>> 8) &&& 0xFF, true) ∧
      (b.Write32 (n - 2) v).1.uart = b.uart) := by
  refine ⟨Write32_bytewise, ?_⟩
  intro b v n hn h2 hlt w0 w1 w2
  have hne : n - 2 ≠ 0x10000000 := by
    intro h; apply w0; unfold inWindow; omega
  have a1 : add32 (n - 2) 1 = n - 1 := by unfold add32; omega
  have a2 : add32 (n - 2) 2 = n := by unfold add32; omega
  have e0 := Write8_ram b (n - 2) (v &&& 0xFF) w0 (by omega)
  have ok0 : (b.Write8 (n - 2) (v &&& 0xFF)).2 = true := by rw [e0]
  have z0 : (b.Write8 (n - 2) (v &&& 0xFF)).1.ram.size = n := by rw [Write8_size]; exact hn.symm
  have ok1 : ((b.Write8 (n - 2) (v &&& 0xFF)).1.Write8 (n - 1) ((v >>> 8) &&& 0xFF)).2
      = true := by
    rw [Write8_ok_iff]; right; omega
  have z1 : ((b.Write8 (n - 2) (v &&& 0xFF)).1.Write8 (n - 1) ((v >>> 8) &&& 0xFF)).1.ram.size
      = n := by rw [Write8_size]; exact z0
  have e2 := Write8_fail
    ((b.Write8 (n - 2) (v &&& 0xFF)).1.Write8 (n - 1) ((v >>> 8) &&& 0xFF)).1 n
    ((v >>> 16) &&& 0xFF) w2 (by omega)
  have hseq := Write32_seq b (n - 2) v hne
  rw [a1, a2] at hseq
  simp only [ok0, ok1, e2, Bool.true_eq_false, if_false, if_true] at hseq
  rw [hseq]
  refine ⟨rfl, ?_, ?_, ?_⟩
  · rw [Read8_Write8_other _ _ _ _ (by omega : n - 2 ≠ n - 1)]
    exact Read8_Write8_same b (n - 2) _ w0 ok0 (byte_lt v)
  · exact Read8_Write8_same _ (n - 1) _ w1 ok1 (byte_lt _)
  · rw [Write8_uart_of_ne _ _ _ (by intro h; apply w1; unfold inWindow; omega),
      Write8_uart_of_ne _ _ _ hne]

/-- C17 (witness): 16 bytes of memory; `Write32(14, 0x41424344)` fails and leaves
`0x44` at 14 and `0x43` at 15. -/
theorem C17_write32_bytewise_short_circuit_witness :
    ((NewBus (NewRAM 16) NewUART).Write32 14 0x41424344).2 = false ∧
    ((NewBus (NewRAM 16) NewUART).Write32 14 0x41424344).1.Read8 14 = (0x44, true) ∧
    ((NewBus (NewRAM 16) NewUART).Write32 14 0x41424344).1.Read8 15 = (0x43, true) ∧
    ((NewBus (NewRAM 16) NewUART).Write32 14 0x41424344).1.uart = NewUART :=
  C17_write32_bytewise_short_circuit.2 (NewBus (NewRAM 16) NewUART) 0x41424344 16
    (by decide) (by decide) (by decide) (by decide) (by decide) (by decide)

/-- C20: word store/load round trip in RAM. For `addr + 3` below the memory size and
below `2^32`, the four addresses outside the device window, and a 32-bit `v`,
`Bus.Write32 addr v` succeeds, leaves the device output and the memory size alone and
changes no memory byte outside `addr .. addr+3`; afterwards `Bus.Read8 (addr + k)` is
byte `k` of `v` (little-endian) and `Bus.Read32 addr` returns `v`. -/
theorem C20_word_store_load_roundtrip (b : Bus) (addr v : Nat)
    (hsize : addr + 3 < b.ram.size) (hwrap : addr + 3 < 4294967296)
    (hwin : ∀ k, k < 4 → ¬ inWindow (addr + k)) (hv : v < 4294967296) :
    (b.Write32 addr v).2 = true ∧
    (b.Write32 addr v).1.uart = b.uart ∧
    (b.Write32 addr v).1.ram.size = b.ram.size ∧
    (∀ a, (a < addr ∨ addr + 3 < a) → (b.Write32 addr v).1.ram.data a = b.ram.data a) ∧
    (∀ k, k < 4 → (b.Write32 addr v).1.Read8 (addr + k) = (v / 256 ^ k % 256, true)) ∧
    (b.Write32 addr v).1.Read32 addr = (v, true) := by
  have w0 : ¬ inWindow addr := hwin 0 (by decide)
  have w1 : ¬ inWindow (addr + 1) := hwin 1 (by decide)
  have w2 : ¬ inWindow (addr + 2) := hwin 2 (by decide)
  have w3 : ¬ inWindow (addr + 3) := hwin 3 (by decide)
  have hne : addr ≠ 0x10000000 := by
    intro h; apply w0; unfold inWindow; omega
  have n1 : addr + 1 ≠ 0x10000000 := by intro h; apply w1; unfold inWindow; omega
  have n2 : addr + 2 ≠ 0x10000000 := by intro h; apply w2; unfold inWindow; omega
  have n3 : addr + 3 ≠ 0x10000000 := by intro h; apply w3; unfold inWindow; omega
  have a1 : add32 addr 1 = addr + 1 := by unfold add32; omega
  have a2 : add32 addr 2 = addr + 2 := by unfold add32; omega
  have a3 : add32 addr 3 = addr + 3 := by unfold add32; omega
  have ok0 : (b.Write8 addr (v &&& 0xFF)).2 = true := by
    rw [Write8_ok_iff]; right; omega
  have ok1 : ((b.Write8 addr (v &&& 0xFF)).1.Write8 (addr + 1) ((v >>> 8) &&& 0xFF)).2
      = true := by
    rw [Write8_ok_iff, Write8_size]; right; omega
  have ok2 : (((b.Write8 addr (v &&& 0xFF)).1.Write8 (addr + 1)
      ((v >>> 8) &&& 0xFF)).1.Write8 (addr + 2) ((v >>> 16) &&& 0xFF)).2 = true := by
    rw [Write8_ok_iff, Write8_size, Write8_size]; right; omega
  have ok3 : ((((b.Write8 addr (v &&& 0xFF)).1.Write8 (addr + 1)
      ((v >>> 8) &&& 0xFF)).1.Write8 (addr + 2) ((v >>> 16) &&& 0xFF)).1.Write8 (addr + 3)
      ((v >>> 24) &&& 0xFF)).2 = true := by
    rw [Write8_ok_iff, Write8_size, Write8_size, Write8_size]; right; omega
  have hseq := Write32_seq b addr v hne
  rw [a1, a2, a3] at hseq
  simp only [ok0, ok1, ok2, Bool.true_eq_false, if_false] at hseq
  have r0 : (b.Write32 addr v).1.Read8 addr = (v &&& 0xFF, true) := by
    rw [hseq, Read8_Write8_other _ _ _ _ (by omega : addr ≠ addr + 3),
      Read8_Write8_other _ _ _ _ (by omega : addr ≠ addr + 2),
      Read8_Write8_other _ _ _ _ (by omega : addr ≠ addr + 1)]
    exact Read8_Write8_same _ _ _ w0 ok0 (byte_lt _)
  have r1 : (b.Write32 addr v).1.Read8 (addr + 1) = ((v >>> 8) &&& 0xFF, true) := by
    rw [hseq, Read8_Write8_other _ _ _ _ (by omega : addr + 1 ≠ addr + 3),
      Read8_Write8_other _ _ _ _ (by omega : addr + 1 ≠ addr + 2)]
    exact Read8_Write8_same _ _ _ w1 ok1 (byte_lt _)
  have r2 : (b.Write32 addr v).1.Read8 (addr + 2) = ((v >>> 16) &&& 0xFF, true) := by
    rw [hseq, Read8_Write8_other _ _ _ _ (by omega : addr + 2 ≠ addr + 3)]
    exact Read8_Write8_same _ _ _ w2 ok2 (byte_lt _)
  have r3 : (b.Write32 addr v).1.Read8 (addr + 3) = ((v >>> 24) &&& 0xFF, true) := by
    rw [hseq]
    exact Read8_Write8_same _ _ _ w3 ok3 (byte_lt _)
  have e0 : v &&& 0xFF = v / 256 ^ 0 % 256 := by rw [and_FF]; norm_num
  have e1 : (v >>> 8) &&& 0xFF = v / 256 ^ 1 % 256 := by rw [and_FF, shr_eq]; norm_num
  have e2 : (v >>> 16) &&& 0xFF = v / 256 ^ 2 % 256 := by rw [and_FF, shr_eq]; norm_num
  have e3 : (v >>> 24) &&& 0xFF = v / 256 ^ 3 % 256 := by rw [and_FF, shr_eq]; norm_num
  refine ⟨?_, ?_, ?_, ?_, ?_, ?_⟩
  · rw [hseq]; exact ok3
  · rw [hseq, Write8_uart_of_ne _ _ _ n3, Write8_uart_of_ne _ _ _ n2,
      Write8_uart_of_ne _ _ _ n1, Write8_uart_of_ne _ _ _ hne]
  · rw [hseq, Write8_size, Write8_size, Write8_size, Write8_size]
  · intro a ha
    rw [hseq, Write8_data_other _ _ _ _ (by omega : a ≠ addr + 3),
      Write8_data_other _ _ _ _ (by omega : a ≠ addr + 2),
      Write8_data_other _ _ _ _ (by omega : a ≠ addr + 1),
      Write8_data_other _ _ _ _ (by omega : a ≠ addr)]
  · intro k hk
    have : k = 0 ∨ k = 1 ∨ k = 2 ∨ k = 3 := by omega
    rcases this with h | h | h | h <;> subst h
    · rw [← e0]; exact r0
    · rw [← e1]; exact r1
    · rw [← e2]; exact r2
    · rw [← e3]; exact r3
  · have h1' : (b.Write32 addr v).1.Read8 (add32 addr 1) = ((v >>> 8) &&& 0xFF, true) := by
      rw [a1]; exact r1
    have h2' : (b.Write32 addr v).1.Read8 (add32 addr 2) = ((v >>> 16) &&& 0xFF, true) := by
      rw [a2]; exact r2
    have h3' : (b.Write32 addr v).1.Read8 (add32 addr 3) = ((v >>> 24) &&& 0xFF, true) := by
      rw [a3]; exact r3
    rw [Bus_Read32_eq _ addr _ _ _ _ r0 h1' h2' h3', e0, e1, e2, e3]
    norm_num
    omega

/-- C20 (witness): 16 bytes of memory; storing `0xDEADBEEF` at address 12, the last
word, and loading it back. -/
theorem C20_word_store_load_roundtrip_witness :
    ((NewBus (NewRAM 16) NewUART).Write32 12 0xDEADBEEF).1.Read32 12 = (0xDEADBEEF, true) :=
  (C20_word_store_load_roundtrip (NewBus (NewRAM 16) NewUART) 12 0xDEADBEEF (by decide)
    (by decide) (by decide) (by decide)).2.2.2.2.2

/-- C12 (counterexample): on `selfModMachine` the first step returns true, the second
(the word store) returns false after overwriting bytes 5..7, which turns the word at the
program counter 4 into `0x000010A3` (opcode 0x23 with funct3 1, an unknown encoding), and
the third step returns true. -/
theorem C12_true_after_false_counterexample :
    selfModMachine.Step.2 = true ∧
    (stepN selfModMachine 1).fetch = (encS 0x23 0x2 0 1 5, true) ∧
    (stepN selfModMachine 1).Step.2 = false ∧
    (stepN selfModMachine 2).PC = 4 ∧
    (stepN selfModMachine 2).fetch = (0x000010A3, true) ∧
    (stepN selfModMachine 2).Step.2 = true := by
  decide

theorem Write8_idem (b : Bus) (a v : Nat) (hne : a ≠ 0x10000000) (hv : v < 256)
    (h : inWindow a ∨ b.Read8 a = (v, true)) : b.Write8 a v = (b, true) := by
  by_cases hw : inWindow a
  · exact Write8_window b a v hw hne
  · rcases h with h | h
    · exact absurd h hw
    · have hw' := (not_congr (window_iff a)).2 hw
      simp only [Bus.Read8, hw', if_false, RAM.Read8] at h
      by_cases hs : a < b.ram.size
      · rw [if_pos hs] at h
        have hd : (b.ram.data a).val = v := congrArg Prod.fst h
        have hd' : (⟨v % 256, Nat.mod_lt _ (by decide)⟩ : Fin 256) = b.ram.data a := by
          apply Fin.ext
          simp only [Nat.mod_eq_of_lt hv, hd]
        rw [Write8_ram b a v hw hs, hd', Function.update_eq_self]
      · rw [if_neg hs] at h
        cases h

theorem Write8_fail_not_window (b : Bus) (a v : Nat) (h : (b.Write8 a v).2 = false) :
    ¬ inWindow a := by
  intro hw
  have := (Write8_ok_iff b a v).2 (Or.inl hw)
  rw [this] at h; cases h

/-- A failed word store repeated on the bus it left fails again and changes nothing. -/
theorem Write32_fail_idem (b : Bus) (addr v : Nat) (h : (b.Write32 addr v).2 = false) :
    (b.Write32 addr v).1.Write32 addr v = ((b.Write32 addr v).1, false) := by
  have hne : addr ≠ 0x10000000 := by
    intro he
    subst he
    simp [Bus.Write32, UARTTx, UARTBase] at h
  obtain ⟨_, _, c0, c1, c2, c3, c4, k0, k1, k2⟩ :=
    Write32_bytewise b addr v _ _ _ _ hne rfl rfl rfl rfl
  -- abbreviations for the four sequential stores
  generalize hr0 : b.Write8 addr (v &&& 0xFF) = r0 at *
  generalize hr1 : r0.1.Write8 (add32 addr 1) ((v >>> 8) &&& 0xFF) = r1 at *
  generalize hr2 : r1.1.Write8 (add32 addr 2) ((v >>> 16) &&& 0xFF) = r2 at *
  generalize hr3 : r2.1.Write8 (add32 addr 3) ((v >>> 24) &&& 0xFF) = r3 at *
  by_cases o0 : r0.2 = true
  swap
  · have o0' : r0.2 = false := by simpa using o0
    have e := c0 o0'
    rw [e]
    exact e
  by_cases o1 : r1.2 = true
  swap
  · have o1' : r1.2 = false := by simpa using o1
    have e := c1 o0 o1'
    have kk0 := k0 o0
    rw [e] at kk0 ⊢
    have i0 : r0.1.Write8 addr (v &&& 0xFF) = (r0.1, true) :=
      Write8_idem _ _ _ hne (byte_lt _) (by
        by_cases hw : inWindow addr
        · exact Or.inl hw
        · exact Or.inr (kk0 hw))
    have f1 : r1.1 = r0.1 := by rw [← hr1] at o1' ⊢; exact Write8_of_fail _ _ _ o1'
    rw [Write32_seq _ addr v hne]
    simp only [i0, hr1, o1', Bool.true_eq_false, if_false, if_true, f1]
  by_cases o2 : r2.2 = true
  swap
  · have o2' : r2.2 = false := by simpa using o2
    have e := c2 o0 o1 o2'
    have kk0 := k0 o0
    have kk1 := k1 o0 o1
    rw [e] at kk0 kk1 ⊢
    have f2 : r2.1 = r1.1 := by rw [← hr2] at o2' ⊢; exact Write8_of_fail _ _ _ o2'
    have w2 : ¬ inWindow (add32 addr 2) := by
      rw [← hr2] at o2'; exact Write8_fail_not_window _ _ _ o2'
    have ne1 : add32 addr 1 ≠ 0x10000000 := by
      intro he; apply w2; unfold inWindow; unfold add32 at he ⊢; omega
    have i0 : r1.1.Write8 addr (v &&& 0xFF) = (r1.1, true) :=
      Write8_idem _ _ _ hne (byte_lt _) (by
        by_cases hw : inWindow addr
        · exact Or.inl hw
        · exact Or.inr (kk0 hw))
    have i1 : r1.1.Write8 (add32 addr 1) ((v >>> 8) &&& 0xFF) = (r1.1, true) :=
      Write8_idem _ _ _ ne1 (byte_lt _) (by
        by_cases hw : inWindow (add32 addr 1)
        · exact Or.inl hw
        · exact Or.inr (kk1 hw))
    rw [Write32_seq _ addr v hne]
    simp only [i0, i1, hr2, o2', Bool.true_eq_false, if_false, if_true, f2]
  have o3' : r3.2 = false := by
    by_contra o3
    have o3t : r3.2 = true := by simpa using o3
    rw [c4 o0 o1 o2 o3t] at h
    cases h
  have e := c3 o0 o1 o2 o3'
  have kk0 := k0 o0
  have kk1 := k1 o0 o1
  have kk2 := k2 o0 o1 o2
  rw [e] at kk0 kk1 kk2 ⊢
  have f3 : r3.1 = r2.1 := by rw [← hr3] at o3' ⊢; exact Write8_of_fail _ _ _ o3'
  have w3 : ¬ inWindow (add32 addr 3) := by
    rw [← hr3] at o3'; exact Write8_fail_not_window _ _ _ o3'
  have ne1 : add32 addr 1 ≠ 0x10000000 := by
    intro he; apply w3; unfold inWindow; unfold add32 at he ⊢; omega
  have ne2 : add32 addr 2 ≠ 0x10000000 := by
    intro he; apply w3; unfold inWindow; unfold add32 at he ⊢; omega
  have i0 : r2.1.Write8 addr (v &&& 0xFF) = (r2.1, true) :=
    Write8_idem _ _ _ hne (byte_lt _) (by
      by_cases hw : inWindow addr
      · exact Or.inl hw
      · exact Or.inr (kk0 hw))
  have i1 : r2.1.Write8 (add32 addr 1) ((v >>> 8) &&& 0xFF) = (r2.1, true) :=
    Write8_idem _ _ _ ne1 (byte_lt _) (by
      by_cases hw : inWindow (add32 addr 1)
      · exact Or.inl hw
      · exact Or.inr (kk1 hw))
  have i2 : r2.1.Write8 (add32 addr 2) ((v >>> 16) &&& 0xFF) = (r2.1, true) :=
    Write8_idem _ _ _ ne2 (byte_lt _) (by
      by_cases hw : inWindow (add32 addr 2)
      · exact Or.inl hw
      · exact Or.inr (kk2 hw))
  rw [Write32_seq _ addr v hne]
  simp only [i0, i1, i2, hr3, Bool.true_eq_false, if_false]
  exact Prod.ext f3 o3'

theorem execLoad_false (c : CPU) (inst rd f3 rs1 n : Nat)
    (h : (c.execLoad inst rd f3 rs1 n).2 = false) :
    c.execLoad inst rd f3 rs1 n = (c, false) := by
  unfold CPU.execLoad at h ⊢
  dsimp only at h ⊢
  by_cases h0 : f3 = 0
  · rw [if_pos h0] at h ⊢
    rcases hr : c.Bus.Read8 (add32 (c.readReg rs1) (toUint32 (immI inst))) with ⟨b, ok⟩
    rw [hr] at h
    cases ok
    · rfl
    · simp [CPU.finish] at h
  rw [if_neg h0] at h ⊢
  by_cases h4 : f3 = 4
  · rw [if_pos h4] at h ⊢
    rcases hr : c.Bus.Read8 (add32 (c.readReg rs1) (toUint32 (immI inst))) with ⟨b, ok⟩
    rw [hr] at h
    cases ok
    · rfl
    · simp [CPU.finish] at h
  rw [if_neg h4] at h ⊢
  by_cases h2 : f3 = 2
  · rw [if_pos h2] at h ⊢
    rcases hr : c.Bus.Read32 (add32 (c.readReg rs1) (toUint32 (immI inst))) with ⟨b, ok⟩
    rw [hr] at h
    cases ok
    · rfl
    · simp [CPU.finish] at h
  rw [if_neg h2] at h
  simp [CPU.finish] at h

theorem execStore_false (c : CPU) (inst f3 rs1 rs2 n : Nat)
    (h : (c.execStore inst f3 rs1 rs2 n).2 = false) :
    c.execStore inst f3 rs1 rs2 n = (c, false) ∨
    (f3 = 2 ∧
      (c.Bus.Write32 (add32 (c.readReg rs1) (toUint32 (immS inst))) (c.readReg rs2)).2 = false ∧
      c.execStore inst f3 rs1 rs2 n = ({ c with Bus :=
        (c.Bus.Write32 (add32 (c.readReg rs1) (toUint32 (immS inst))) (c.readReg rs2)).1 },
        false)) := by
  unfold CPU.execStore at h ⊢
  dsimp only at h ⊢
  by_cases h0 : f3 = 0
  · left
    rw [if_pos h0] at h ⊢
    rcases hr : c.Bus.Write8 (add32 (c.readReg rs1) (toUint32 (immS inst)))
      (c.readReg rs2 &&& 0xFF) with ⟨b, ok⟩
    rw [hr] at h
    cases ok
    · have hb : b = c.Bus := by
        have := Write8_of_fail c.Bus _ _ (by rw [hr])
        rw [hr] at this
        exact this
      subst hb
      rfl
    · simp [CPU.finish] at h
  rw [if_neg h0] at h ⊢
  by_cases h2 : f3 = 2
  · right
    rw [if_pos h2] at h ⊢
    rcases hr : c.Bus.Write32 (add32 (c.readReg rs1) (toUint32 (immS inst)))
      (c.readReg rs2) with ⟨b, ok⟩
    rw [hr] at h
    cases ok
    · exact ⟨h2, rfl, rfl⟩
    · simp [CPU.finish] at h
  rw [if_neg h2] at h
  simp [CPU.finish] at h

/-- A step that returns false after a successful fetch leaves the machine unchanged,
unless it is a word store (opcode 0x23, funct3 2) whose bus call failed. -/
theorem exec_false (c : CPU) (inst : Nat) (h : (c.exec inst).2 = false) :
    c.exec inst = (c, false) ∨
    (inst &&& 0x7F = 0x23 ∧ (inst >>> 12) &&& 0x7 = 2 ∧
      (c.Bus.Write32 (add32 (c.readReg ((inst >>> 15) &&& 0x1F)) (toUint32 (immS inst)))
        (c.readReg ((inst >>> 20) &&& 0x1F))).2 = false ∧
      c.exec inst = ({ c with Bus :=
        (c.Bus.Write32 (add32 (c.readReg ((inst >>> 15) &&& 0x1F)) (toUint32 (immS inst)))
          (c.readReg ((inst >>> 20) &&& 0x1F))).1 }, false)) := by
  by_cases h1 : inst &&& 0x7F = 0x37
  · simp [CPU.exec, h1, CPU.finish] at h
  by_cases h2 : inst &&& 0x7F = 0x17
  · simp [CPU.exec, h2, CPU.finish] at h
  by_cases h3 : inst &&& 0x7F = 0x6F
  · simp [CPU.exec, h3, CPU.finish] at h
  by_cases h4 : inst &&& 0x7F = 0x67
  · simp [CPU.exec, h4, CPU.finish] at h
  by_cases h5 : inst &&& 0x7F = 0x63
  · rw [exec_branch c inst h5, execBranch_true] at h; cases h
  by_cases h6 : inst &&& 0x7F = 0x03
  · rw [exec_load c inst h6] at h ⊢
    exact Or.inl (execLoad_false c inst _ _ _ _ h)
  by_cases h7 : inst &&& 0x7F = 0x23
  · rw [exec_store c inst h7] at h ⊢
    rcases execStore_false c inst _ _ _ _ h with e | ⟨hf3, hw, e⟩
    · exact Or.inl e
    · exact Or.inr ⟨h7, hf3, hw, e⟩
  by_cases h8 : inst &&& 0x7F = 0x13
  · rw [exec_opimm c inst h8, execOpImm_true] at h; cases h
  by_cases h9 : inst &&& 0x7F = 0x33
  · rw [exec_op c inst h9, execOp_true] at h; cases h
  by_cases h10 : inst &&& 0x7F = 0x73
  · left; simp [CPU.exec, h10]
  · simp [CPU.exec, h1, h2, h3, h4, h5, h6, h7, h8, h9, h10, CPU.finish] at h

theorem execStore_sw_fail (c : CPU) (inst rs1 rs2 n : Nat) (B : Bus)
    (h : c.Bus.Write32 (add32 (c.readReg rs1) (toUint32 (immS inst))) (c.readReg rs2)
      = (B, false)) :
    c.execStore inst 2 rs1 rs2 n = ({ c with Bus := B }, false) := by
  simp [CPU.execStore, h]

theorem readReg_with_Bus (c : CPU) (B : Bus) (i : Nat) :
    CPU.readReg { c with Bus := B } i = c.readReg i := rfl

theorem Step_sw_fixed (c : CPU) (inst : Nat) (B : Bus)
    (hf : CPU.fetch { c with Bus := B } = (inst, true))
    (hop : inst &&& 0x7F = 0x23) (hf3 : (inst >>> 12) &&& 0x7 = 2)
    (hB : B.Write32 (add32 (c.readReg ((inst >>> 15) &&& 0x1F)) (toUint32 (immS inst)))
      (c.readReg ((inst >>> 20) &&& 0x1F)) = (B, false)) :
    CPU.Step { c with Bus := B } = ({ c with Bus := B }, false) := by
  rw [Step_eq_exec _ inst hf, exec_store _ inst hop, hf3]
  have h := execStore_sw_fail { c with Bus := B } inst ((inst >>> 15) &&& 0x1F)
    ((inst >>> 20) &&& 0x1F) (add32 c.PC 4) B
    (by rw [readReg_with_Bus, readReg_with_Bus]; exact hB)
  exact h

/-- If a step returns false and the word at the program counter reads the same
afterwards, the step repeated on the machine it left returns false and changes
nothing. -/
theorem Step_false_fixed (c : CPU) (h : c.Step.2 = false) (hf : c.Step.1.fetch = c.fetch) :
    c.Step.1.Step = (c.Step.1, false) := by
  rcases Step_cases c with hs | ⟨inst, hfi, hs⟩
  · rw [hs]; exact hs
  · rw [hs] at h
    rcases exec_false c inst h with e | ⟨hop, hf3, hw, e⟩
    · have hc : c.Step = (c, false) := by rw [hs, e]
      rw [hc]
      exact hc
    · have hidem := Write32_fail_idem c.Bus _ _ hw
      generalize (c.Bus.Write32 (add32 (c.readReg ((inst >>> 15) &&& 0x1F))
        (toUint32 (immS inst))) (c.readReg ((inst >>> 20) &&& 0x1F))).1 = B at e hidem
      have hc : c.Step = ({ c with Bus := B }, false) := by rw [hs, e]
      rw [hc] at hf ⊢
      rw [hfi] at hf
      exact Step_sw_fixed c inst B hf hop hf3 hidem

/-- C12 (amended): halted is absorbing when the failing step did not rewrite the
instruction at the program counter. If `Step` returns false and the word fetched at the
program counter is the same after the call as before it, then the machine left by the
call is a fixed point: every later call of `Step` returns false and changes nothing.
A step that returns false leaves the machine unchanged (so that the condition holds)
unless it is a word store, opcode 0x23 with funct3 2, whose bus call failed. -/
theorem C12_halted_absorbing :
    (∀ (c : CPU), c.Step.2 = false → c.Step.1.fetch = c.fetch →
      ∀ n, stepN c.Step.1 n = c.Step.1 ∧ (stepN c.Step.1 n).Step.2 = false) ∧
    (∀ (c : CPU), c.Step.2 = false →
      c.Step.1 = c ∨
      ∃ inst, c.fetch = (inst, true) ∧ inst &&& 0x7F = 0x23 ∧ (inst >>> 12) &&& 0x7 = 2) := by
  constructor
  · intro c h hf n
    have hfix := Step_false_fixed c h hf
    have hn : ∀ n, stepN c.Step.1 n = c.Step.1 := by
      intro n
      induction n with
      | zero => rfl
      | succ n ih => rw [stepN_succ, ih, hfix]
    rw [hn n, hfix]
    exact ⟨rfl, rfl⟩
  · intro c h
    rcases Step_cases c with hs | ⟨inst, hfi, hs⟩
    · left; rw [hs]
    · rw [hs] at h ⊢
      rcases exec_false c inst h with e | ⟨hop, hf3, _, _⟩
      · left; rw [e]
      · right; exact ⟨inst, hfi, hop, hf3⟩

/-- C12 (witness): the branch test program halts at its `ECALL` after three steps; the
fourth, fifth, ... steps return false as well. -/
theorem C12_halted_absorbing_witness :
    (stepN (stepN beqTestMachine 3).Step.1 5).Step.2 = false :=
  (C12_halted_absorbing.1 (stepN beqTestMachine 3) (by decide) (by decide) 5).2

end Sim
